import Mathlib

/-! Remote ctfile mode engine (libcyphertite/ct_ctfile_mode.c)

A shallow embedding of the drivers of `ct_ctfile_mode.c` and the properties
of the specification that are settled against them.

Conventions of the embedding.

* The global state of the engine (`struct ct_global_state`) is an explicit
  record that every driver takes and returns.
* `ct_queue_first` appends the transaction to `ct_queued`, so `ct_queued`
  lists the transactions of a run in queue order.
* The transaction pool is the number of free slots `ct_trans_free_slots`;
  `ct_trans_alloc` takes one slot and fails when none is left.
* C strings are lists of characters without the terminating NUL.
* C integers are natural numbers. The offsets, sizes and block numbers of the
  drivers stay far below the bounds of their types; where a wraparound can
  be observed (the subtraction on the counter `shacnt`) it is spelled out.
* Collaborators that live outside this source file (the XML codec, the
  match compiler, the ctfile parser, the C library) are parameters of the
  drivers, or are modelled from the specification where stated.
-/

namespace Cyphertite

/-! ## Shared data model -/

/-- A C string: its characters up to, and without, the terminating NUL. -/
abbrev Name := List Char

/-- File state of the current operation (`ct_get_file_state`). -/
inductive ct_file_state_t
  | CT_S_STARTING
  | CT_S_RUNNING
  | CT_S_WAITING_SERVER
  | CT_S_WAITING_TRANS
  | CT_S_FINISHED
  deriving DecidableEq, Repr

/-- Error codes handed to `ct_fatal` or returned to callers. Codes produced by
collaborators outside this file are `CTE_OTHER n`. -/
inductive cte_t
  | CTE_ERRNO
  | CTE_INVALID_CTFILE_NAME
  | CTE_CANT_OPEN_REMOTE
  | CTE_SHORT_READ
  | CTE_SHORT_WRITE
  | CTE_NOTHING_TO_DELETE
  | CTE_CAN_NOT_DELETE
  | CTE_CULL_EVERYTHING
  | CTE_MISSING_CONFIG_VALUE
  | CTE_OTHER (code : Nat)
  deriving DecidableEq, Repr

/-- Owning state machine of a transaction (`tr_statemachine`). -/
inductive ct_statemachine_t
  | ct_state_none
  | ct_state_ctfile_archive
  | ct_state_ctfile_extract
  | ct_state_ctfile_list
  | ct_state_ctfile_delete
  | ct_state_cull
  deriving DecidableEq, Repr

/-- Protocol state of a transaction (`tr_state`); `TR_S_ZERO` is the value of a
freshly allocated, zeroed transaction. -/
inductive tr_state_t
  | TR_S_ZERO
  | TR_S_READ
  | TR_S_EX_SHA
  | TR_S_XML_OPEN
  | TR_S_XML_OPENED
  | TR_S_XML_CLOSE
  | TR_S_XML_CLOSING
  | TR_S_XML_CLOSED
  | TR_S_XML_LIST
  | TR_S_XML_DELETE
  | TR_S_XML_CULL_SEND
  | TR_S_XML_CULL_SHA_SEND
  | TR_S_XML_CULL_REPLIED
  | TR_S_XML_CULL_COMPLETE_SEND
  | TR_S_XML_EXT
  | TR_S_DONE
  deriving DecidableEq, Repr

/-- Transaction type (`tr_type`); `TR_T_ZERO` is the zeroed value. -/
inductive tr_type_t
  | TR_T_ZERO
  | TR_T_WRITE_CHUNK
  | TR_T_READ_CHUNK
  deriving DecidableEq, Repr

/-- The completion callbacks (`tr_complete`) installed in this file. -/
inductive ct_complete_fn
  | ctfile_complete_noop
  | ctfile_complete_noop_final
  | ctfile_xml_open_complete
  | ctfile_extract_complete_open
  | ctfile_extract_complete_read
  | ctfile_extract_complete_eof
  | ctfile_delete_complete
  | ct_cull_handle_complete
  deriving DecidableEq, Repr

/-- The cleanup callbacks (`tr_cleanup`) installed in this file. -/
inductive ct_cleanup_fn
  | ctfile_archive_free_fnode
  | ctfile_extract_cleanup_trans
  | ctfile_extract_cleanup_eof
  deriving DecidableEq, Repr

/-- Open mode of an xml-open message. -/
inductive md_mode_t
  | MD_O_READ
  | MD_O_WRITE
  deriving DecidableEq, Repr

/-- A SHA digest: the bytes of `sha_entry.sha`. -/
abbrev Sha := List Nat

/-- The control messages marshalled by the XML codec into `tr_data[2]`. -/
inductive xml_body
  | xml_open (file : Name) (mode : md_mode_t) (chunkno : Nat)
  | xml_close
  | xml_list
  | xml_delete (file : Name)
  | xml_cull_setup (uuid : Nat)
  | xml_cull_shas (uuid : Nat) (shas : List Sha)
  | xml_cull_complete (uuid : Nat)
  deriving DecidableEq, Repr

/-- A transaction (`struct ct_trans`), with the fields the drivers of this file
write. `c_flags`, `c_ex_status` and `c_size` are the fields of `hdr`;
`tr_size0` and `tr_size2` are `tr_size[0]` and `tr_size[2]`; `tr_data2` is the
marshalled body in `tr_data[2]`; `tr_fl_node` tells whether a file node is
attached. -/
structure ct_trans where
  tr_statemachine : ct_statemachine_t
  tr_state : tr_state_t
  tr_type : tr_type_t
  tr_eof : Nat
  tr_dataslot : Nat
  tr_size0 : Nat
  tr_size2 : Nat
  tr_chsize : Nat
  c_flags : Nat
  c_ex_status : Nat
  c_size : Nat
  tr_ctfile_chunkno : Nat
  tr_ctfile_name : Option Name
  tr_fl_node : Bool
  tr_complete : Option ct_complete_fn
  tr_cleanup : Option ct_cleanup_fn
  tr_data2 : Option xml_body
  deriving DecidableEq, Repr

/-- Modelled from the spec: `ct_trans_alloc` is not in this file; the
specification says that acquisition "returns a zeroed transaction". This is
that zeroed record. -/
def ct_trans_zero : ct_trans :=
  { tr_statemachine := ct_statemachine_t.ct_state_none
    tr_state := tr_state_t.TR_S_ZERO
    tr_type := tr_type_t.TR_T_ZERO
    tr_eof := 0
    tr_dataslot := 0
    tr_size0 := 0
    tr_size2 := 0
    tr_chsize := 0
    c_flags := 0
    c_ex_status := 0
    c_size := 0
    tr_ctfile_chunkno := 0
    tr_ctfile_name := none
    tr_fl_node := false
    tr_complete := none
    tr_cleanup := none
    tr_data2 := none }

/-- Start functions of operations (`ct_op_cb`). -/
inductive ct_op_cb
  | ctfile_archive
  | ctfile_extract
  | ctfile_list_start
  | ctfile_delete
  | ctfile_delete_check_required
  | ct_cull_setup
  | ct_cull_send_shas
  | ct_cull_send_complete
  | ct_cull_collect_ctfiles
  deriving DecidableEq, Repr

/-- Completion functions of operations (`ct_op_complete_cb`). -/
inductive ct_op_complete_cb
  | ctfile_op_cleanup
  | ctfile_process_delete
  | ctfile_delete_extract_cleanup
  | ctfile_delete_from_cache
  | ct_cull_complete
  | ct_cull_fetch_all_ctfiles
  | ct_cull_extract_cleanup
  deriving DecidableEq, Repr

/-- Argument pouch of an operation (`op_args`, with `op_priv` for the delete
trees): `struct ct_ctfileop_args` for archive and extract, `struct
ctfile_delete_args` for a delete (`cda_callback` tells whether the callback
of the caller is set), the caller arguments with the two trees for the
dependency check. -/
inductive ct_op_args
  | none
  | cca (cca_localname : Name) (cca_remotename : Option Name) (cca_ctfile : Nat)
  | cda (cda_name : Name) (cda_callback : Bool)
  | trees (all_files : List Name) (delete_files : List Name)
  deriving DecidableEq, Repr

/-- An operation of the queue (`struct ct_op`). -/
structure ct_op where
  op_start : ct_op_cb
  op_complete : Option ct_op_complete_cb
  op_args : ct_op_args
  deriving DecidableEq, Repr

/-- The part of `struct ct_global_state` (and of the process globals) that the
drivers of this file read and write.

* `ct_fatal_log` holds the codes passed to `ct_fatal`, oldest first.
* `ct_operations` is the operation queue, the current operation first.
* `ct_op_completed` counts the calls of `ct_op_complete`.
* `ctfile_list_files` is the listing the last xml-list reply left behind.
* `fnode_refs` counts `ct_alloc_fnode` and `ct_ref_fnode` calls, `fnode_frees`
  counts `ct_free_fnode` calls. -/
structure ct_global_state where
  ct_file_state : ct_file_state_t
  ct_dying : Bool
  ct_fatal_log : List cte_t
  ct_trans_free_slots : Nat
  ct_queued : List ct_trans
  ct_operations : List ct_op
  ct_op_completed : Nat
  ctfile_list_files : List Name
  st_bytes_tot : Nat
  st_bytes_read : Nat
  fnode_refs : Nat
  fnode_frees : Nat
  deriving DecidableEq, Repr

/-- Modelled from the spec: `ct_fatal` is not in this file; "a fatal signal
which stores an error code plus context string on the global state; drivers
on next resume observe dying and unwind". -/
def ct_fatal (state : ct_global_state) (code : cte_t) : ct_global_state :=
  { state with ct_dying := true, ct_fatal_log := state.ct_fatal_log ++ [code] }

/-- `ct_set_file_state`. -/
def ct_set_file_state (state : ct_global_state) (fs : ct_file_state_t) :
    ct_global_state :=
  { state with ct_file_state := fs }

/-- `ct_queue_first`: hand the transaction to the transport. -/
def ct_queue_first (state : ct_global_state) (trans : ct_trans) :
    ct_global_state :=
  { state with ct_queued := state.ct_queued ++ [trans] }

/-- Modelled from the spec: `ct_trans_free` is not in this file; "release
returns the transaction" to the pool. -/
def ct_trans_free (state : ct_global_state) : ct_global_state :=
  { state with ct_trans_free_slots := state.ct_trans_free_slots + 1 }

/-- Modelled from the spec: `ct_trans_alloc` is not in this file; "a
fixed-cardinality pool; acquire returns a zeroed transaction or none when
full". -/
def ct_trans_alloc (state : ct_global_state) : Option (ct_trans × ct_global_state) :=
  match state.ct_trans_free_slots with
  | 0 => none
  | n + 1 => some (ct_trans_zero, { state with ct_trans_free_slots := n })

/-- Modelled from the spec: `ct_add_operation` is not in this file; an
operation is "appended to the queue". -/
def ct_add_operation (state : ct_global_state) (start : ct_op_cb)
    (complete : Option ct_op_complete_cb) (args : ct_op_args) : ct_global_state :=
  { state with ct_operations := state.ct_operations ++ [⟨start, complete, args⟩] }

/-- Modelled from the spec: `ct_add_operation_after` is not in this file; the
operation is "inserted immediately after the current operation", which is
the head of `ct_operations`. -/
def ct_add_operation_after (state : ct_global_state) (start : ct_op_cb)
    (complete : Option ct_op_complete_cb) (args : ct_op_args) : ct_global_state :=
  match state.ct_operations with
  | [] => { state with ct_operations := [⟨start, complete, args⟩] }
  | cur :: rest =>
    { state with ct_operations := cur :: ⟨start, complete, args⟩ :: rest }

/-- Modelled from the spec: `ct_op_complete` is not in this file; it tells the
scheduler that the current operation is done. The calls are counted. -/
def ct_op_complete (state : ct_global_state) : ct_global_state :=
  { state with ct_op_completed := state.ct_op_completed + 1 }

/-- The global state at the start of an operation: file state `STARTING`,
dying flag clear, nothing queued, `free` transactions in the pool. -/
def ct_state_init (free : Nat) : ct_global_state :=
  { ct_file_state := ct_file_state_t.CT_S_STARTING
    ct_dying := false
    ct_fatal_log := []
    ct_trans_free_slots := free
    ct_queued := []
    ct_operations := []
    ct_op_completed := 0
    ctfile_list_files := []
    st_bytes_tot := 0
    st_bytes_read := 0
    fnode_refs := 0
    fnode_frees := 0 }

/-! ## The ctfile parser, as far as the drivers observe it -/

/-- A record returned by `ctfile_parse` before the end of the stream:
`XS_RET_FILE`, `XS_RET_FILE_END`, or `XS_RET_SHA` with the digests `xs_sha`
and `xs_csha` of the chunk. -/
inductive xs_record
  | XS_RET_FILE
  | XS_RET_FILE_END
  | XS_RET_SHA (xs_sha : Sha) (xs_csha : Sha)
  deriving DecidableEq, Repr

/-- A local manifest as the parser delivers it: the header fields
`cmg_prevlvl_filename` and the `CT_MD_CRYPTO` bit of `cmg_flags`, the records
in order, and how the stream ends (`none` for `XS_RET_EOF`, `some e` for
`XS_RET_FAIL` with `xs_errno = e`). -/
structure ctfile_manifest where
  cmg_prevlvl_filename : Option Name
  cmg_crypto : Bool
  records : List xs_record
  ending : Option cte_t
  deriving DecidableEq, Repr

/-! ## Ctfile archive driver -/

/-- Private state of an archive operation (`struct ctfile_archive_state`);
`cas_handle` and `cas_fnode` tell whether the pointer is non-NULL. -/
structure ctfile_archive_state where
  cas_handle : Bool
  cas_fnode : Bool
  cas_size : Nat
  cas_offset : Nat
  cas_block_no : Nat
  cas_open_sent : Nat
  deriving DecidableEq, Repr

/-- What an archive operation meets outside this file: the arguments of the
caller (`struct ct_ctfileop_args`), the configuration, the header constants
and the outcomes of the system and library calls.

* `fopen_ok`: `ct_fopen` returned a handle.
* `parse_init`: the result of `ctfile_parse_init_f` (`none` is 0).
* `manifest`: what `ctfile_parse` delivers when the source is pre-validated.
* `parse_seek k`: the result of the `k`-th `ctfile_parse_seek` (`none` is 0).
* `fstat`: `st_size`, or `none` when `fstat` fails.
* `ctfile_cook_name`: the naming function.
* `fread pos rsz`: the number of bytes `fread` returns when `rsz` bytes are
  requested at file position `pos`.
* `ct_create_xml_open`: the XML codec; an error code, or `c_size`. -/
structure archive_env where
  ct_max_block_size : Nat
  cca_localname : Name
  cca_cleartext : Nat
  cca_ctfile : Nat
  C_HDR_F_METADATA : Nat
  C_HDR_F_ENCRYPTED : Nat
  fopen_ok : Bool
  parse_init : Option cte_t
  manifest : ctfile_manifest
  parse_seek : Nat → Option cte_t
  fstat : Option Nat
  ctfile_cook_name : Name → Option Name
  fread : Nat → Nat → Nat
  ct_create_xml_open : Name → md_mode_t → Nat → Except cte_t Nat

/-- The operation record of an archive: the mutable argument
`cca_remotename` and the private state `op_priv`. -/
structure archive_op where
  cca_remotename : Option Name
  op_priv : Option ctfile_archive_state
  deriving DecidableEq, Repr

/-- `ct_xml_file_open`: turn the transaction into the xml-open carrier and
queue it; when the packet cannot be built, raise a fatal error and give the
transaction back to the pool. -/
def ct_xml_file_open
    (create : Name → md_mode_t → Nat → Except cte_t Nat)
    (state : ct_global_state) (trans : ct_trans) (file : Name)
    (mode : md_mode_t) (chunkno : Nat) (callback : ct_complete_fn) :
    ct_global_state :=
  let trans := { trans with
    tr_state := tr_state_t.TR_S_XML_OPEN
    tr_complete := some callback
    tr_cleanup := none }
  match create file mode chunkno with
  | Except.error ret => ct_trans_free (ct_fatal state ret)
  | Except.ok c_size =>
    let trans := { trans with
      c_size := c_size
      tr_data2 := some (xml_body.xml_open file mode chunkno)
      tr_dataslot := 2
      tr_size2 := c_size }
    ct_queue_first state trans

/-- The pre-validation loop of `ctfile_archive` (`cca_ctfile` set): parse the
records in order and seek past the payload of every SHA record; `k` counts
the seeks done so far. The result is the code of the fatal error, or `none`
when the parser reaches `XS_RET_EOF`. -/
def ctfile_archive_validate (seek : Nat → Option cte_t) (ending : Option cte_t) :
    List xs_record → Nat → Option cte_t
  | [], _ => ending
  | xs_record.XS_RET_SHA _ _ :: rest, k =>
    match seek k with
    | some e => some e
    | none => ctfile_archive_validate seek ending rest (k + 1)
  | _ :: rest, k => ctfile_archive_validate seek ending rest k

/-- The `dying:` exit of `ctfile_archive`: release what the private state
holds. -/
def ctfile_archive_dying (state : ct_global_state) (op : archive_op) :
    ct_global_state × archive_op :=
  match op.op_priv with
  | none => (state, op)
  | some cas =>
    let state :=
      if cas.cas_fnode then { state with fnode_frees := state.fnode_frees + 1 }
      else state
    (state, { op with op_priv := none })

/-- The close step of the `loop:` of `ctfile_archive` (`cas_size ==
cas_offset`): the allocated transaction becomes the xml-close carrier, is
queued, the private state is freed and the file state becomes `FINISHED`. -/
def ctfile_archive_close (env : archive_env) (rname : Name)
    (state : ct_global_state) (ct_trans : ct_trans) (cas : ctfile_archive_state) :
    ct_global_state :=
  let ct_trans := { ct_trans with
    tr_fl_node := false
    tr_state := tr_state_t.TR_S_XML_CLOSE
    tr_complete := some ct_complete_fn.ctfile_complete_noop_final
    tr_cleanup := none
    tr_eof := 1
    c_flags := env.C_HDR_F_METADATA
    tr_ctfile_name := some rname }
  let state := { state with st_bytes_tot := state.st_bytes_tot + cas.cas_size }
  let state := ct_queue_first state ct_trans
  ct_set_file_state state ct_file_state_t.CT_S_FINISHED

/-- The number of bytes `rsz` the read step of `ctfile_archive` requests. -/
def ctfile_archive_rsz (env : archive_env) (cas : ctfile_archive_state) : Nat :=
  let rsz := cas.cas_size - cas.cas_offset
  if rsz > env.ct_max_block_size then env.ct_max_block_size else rsz

/-- The read step of the `loop:` of `ctfile_archive` ("perform read"): read up
to `ct_max_block_size` bytes, fill in the write-chunk transaction, advance
block number and offset, and queue the transaction. -/
def ctfile_archive_read (env : archive_env) (rname : Name)
    (state : ct_global_state) (ct_trans : ct_trans) (cas : ctfile_archive_state) :
    ct_global_state × ctfile_archive_state :=
  let rsz := ctfile_archive_rsz env cas
  let rlen := env.fread cas.cas_offset rsz
  let state := { state with
    st_bytes_read := state.st_bytes_read + rlen
    fnode_refs := state.fnode_refs + 1 }
  let ct_trans := { ct_trans with
    tr_dataslot := 0
    tr_fl_node := true
    tr_chsize := rlen
    tr_size0 := rlen
    tr_state := tr_state_t.TR_S_READ
    tr_complete := some ct_complete_fn.ctfile_complete_noop
    tr_cleanup := some ct_cleanup_fn.ctfile_archive_free_fnode
    tr_type := tr_type_t.TR_T_WRITE_CHUNK
    tr_eof := 0
    c_flags := env.C_HDR_F_METADATA |||
      (if env.cca_cleartext = 0 then env.C_HDR_F_ENCRYPTED else 0)
    c_ex_status := 2
    tr_ctfile_chunkno := cas.cas_block_no
    tr_ctfile_name := some rname }
  let cas1 := { cas with cas_block_no := cas.cas_block_no + 1 }
  if rsz ≠ rlen ∨ rlen + cas.cas_offset = cas.cas_size then
    let cas2 := { cas1 with cas_offset := cas.cas_size, cas_fnode := false }
    let ct_trans := { ct_trans with tr_eof := 1 }
    let state := { state with fnode_frees := state.fnode_frees + 1 }
    (ct_queue_first state ct_trans, cas2)
  else
    let cas2 := { cas1 with cas_offset := cas.cas_offset + rlen }
    (ct_queue_first state ct_trans, cas2)

/-- The `loop:` of `ctfile_archive`. The first argument is the number of free
transactions, so `0` is the case where `ct_trans_alloc` returns NULL and
`free + 1` the case where it returns a zeroed transaction; the loop ends at
the latest when the pool is exhausted. -/
def ctfile_archive_loop (env : archive_env) (rname : Name) :
    Nat → ct_global_state → ctfile_archive_state →
    ct_global_state × Option ctfile_archive_state
  | 0, state, cas =>
    (ct_set_file_state state ct_file_state_t.CT_S_WAITING_TRANS, some cas)
  | free + 1, state, cas =>
    let state := { state with ct_trans_free_slots := free }
    let ct_trans := { ct_trans_zero with
      tr_statemachine := ct_statemachine_t.ct_state_ctfile_archive }
    if cas.cas_open_sent = 0 then
      let cas := { cas with cas_open_sent := 1 }
      let state := ct_xml_file_open env.ct_create_xml_open state ct_trans rname
        md_mode_t.MD_O_WRITE 0 ct_complete_fn.ctfile_xml_open_complete
      (ct_set_file_state state ct_file_state_t.CT_S_WAITING_SERVER, some cas)
    else if cas.cas_size = cas.cas_offset then
      (ctfile_archive_close env rname state ct_trans cas, none)
    else
      let r := ctfile_archive_read env rname state ct_trans cas
      ctfile_archive_loop env rname free r.1 r.2

/-- The `CT_S_STARTING` case of `ctfile_archive`: allocate the private state,
open and (on request) pre-validate the local file, take its size, settle
the remote name. The result is the private state and the remote name, or
the code of the fatal error together with the private state to unwind. -/
def ctfile_archive_start (env : archive_env) (op : archive_op) :
    Except (cte_t × ctfile_archive_state) (ctfile_archive_state × Name) :=
  let cas : ctfile_archive_state :=
    { cas_handle := false, cas_fnode := false, cas_size := 0, cas_offset := 0,
      cas_block_no := 0, cas_open_sent := 0 }
  if ¬ env.fopen_ok then Except.error (cte_t.CTE_ERRNO, cas)
  else
    let cas := { cas with cas_handle := true }
    let invalid : Option cte_t :=
      if env.cca_ctfile ≠ 0 then
        match env.parse_init with
        | some e => some e
        | none => ctfile_archive_validate env.parse_seek env.manifest.ending
            env.manifest.records 0
      else none
    match invalid with
    | some e => Except.error (e, cas)
    | none =>
      match env.fstat with
      | none => Except.error (cte_t.CTE_ERRNO, cas)
      | some st_size =>
        let cas := { cas with cas_size := st_size, cas_fnode := true }
        match op.cca_remotename with
        | some rname => Except.ok (cas, rname)
        | none =>
          match env.ctfile_cook_name env.cca_localname with
          | none => Except.error (cte_t.CTE_INVALID_CTFILE_NAME, cas)
          | some rname => Except.ok (cas, rname)

/-- `ctfile_archive`: one invocation of the driver by the scheduler.

Two entries are outside the embedding because the C code dereferences a NULL
pointer there: a resume in `RUNNING` or `WAITING_TRANS` without private state
or without remote name. Neither is reachable from `STARTING`; the state is
returned as it is. -/
def ctfile_archive (env : archive_env) (state : ct_global_state) (op : archive_op) :
    ct_global_state × archive_op :=
  if state.ct_dying then ctfile_archive_dying state op
  else
    match state.ct_file_state with
    | ct_file_state_t.CT_S_STARTING =>
      match ctfile_archive_start env op with
      | Except.error (e, cas) =>
        let state :=
          if cas.cas_fnode then { state with fnode_refs := state.fnode_refs + 1 }
          else state
        ctfile_archive_dying (ct_fatal state e) { op with op_priv := some cas }
      | Except.ok (cas, rname) =>
        let state := { state with fnode_refs := state.fnode_refs + 1 }
        let state := ct_set_file_state state ct_file_state_t.CT_S_RUNNING
        let r := ctfile_archive_loop env rname state.ct_trans_free_slots state cas
        (r.1, { cca_remotename := some rname, op_priv := r.2 })
    | ct_file_state_t.CT_S_FINISHED => (state, op)
    | ct_file_state_t.CT_S_WAITING_SERVER => (state, op)
    | _ =>
      match op.op_priv, op.cca_remotename with
      | some cas, some rname =>
        let state := ct_set_file_state state ct_file_state_t.CT_S_RUNNING
        let r := ctfile_archive_loop env rname state.ct_trans_free_slots state cas
        (r.1, { op with op_priv := r.2 })
      | _, _ => (state, op)

/-- `ctfile_xml_open_complete`: the reply to the xml-open moves the file state
to `RUNNING` (the wakeup is the next invocation of the driver). -/
def ctfile_xml_open_complete (state : ct_global_state) : ct_global_state :=
  ct_set_file_state state ct_file_state_t.CT_S_RUNNING

/-- What can happen to an archive operation between and including the
invocations of its driver.

* `wakeup`: the scheduler invokes `ctfile_archive`.
* `release`: a transaction in flight is returned to the pool.
* `open_reply`: the reply to the xml-open arrives and its completion
  `ctfile_xml_open_complete` runs; it can only arrive while an xml-open is
  queued and the driver waits for it.
* `die`: the process-wide dying flag is raised from elsewhere. -/
inductive archive_event
  | wakeup
  | release
  | open_reply
  | die
  deriving DecidableEq, Repr

/-- One step of an archive run. -/
def archive_step (env : archive_env) (s : ct_global_state × archive_op) :
    archive_event → ct_global_state × archive_op
  | archive_event.wakeup => ctfile_archive env s.1 s.2
  | archive_event.release => (ct_trans_free s.1, s.2)
  | archive_event.open_reply =>
    if s.1.ct_file_state = ct_file_state_t.CT_S_WAITING_SERVER ∧
        s.1.ct_queued.any (fun t => t.tr_state = tr_state_t.TR_S_XML_OPEN) then
      (ctfile_xml_open_complete s.1, s.2)
    else s
  | archive_event.die => ({ s.1 with ct_dying := true }, s.2)

/-- An archive operation before its first invocation: `free` transactions in
the pool, the remote name as the caller gave it, no private state. -/
def archive_init (free : Nat) (rname : Option Name) : ct_global_state × archive_op :=
  (ct_state_init free, { cca_remotename := rname, op_priv := none })

/-- An archive run: the events applied in order from the initial state. -/
def archive_run (env : archive_env) (free : Nat) (rname : Option Name)
    (evs : List archive_event) : ct_global_state × archive_op :=
  evs.foldl (archive_step env) (archive_init free rname)

/-- The write-chunk transactions of a queue, in queue order. -/
def write_chunks (q : List ct_trans) : List ct_trans :=
  q.filter (fun t => t.tr_type = tr_type_t.TR_T_WRITE_CHUNK)

/-- The sum of the payload sizes `tr_size[0]` of the write-chunk transactions. -/
def payload_sum (q : List ct_trans) : Nat :=
  ((write_chunks q).map (fun t => t.tr_size0)).sum

/-- The chunk numbers of the write-chunk transactions, in queue order. -/
def chunk_numbers (q : List ct_trans) : List Nat :=
  (write_chunks q).map (fun t => t.tr_ctfile_chunkno)

/-! ## Archive driver: notions used by the statements -/

/-- The transaction `ctfile_archive` works on after a successful allocation. -/
def archive_trans : ct_trans :=
  { ct_trans_zero with tr_statemachine := ct_statemachine_t.ct_state_ctfile_archive }

/-- The invariant of an archive run built from a relation `J` (remote name,
queue, private state), a property `F` of the queue of a finished run and a
property `G` of the queue at any time. -/
def archive_inv (given : Option Name)
    (J : Name → List ct_trans → ctfile_archive_state → Prop) (F G : List ct_trans → Prop)
    (s : ct_global_state × archive_op) : Prop :=
  (s.1.ct_file_state = ct_file_state_t.CT_S_STARTING →
    s.1.ct_queued = [] ∧ s.2.op_priv = none ∧ s.2.cca_remotename = given) ∧
  (∀ cas, s.2.op_priv = some cas →
    ∃ rname, s.2.cca_remotename = some rname ∧ J rname s.1.ct_queued cas) ∧
  (s.1.ct_file_state = ct_file_state_t.CT_S_FINISHED → F s.1.ct_queued) ∧
  G s.1.ct_queued

/-- The remote name an archive operation settles on: the name the caller
gave, or else the cooked local name. -/
def archive_rname (env : archive_env) (given : Option Name) : Option Name :=
  match given with
  | some rname => some rname
  | none => env.ctfile_cook_name env.cca_localname

/-- The number of blocks of a file of `S` bytes read `B` bytes at a time:
the ceiling of `S / B`. -/
def spec_blocks (S B : Nat) : Nat := (S + B - 1) / B

/-- The xml-open transaction the specification expects first: open for
write, chunk number 0. -/
def spec_archive_open (rname : Name) (c_size : Nat) : ct_trans :=
  { ct_trans_zero with
    tr_statemachine := ct_statemachine_t.ct_state_ctfile_archive
    tr_state := tr_state_t.TR_S_XML_OPEN
    tr_complete := some ct_complete_fn.ctfile_xml_open_complete
    tr_cleanup := none
    c_size := c_size
    tr_data2 := some (xml_body.xml_open rname md_mode_t.MD_O_WRITE 0)
    tr_dataslot := 2
    tr_size2 := c_size }

/-- The `i`-th write-chunk transaction the specification expects for a file
of `S` bytes: chunk number `i`, payload `min B (S - i * B)`, `METADATA` plus
`ENCRYPTED` unless cleartext was requested, `ex_status` 2, EOF on the last. -/
def spec_archive_chunk (env : archive_env) (rname : Name) (S : Nat) (i : Nat) : ct_trans :=
  { ct_trans_zero with
    tr_statemachine := ct_statemachine_t.ct_state_ctfile_archive
    tr_state := tr_state_t.TR_S_READ
    tr_type := tr_type_t.TR_T_WRITE_CHUNK
    tr_eof := if i + 1 = spec_blocks S env.ct_max_block_size then 1 else 0
    tr_dataslot := 0
    tr_size0 := min env.ct_max_block_size (S - i * env.ct_max_block_size)
    tr_chsize := min env.ct_max_block_size (S - i * env.ct_max_block_size)
    c_flags := env.C_HDR_F_METADATA |||
      (if env.cca_cleartext = 0 then env.C_HDR_F_ENCRYPTED else 0)
    c_ex_status := 2
    tr_ctfile_chunkno := i
    tr_ctfile_name := some rname
    tr_fl_node := true
    tr_complete := some ct_complete_fn.ctfile_complete_noop
    tr_cleanup := some ct_cleanup_fn.ctfile_archive_free_fnode }

/-- The xml-close transaction the specification expects last: EOF set. -/
def spec_archive_close (env : archive_env) (rname : Name) : ct_trans :=
  { ct_trans_zero with
    tr_statemachine := ct_statemachine_t.ct_state_ctfile_archive
    tr_state := tr_state_t.TR_S_XML_CLOSE
    tr_complete := some ct_complete_fn.ctfile_complete_noop_final
    tr_cleanup := none
    tr_eof := 1
    c_flags := env.C_HDR_F_METADATA
    tr_ctfile_name := some rname
    tr_fl_node := false }

/-- The first `k` write-chunk transactions the specification expects. -/
def spec_archive_chunks (env : archive_env) (rname : Name) (S k : Nat) : List ct_trans :=
  (List.range k).map (spec_archive_chunk env rname S)

/-- The complete queue the specification expects of an archive of `S` bytes:
xml-open, the write-chunks, xml-close. -/
def spec_archive_queue (env : archive_env) (rname : Name) (c_size S : Nat) :
    List ct_trans :=
  spec_archive_open rname c_size ::
    (spec_archive_chunks env rname S (spec_blocks S env.ct_max_block_size) ++
      [spec_archive_close env rname])

/-- The events of an archive run without suspension when `n` transactions
are needed after the open: one transaction is released, the driver starts
and sends the open, the reply arrives, `n` transactions are released, the
driver resumes. -/
def evs_straight (n : Nat) : List archive_event :=
  [archive_event.release, archive_event.wakeup, archive_event.open_reply] ++
    (List.replicate n archive_event.release ++ [archive_event.wakeup])

/-- A 2050-byte file, blocks of 1024 bytes, cleartext, reads that return what
was requested. -/
def env_2050 : archive_env :=
  { ct_max_block_size := 1024
    cca_localname := ['f']
    cca_cleartext := 1
    cca_ctfile := 0
    C_HDR_F_METADATA := 4
    C_HDR_F_ENCRYPTED := 2
    fopen_ok := true
    parse_init := none
    manifest := ⟨none, false, [], none⟩
    parse_seek := fun _ => none
    fstat := some 2050
    ctfile_cook_name := fun n => some n
    fread := fun _ n => n
    ct_create_xml_open := fun _ _ _ => Except.ok 100 }

/-- A 10-byte file whose read comes up short: 3 of the 10 bytes requested. -/
def env_short_read : archive_env :=
  { env_2050 with fstat := some 10, fread := fun _ n => min n 3 }

/-- A run with a suspension: three free transactions, the open, its reply,
the driver runs out of transactions, two are released, the driver resumes. -/
def evs_suspended : List archive_event :=
  [archive_event.wakeup, archive_event.open_reply, archive_event.wakeup,
   archive_event.release, archive_event.release, archive_event.wakeup]

/-! ## Name verifier -/

/-- The C library `strcspn`: the length of the initial segment of `s` that
holds no character of `reject`. -/
def strcspn (s : Name) (reject : List Char) : Nat :=
  (s.takeWhile (fun c => decide (c ∉ reject))).length

/-- The fake date stamp that `ctfile_verify_name` puts in front of the name. -/
def ctfile_fake_stamp : Name := "YYYYMMDD-HHMMSS-".toList

/-- `ctfile_verify_name`. The rejection set `CT_CTFILE_REJECTCHRS`, the buffer
size `CT_CTFILE_MAXLEN` and the encoder `ct_base64_encode` (source bytes and
size of the destination buffer to return code, 0 for success) come from
headers and files outside this one and are parameters. `none` is the NULL
name. `snprintf` returns the length of the untruncated string, so `b` holds
the whole string whenever the first test passes. -/
def ctfile_verify_name (CT_CTFILE_REJECTCHRS : List Char) (CT_CTFILE_MAXLEN : Nat)
    (ct_base64_encode : Name → Nat → Nat) (ctfile : Option Name) : Nat :=
  match ctfile with
  | none => 1
  | some ctfile =>
    let b := ctfile_fake_stamp ++ ctfile
    let sz := b.length
    if sz ≥ CT_CTFILE_MAXLEN then 1
    else if ct_base64_encode b CT_CTFILE_MAXLEN ≠ 0 then 1
    else
      let ctfilelen := ctfile.length
      let span := strcspn ctfile CT_CTFILE_REJECTCHRS
      if span = ctfilelen then 0 else 1

/-- A base64 encoder as far as its return code goes, used to instantiate the
parameter of `ctfile_verify_name`: it succeeds when four output characters
per three input bytes, and the terminating NUL, fit the destination. -/
def base64_fits (src : Name) (dst_len : Nat) : Nat :=
  if 4 * ((src.length + 2) / 3) + 1 ≤ dst_len then 0 else 1

/-! ## The live-SHA set -/

/-- Width of a digest, `sizeof(node->sha)`: the `SHA_DIGEST_LENGTH` of SHA-1. -/
def SHA_DIGEST_LENGTH : Nat := 20

/-- The C library `memcmp` on the first `n` bytes: zero when they agree, else
the difference of the first pair of bytes that differ. A digest shorter than
`n` bytes is read as if padded with zero bytes. -/
def memcmp (a b : Sha) : Nat → Int
  | 0 => 0
  | n + 1 =>
    if a.headD 0 ≠ b.headD 0 then (a.headD 0 : Int) - (b.headD 0 : Int)
    else memcmp a.tail b.tail n

/-- `ct_cmp_sha`: the key comparison of the SHA tree. -/
def ct_cmp_sha (d1 d2 : Sha) : Int :=
  memcmp d1 d2 SHA_DIGEST_LENGTH

/-- `RB_INSERT(ct_sha_lookup, head, node)` of `sys/tree.h`, with the tree
represented by its in-order sequence: descend by `ct_cmp_sha`, and either
link the node in (result `none`, the NULL of the C macro) or return the
member with the same key and leave the tree alone. -/
def RB_INSERT_sha : List Sha → Sha → Option Sha × List Sha
  | [], node => (none, [node])
  | x :: rest, node =>
    if ct_cmp_sha node x < 0 then (none, node :: x :: rest)
    else if ct_cmp_sha node x > 0 then
      ((RB_INSERT_sha rest node).1, x :: (RB_INSERT_sha rest node).2)
    else (some x, x :: rest)

/-- The process globals of the cull: the SHA tree `ct_sha_rb_head`, the
counters `shacnt` and `sha_payload_sz`, `cull_uuid`, `sha_per_packet`, the
number of calls of `ctdb_cull_start` and the list of digests passed to
`ctdb_cull_mark`. -/
structure cull_globals where
  ct_sha_rb_head : List Sha
  shacnt : Nat
  sha_payload_sz : Nat
  cull_uuid : Nat
  sha_per_packet : Nat
  ctdb_cull_started : Nat
  ctdb_marked : List Sha
  deriving DecidableEq, Repr

/-- `ct_cull_sha_insert`: copy the digest into a fresh node (`bcopy` of
`sizeof(node->sha)` bytes), insert it, and count it when it was not there.
The result is `exists` and the new globals. `shacnt` counts nodes held in
memory, so the increment of the `uint64_t` is taken without wraparound. -/
def ct_cull_sha_insert (g : cull_globals) (sha : Sha) : Nat × cull_globals :=
  let node := sha.take SHA_DIGEST_LENGTH
  let r := RB_INSERT_sha g.ct_sha_rb_head node
  match r.1 with
  | some _ => (1, g)
  | none => (0, { g with ct_sha_rb_head := r.2, shacnt := g.shacnt + 1 })

/-- The tree invariant of the SHA set: the in-order sequence is strictly
increasing in `ct_cmp_sha`. -/
def sha_tree_ordered (head : List Sha) : Prop :=
  head.Pairwise (fun a b => ct_cmp_sha a b < 0)

/-- The members of the SHA set with the key of `d`. -/
def sha_members (head : List Sha) (d : Sha) : List Sha :=
  head.filter (fun x => decide (ct_cmp_sha d x = 0))

/-- A SHA set with two members, for the examples. -/
def sha_set_example : cull_globals :=
  { ct_sha_rb_head := [List.replicate 20 1, List.replicate 20 7]
    shacnt := 2
    sha_payload_sz := 0
    cull_uuid := 0
    sha_per_packet := 1000
    ctdb_cull_started := 0
    ctdb_marked := [] }

/-! ## Cull: streaming the live-SHA set -/

/-- What `ct_create_xml_cull_shas` hands back on success: the size of the
marshalled body (`hdr.c_size`), the digests it encoded, the tree it left
behind, and the count `sha_add` it reports. -/
structure cull_shas_packet where
  c_size : Nat
  shas : List Sha
  rest : List Sha
  sha_add : Nat
  deriving DecidableEq, Repr

/-- Modelled from the spec: `ct_create_xml_cull_shas` is not in this file. This
is the packet encoder of the batching property: it removes `min B remaining`
digests per call, in tree order, and reports that count; "a batch boundary
is reached when either `sha_per_packet` digests have been encoded or the set
has been fully drained". The size of the body is `xml_size` of the digests
encoded. -/
def spec_create_xml_cull_shas (xml_size : List Sha → Nat) (_uuid : Nat)
    (head : List Sha) (sha_per_packet : Nat) : Except cte_t cull_shas_packet :=
  Except.ok
    { c_size := xml_size (head.take sha_per_packet)
      shas := head.take sha_per_packet
      rest := head.drop sha_per_packet
      sha_add := min sha_per_packet head.length }

/-- `shacnt -= sha_add` on the `uint64_t` counter: the difference, with a wrap
by `2^64` when the subtrahend is the larger. -/
def shacnt_sub (shacnt sha_add : Nat) : Nat :=
  if sha_add ≤ shacnt then shacnt - sha_add else shacnt + 2 ^ 64 - sha_add

/-- `ct_cull_send_shas`: one invocation of the driver. The encoder
`ct_create_xml_cull_shas` is a parameter. On an encoder failure the
transaction is neither queued nor returned to the pool. -/
def ct_cull_send_shas
    (ct_create_xml_cull_shas : Nat → List Sha → Nat → Except cte_t cull_shas_packet)
    (state : ct_global_state) (g : cull_globals) : ct_global_state × cull_globals :=
  if state.ct_file_state = ct_file_state_t.CT_S_FINISHED then (state, g)
  else if state.ct_dying then (state, g)
  else
    let state := ct_set_file_state state ct_file_state_t.CT_S_RUNNING
    match ct_trans_alloc state with
    | none => (ct_set_file_state state ct_file_state_t.CT_S_WAITING_TRANS, g)
    | some (t, state) =>
      let trans := { t with
        tr_statemachine := ct_statemachine_t.ct_state_cull
        tr_state := tr_state_t.TR_S_XML_CULL_SHA_SEND }
      match ct_create_xml_cull_shas g.cull_uuid g.ct_sha_rb_head g.sha_per_packet with
      | Except.error ret => (ct_fatal state ret, g)
      | Except.ok pkt =>
        let g := { g with
          ct_sha_rb_head := pkt.rest
          shacnt := shacnt_sub g.shacnt pkt.sha_add }
        let trans := { trans with
          c_size := pkt.c_size
          tr_data2 := some (xml_body.xml_cull_shas g.cull_uuid pkt.shas)
          tr_dataslot := 2
          tr_size2 := pkt.c_size
          tr_complete := some ct_complete_fn.ct_cull_handle_complete
          tr_cleanup := none }
        let g := { g with sha_payload_sz := g.sha_payload_sz + pkt.c_size }
        if g.shacnt = 0 ∨ g.ct_sha_rb_head = [] then
          let trans := { trans with tr_eof := 1 }
          let state := ct_queue_first state trans
          (ct_set_file_state state ct_file_state_t.CT_S_FINISHED, g)
        else
          (ct_queue_first state trans, g)

/-- What can happen to a cull-send operation: the scheduler invokes the
driver (after a completion woke it, or after a transaction was freed), a
transaction is returned to the pool, the dying flag is raised. -/
inductive cull_event
  | wakeup
  | release
  | die
  deriving DecidableEq, Repr

/-- One step of a cull-send run. -/
def cull_send_step
    (enc : Nat → List Sha → Nat → Except cte_t cull_shas_packet)
    (s : ct_global_state × cull_globals) : cull_event → ct_global_state × cull_globals
  | cull_event.wakeup => ct_cull_send_shas enc s.1 s.2
  | cull_event.release => (ct_trans_free s.1, s.2)
  | cull_event.die => ({ s.1 with ct_dying := true }, s.2)

/-- A cull-send run from the start of the operation. -/
def cull_send_run
    (enc : Nat → List Sha → Nat → Except cte_t cull_shas_packet)
    (free : Nat) (g : cull_globals) (evs : List cull_event) :
    ct_global_state × cull_globals :=
  evs.foldl (cull_send_step enc) (ct_state_init free, g)

/-- The EOF flags of the queued transactions, in queue order. -/
def queued_eofs (q : List ct_trans) : List Nat :=
  q.map (fun t => t.tr_eof)

/-- The cull-shas transactions of a queue. -/
def cull_shas_trans (q : List ct_trans) : List ct_trans :=
  q.filter (fun t => t.tr_state = tr_state_t.TR_S_XML_CULL_SHA_SEND)

/-- The cull globals over a given set, with `shacnt` its size. -/
def cull_globals_of (head : List Sha) (sha_per_packet : Nat) : cull_globals :=
  { ct_sha_rb_head := head
    shacnt := head.length
    sha_payload_sz := 0
    cull_uuid := 0
    sha_per_packet := sha_per_packet
    ctdb_cull_started := 0
    ctdb_marked := [] }

/-- The events of a cull-send run without suspension: `n` times a free
transaction and an invocation. -/
def cull_evs_straight : Nat → List cull_event
  | 0 => []
  | n + 1 => cull_event.release :: cull_event.wakeup :: cull_evs_straight n

/-- The invariant of a cull-send run over a set of `S` digests in batches of
`B`: every queued transaction is a cull-shas transaction; once `FINISHED`
the queue holds `max 1 (ceil (S / B))` of them of which only the last has
EOF; before that none has EOF and the set holds what is left to send. -/
def cull_send_inv (S B : Nat) (s : ct_global_state × cull_globals) : Prop :=
  (∀ t ∈ s.1.ct_queued, t.tr_state = tr_state_t.TR_S_XML_CULL_SHA_SEND) ∧
  s.2.sha_per_packet = B ∧
  (s.1.ct_file_state = ct_file_state_t.CT_S_FINISHED →
    s.1.ct_queued.length = max 1 (spec_blocks S B) ∧
    queued_eofs s.1.ct_queued = List.replicate (max 1 (spec_blocks S B) - 1) 0 ++ [1]) ∧
  (s.1.ct_file_state ≠ ct_file_state_t.CT_S_FINISHED →
    queued_eofs s.1.ct_queued = List.replicate s.1.ct_queued.length 0 ∧
    s.2.ct_sha_rb_head.length = S - s.1.ct_queued.length * B ∧
    s.2.shacnt = s.2.ct_sha_rb_head.length ∧
    (s.1.ct_queued.length = 0 ∨ s.1.ct_queued.length * B < S))

/-! ## Name trees and the manifest cache -/

/-- The place `RB_INSERT` links a new name in: before the first member that
is greater in the order of names. -/
def ctfile_list_tree_link : List Name → Name → List Name
  | [], file => [file]
  | x :: rest, file =>
    if file < x then file :: x :: rest
    else x :: ctfile_list_tree_link rest file

/-- Modelled from the spec: the comparator and the `RB_GENERATE` of
`ctfile_list_tree` are not in this file; list entries are "organized in an
ordered set keyed by name". The tree is represented by the sequence of its
names without repeats; `RB_INSERT` leaves the tree alone when the name is
there and else links it in at its place in the order of names. -/
def ctfile_list_tree_insert (tree : List Name) (file : Name) : List Name :=
  if file ∈ tree then tree else ctfile_list_tree_link tree file

/-- `RB_FIND` on a tree of names: the member with the name of the key. -/
def ctfile_list_tree_find (tree : List Name) (key : Name) : Option Name :=
  tree.find? (fun x => decide (x = key))

/-- The C library `strlcpy` into a buffer of `size` bytes: at most `size - 1`
characters are copied. -/
def strlcpy (src : Name) (size : Nat) : Name :=
  src.take (size - 1)

/-- The local cache of manifests: what `ctfile_parse_init` finds under a name,
an error code or the manifest. -/
abbrev ctfile_cache := Name → Except cte_t ctfile_manifest

/-- Modelled from the spec: `ctfile_get_previous` is not in this file; it reads
"its immediate predecessor name (a field in the ctfile header, if any)" from
the cached manifest of the name, and fails when the manifest cannot be read. -/
def ctfile_get_previous (cache : ctfile_cache) (name : Name) :
    Except cte_t (Option Name) :=
  match cache name with
  | Except.error e => Except.error e
  | Except.ok m => Except.ok m.cmg_prevlvl_filename

/-! ## Delete orchestration -/

/-- The two trees of a delete (`struct ct_delete_trees`). The sequence of a
tree is the order in which the driver takes its members out. -/
structure ct_delete_trees where
  all_files : List Name
  delete_files : List Name
  deriving DecidableEq, Repr

/-- Pass 2 of `ctfile_delete_check_required`: take the retained files out of
`all_files` one by one, read the predecessor of each and look it up in
`delete_files` under the key `strlcpy` left in `search.mlf_name` (`size` is
`sizeof(search.mlf_name)`). `fail` is the flag of the C code; the second
component lists the files examined so far. -/
def ctfile_delete_check_pass2 (cache : ctfile_cache) (size : Nat)
    (delete_files : List Name) : List Name → Nat → List Name → Nat × List Name
  | [], fail, examined => (fail, examined)
  | file :: rest, fail, examined =>
    match ctfile_get_previous cache file with
    | Except.error _ =>
      ctfile_delete_check_pass2 cache size delete_files rest 1 (examined ++ [file])
    | Except.ok none =>
      ctfile_delete_check_pass2 cache size delete_files rest fail (examined ++ [file])
    | Except.ok (some prev_filename) =>
      let search := strlcpy prev_filename size
      match ctfile_list_tree_find delete_files search with
      | some _ =>
        ctfile_delete_check_pass2 cache size delete_files rest 1 (examined ++ [file])
      | none =>
        ctfile_delete_check_pass2 cache size delete_files rest fail (examined ++ [file])

/-- The last loop of `ctfile_delete_check_required`: one `ctfile_delete`
operation with the completion `ctfile_delete_from_cache` per member of
`delete_files`; `cda_callback` is copied from the arguments of the caller
(`ccda_callback` tells whether `ccda->ccda_callback` is set). -/
def ctfile_delete_schedule (ccda_callback : Bool) (state : ct_global_state) :
    List Name → ct_global_state
  | [] => state
  | file :: rest =>
    ctfile_delete_schedule ccda_callback
      (ct_add_operation state ct_op_cb.ctfile_delete
        (some ct_op_complete_cb.ctfile_delete_from_cache)
        (ct_op_args.cda file ccda_callback))
      rest

/-- `ctfile_delete_check_required`. `ccda_callback` tells whether the callback
in the arguments of the caller is set. The result is the global state, the
trees left in `op_priv` (`none` once freed) and the retained files examined. -/
def ctfile_delete_check_required (cache : ctfile_cache) (size : Nat) (ccda_callback : Bool)
    (state : ct_global_state) (trees : ct_delete_trees) :
    ct_global_state × Option ct_delete_trees × List Name :=
  if state.ct_file_state = ct_file_state_t.CT_S_FINISHED then (state, some trees, [])
  else if state.ct_dying then (state, none, [])
  else
    let r := ctfile_delete_check_pass2 cache size trees.delete_files trees.all_files 0 []
    if r.1 ≠ 0 then (ct_fatal state cte_t.CTE_CAN_NOT_DELETE, none, r.2)
    else
      let state := ctfile_delete_schedule ccda_callback state trees.delete_files
      let state := ct_set_file_state state ct_file_state_t.CT_S_FINISHED
      (ct_op_complete state, none, r.2)

/-- The `ctfile_delete` operations of an operation queue. -/
def delete_ops (ops : List ct_op) : List ct_op :=
  ops.filter (fun o => o.op_start = ct_op_cb.ctfile_delete)

/-- Match modes of `ct_match_compile`. -/
inductive ct_match_mode
  | CT_MATCH_REGEX
  | CT_MATCH_RB
  | CT_MATCH_GLOB
  | CT_MATCH_EVERYTHING
  deriving DecidableEq, Repr

/-- The pattern list `all_ctfiles_pattern`. -/
def all_ctfiles_pattern : List Name :=
  ["^[[:digit:]]\x7b8\x7d-[[:digit:]]\x7b6\x7d-.*".toList]

/-- The match compiler `ct_match_compile` together with `ct_match`: for a mode
and a pattern list, an error code or the matcher, which returns 0 for a name
that matches and 1 for one that does not. -/
abbrev ct_match_compiler :=
  ct_match_mode → List Name → Except cte_t (Name → Nat)

/-- The filter loop of `ctfile_list_complete`: every file leaves the list and
goes into the results when it matches and is not excluded. -/
def ctfile_list_filter (m : Name → Nat) (ex_match : Option (Name → Nat)) :
    List Name → List Name → List Name
  | [], results => results
  | file :: rest, results =>
    let not_excluded : Bool :=
      match ex_match with
      | none => true
      | some ex => decide (ex file = 1)
    if m file = 0 ∧ not_excluded then
      ctfile_list_filter m ex_match rest (ctfile_list_tree_insert results file)
    else ctfile_list_filter m ex_match rest results

/-- `ctfile_list_complete`: the return code (`none` is 0), the list as it is
left, and the result tree. -/
def ctfile_list_complete (compile : ct_match_compiler) (files : List Name)
    (matchmode : ct_match_mode) (flist : List Name) (excludelist : Option (List Name))
    (results : List Name) : Option cte_t × List Name × List Name :=
  if files = [] then (none, files, results)
  else
    match compile matchmode flist with
    | Except.error ret => (some ret, files, results)
    | Except.ok m =>
      match excludelist with
      | none => (none, [], ctfile_list_filter m none files results)
      | some ex =>
        match compile matchmode ex with
        | Except.error ret => (some ret, files, results)
        | Except.ok ex_match => (none, [], ctfile_list_filter m (some ex_match) files results)

/-- Pass 1 of `ctfile_process_delete` (`RB_FOREACH_SAFE` over `all_files`):
every visited file that matches the pattern of the caller moves from
`all_files` to `delete_files`. -/
def ctfile_process_delete_pass1 (m : Name → Nat) :
    List Name → ct_delete_trees → ct_delete_trees
  | [], trees => trees
  | file :: rest, trees =>
    if m file = 0 then
      ctfile_process_delete_pass1 m rest
        { all_files := trees.all_files.erase file
          delete_files := ctfile_list_tree_insert trees.delete_files file }
    else ctfile_process_delete_pass1 m rest trees

/-- The fetch loop of `ctfile_process_delete`: for every retained file that is
not in the cache an extract operation is spliced in after the current one. -/
def ctfile_process_delete_fetch (in_cache : Name → Bool) (state : ct_global_state) :
    List Name → ct_global_state
  | [] => state
  | file :: rest =>
    if ¬ in_cache file then
      ctfile_process_delete_fetch in_cache
        (ct_add_operation_after state ct_op_cb.ctfile_extract
          (some ct_op_complete_cb.ctfile_delete_extract_cleanup)
          (ct_op_args.cca file (some file) 1))
        rest
    else ctfile_process_delete_fetch in_cache state rest

/-- `ctfile_process_delete`, the completion of the list operation of a delete.
`ccda_matchmode` and `ccda_pattern` are the arguments of the caller,
`in_cache` is `ctfile_in_cache`. The result is the return code (`none` is 0)
and the global state. -/
def ctfile_process_delete (compile : ct_match_compiler) (ccda_matchmode : ct_match_mode)
    (ccda_pattern : List Name) (in_cache : Name → Bool) (state : ct_global_state) :
    Option cte_t × ct_global_state :=
  let r := ctfile_list_complete compile state.ctfile_list_files
    ct_match_mode.CT_MATCH_REGEX all_ctfiles_pattern none []
  let state := { state with ctfile_list_files := r.2.1 }
  match r.1 with
  | some ret => (some ret, state)
  | none =>
    match compile ccda_matchmode ccda_pattern with
    | Except.error ret => (some ret, state)
    | Except.ok m =>
      let trees := ctfile_process_delete_pass1 m r.2.2
        { all_files := r.2.2, delete_files := [] }
      if trees.delete_files = [] then (some cte_t.CTE_NOTHING_TO_DELETE, state)
      else
        let state := ctfile_process_delete_fetch in_cache state trees.all_files
        let state := ct_add_operation state ct_op_cb.ctfile_delete_check_required none
          (ct_op_args.trees trees.all_files trees.delete_files)
        (none, state)

/-- The cache of scenario S5: `B` names `A` as its predecessor, `A` has none. -/
def cache_S5 : ctfile_cache := fun n =>
  if n = ['B'] then Except.ok ⟨some ['A'], false, [], none⟩
  else if n = ['A'] then Except.ok ⟨none, false, [], none⟩
  else Except.error cte_t.CTE_ERRNO

/-- A cache in which the manifest of `B` cannot be read. -/
def cache_unreadable : ctfile_cache := fun n =>
  if n = ['A'] then Except.ok ⟨none, false, [], none⟩
  else Except.error cte_t.CTE_ERRNO

/-- The `ctfile_delete` operation the dependency check schedules for a name,
with the callback of the caller set or not. -/
def spec_delete_op (cda_callback : Bool) (name : Name) : ct_op :=
  { op_start := ct_op_cb.ctfile_delete
    op_complete := some ct_op_complete_cb.ctfile_delete_from_cache
    op_args := ct_op_args.cda name cda_callback }

/-- A match compiler for the examples: the regular expression of
`all_ctfiles_pattern` accepts names of at least two characters, any other
pattern list accepts the names that start with its first character, and an
empty pattern list does not compile. -/
def compile_example : ct_match_compiler := fun mode pats =>
  match mode with
  | ct_match_mode.CT_MATCH_REGEX => Except.ok (fun n => if n.length ≥ 2 then 0 else 1)
  | _ =>
    if pats = [] then Except.error (cte_t.CTE_OTHER 7)
    else Except.ok (fun n => if n.head? = pats.head?.bind List.head? then 0 else 1)

/-- A listing for the examples. -/
def listing_example : ct_global_state :=
  { ct_state_init 0 with
    ctfile_list_files := [['a', 'b'], ['x'], ['b', 'c'], ['a', 'x']]
    ct_operations :=
      [⟨ct_op_cb.ctfile_list_start, some ct_op_complete_cb.ctfile_process_delete,
        ct_op_args.none⟩] }

/-! ## Cull: collecting the ctfiles -/

/-- A list entry (`struct ctfile_list_file`): name and keep counter. -/
structure ctfile_list_file where
  mlf_name : Name
  mlf_keep : Nat
  deriving DecidableEq, Repr

/-- The C library `strncmp` on at most `n` characters: zero when the strings
agree, else the difference of the first pair of characters that differ, the
end of a string counting as the NUL character. -/
def strncmp : Name → Name → Nat → Int
  | _, _, 0 => 0
  | [], [], _ + 1 => 0
  | [], y :: _, _ + 1 => 0 - (y.toNat : Int)
  | x :: _, [], _ + 1 => (x.toNat : Int)
  | x :: a, y :: b, n + 1 =>
    if x ≠ y then (x.toNat : Int) - (y.toNat : Int) else strncmp a b n

/-- The C library `strncpy` into a buffer of `size` bytes, as a search key: at
most `size` characters are copied. A source of `size` or more characters
leaves the buffer without terminating NUL; the key is then taken to be the
characters copied. -/
def strncpy (src : Name) (size : Nat) : Name :=
  src.take size

/-- `RB_FIND` on the tree `ct_cull_all_ctfiles`, represented by the sequence of
its entries in the order of names. -/
def cull_tree_find (tree : List ctfile_list_file) (key : Name) : Option ctfile_list_file :=
  tree.find? (fun f => decide (f.mlf_name = key))

/-- The effect of `prevfile->mlf_keep++` on the tree, for the entry with the given name. -/
def cull_tree_keep_incr (tree : List ctfile_list_file) (name : Name) :
    List ctfile_list_file :=
  tree.map (fun f => if f.mlf_name = name then { f with mlf_keep := f.mlf_keep + 1 } else f)

/-- The first loop of `ct_cull_collect_ctfiles`: mark every file by the
comparison of its name with the cutoff `buf` on `timelen = strlen(buf)`
characters. The result is the tree, `keep_files` and `total_files`. -/
def cull_collect_pass1 (buf : Name) :
    List ctfile_list_file → List ctfile_list_file × Nat × Nat
  | [] => ([], 0, 0)
  | f :: rest =>
    let r := cull_collect_pass1 buf rest
    if strncmp f.mlf_name buf buf.length < 0 then
      ({ f with mlf_keep := 0 } :: r.1, r.2.1, r.2.2 + 1)
    else
      ({ f with mlf_keep := 1 } :: r.1, r.2.1 + 1, r.2.2 + 1)

/-- How a part of `ct_cull_collect_ctfiles` ends: it goes on with the tree, or
it leaves through `dying:`, with the code passed to `ct_fatal` if there was
a call. -/
inductive cull_outcome
  | ok (tree : List ctfile_list_file)
  | dying (tree : List ctfile_list_file) (fatal : Option cte_t)
  deriving DecidableEq, Repr

/-- One round of the predecessor walk at `prev_ct_file:` with a non-NULL
`prev_filename`: look the name up; when it is listed, force-keep the entry
and read its predecessor. The result is the tree and either the next
`prev_filename` or the exit through `dying:`. -/
def cull_walk_step (cache : ctfile_cache) (size : Nat) (tree : List ctfile_list_file)
    (prev_filename : Name) : List ctfile_list_file × Option (Option Name) :=
  match cull_tree_find tree (strncpy prev_filename size) with
  | none => (tree, some none)
  | some prevfile =>
    let tree := cull_tree_keep_incr tree prevfile.mlf_name
    match ctfile_get_previous cache prevfile.mlf_name with
    | Except.error _ => (tree, none)
    | Except.ok next => (tree, some next)

/-- The predecessor walk (`prev_ct_file:` with its `goto`), bounded by fuel:
`none` when the fuel runs out while a predecessor is still being followed. -/
def cull_walk (cache : ctfile_cache) (size : Nat) :
    Nat → List ctfile_list_file → Option Name → Option cull_outcome
  | _, tree, none => some (cull_outcome.ok tree)
  | 0, _, some _ => none
  | fuel + 1, tree, some prev_filename =>
    match cull_walk_step cache size tree prev_filename with
    | (tree, none) => some (cull_outcome.dying tree none)
    | (tree, some next) => cull_walk cache size fuel tree next

/-- The second loop of `ct_cull_collect_ctfiles` (`RB_FOREACH` over the tree
while the walk changes keep counters): the names are visited in order; an
entry that is kept at the time of its visit starts a predecessor walk. -/
def cull_collect_pass2 (cache : ctfile_cache) (size fuel : Nat) :
    List Name → List ctfile_list_file → Option cull_outcome
  | [], tree => some (cull_outcome.ok tree)
  | name :: rest, tree =>
    match cull_tree_find tree name with
    | none => cull_collect_pass2 cache size fuel rest tree
    | some file =>
      if file.mlf_keep = 0 then cull_collect_pass2 cache size fuel rest tree
      else
        match ctfile_get_previous cache file.mlf_name with
        | Except.error ret => some (cull_outcome.dying tree (some ret))
        | Except.ok prev_filename =>
          match cull_walk cache size fuel tree prev_filename with
          | none => none
          | some (cull_outcome.dying tree fatal) => some (cull_outcome.dying tree fatal)
          | some (cull_outcome.ok tree) => cull_collect_pass2 cache size fuel rest tree

/-- The parse loop of `ct_cull_add_shafile` over the records of one manifest:
every SHA record is inserted into the live-SHA set (the crypto digest when
the manifest has the `CT_MD_CRYPTO` flag) and, when new, marked in the local
chunk database. -/
def ct_cull_add_records (crypto : Bool) : List xs_record → cull_globals → cull_globals
  | [], g => g
  | xs_record.XS_RET_SHA xs_sha xs_csha :: rest, g =>
    let r := ct_cull_sha_insert g (if crypto then xs_csha else xs_sha)
    let g := if r.1 = 0 then { r.2 with ctdb_marked := r.2.ctdb_marked ++ [xs_sha] } else r.2
    ct_cull_add_records crypto rest g
  | _ :: rest, g => ct_cull_add_records crypto rest g

/-- `ct_cull_add_shafile`, with its `goto next_file` bounded by fuel: `none`
when the fuel runs out while a previous-level file is still to be parsed;
else the return value with the global state and the cull globals. -/
def ct_cull_add_shafile (cache : ctfile_cache) :
    Nat → ct_global_state → cull_globals → Name → Option (Nat × ct_global_state × cull_globals)
  | 0, _, _, _ => none
  | fuel + 1, state, g, file =>
    match cache file with
    | Except.error ret => some (1, ct_fatal state ret, g)
    | Except.ok manifest =>
      let g := ct_cull_add_records manifest.cmg_crypto manifest.records g
      match manifest.ending with
      | some _ => some (0, state, g)
      | none =>
        match manifest.cmg_prevlvl_filename with
        | some ct_next_filename => ct_cull_add_shafile cache fuel state g ct_next_filename
        | none => some (0, state, g)

/-- The third loop of `ct_cull_collect_ctfiles`: a delete operation with cache
eviction for every file that is not kept, the manifest of every kept file
into the live-SHA set. The flag tells whether the loop left through
`dying:`. -/
def cull_collect_pass3 (cache : ctfile_cache) (fuel : Nat) :
    List ctfile_list_file → ct_global_state → cull_globals →
    Option (ct_global_state × cull_globals × Bool)
  | [], state, g => some (state, g, false)
  | file :: rest, state, g =>
    if file.mlf_keep = 0 then
      cull_collect_pass3 cache fuel rest
        (ct_add_operation state ct_op_cb.ctfile_delete
          (some ct_op_complete_cb.ctfile_delete_from_cache)
          (ct_op_args.cda file.mlf_name false)) g
    else
      match ct_cull_add_shafile cache fuel state g file.mlf_name with
      | none => none
      | some (ret, state, g) =>
        if ret ≠ 0 then some (state, g, true)
        else cull_collect_pass3 cache fuel rest state g

/-- `ct_cull_collect_ctfiles`. `keep_days` is `ct_ctfile_keep_days`, `buf` the
cutoff that `time`, `localtime` and `strftime` produce, `size` is
`sizeof(filesearch.mlf_name)`, `tree` is `ct_cull_all_ctfiles`. The result is
`none` when the fuel of a walk runs out, else the global state, the cull
globals and the tree. -/
def ct_cull_collect_ctfiles (cache : ctfile_cache) (size fuel keep_days : Nat) (buf : Name)
    (state : ct_global_state) (g : cull_globals) (tree : List ctfile_list_file) :
    Option (ct_global_state × cull_globals × List ctfile_list_file) :=
  if state.ct_file_state = ct_file_state_t.CT_S_FINISHED then some (state, g, tree)
  else if state.ct_dying then some (state, g, tree)
  else if keep_days = 0 then
    some (ct_fatal state cte_t.CTE_MISSING_CONFIG_VALUE, g, tree)
  else
    let r := cull_collect_pass1 buf tree
    if r.2.1 = 0 ∧ r.2.2 ≠ 0 then
      some (ct_fatal state cte_t.CTE_CULL_EVERYTHING, g, r.1)
    else
      match cull_collect_pass2 cache size fuel (r.1.map (fun f => f.mlf_name)) r.1 with
      | none => none
      | some (cull_outcome.dying tree fatal) =>
        match fatal with
        | some ret => some (ct_fatal state ret, g, tree)
        | none => some (state, g, tree)
      | some (cull_outcome.ok tree) =>
        let g := { g with ctdb_cull_started := g.ctdb_cull_started + 1 }
        match cull_collect_pass3 cache fuel tree state g with
        | none => none
        | some (state, g, true) => some (state, g, tree)
        | some (state, g, false) => some (ct_op_complete state, g, [])

/-- A name is older than the cutoff: `strncmp` on the length of the cutoff is
negative. -/
def cull_old (buf : Name) (name : Name) : Prop :=
  strncmp name buf buf.length < 0

/-- A predecessor link between listed files: the manifest of `a` names `b` as
its immediate predecessor and `b` is listed. -/
def cull_link (cache : ctfile_cache) (names : List Name) (a b : Name) : Prop :=
  ctfile_get_previous cache a = Except.ok (some b) ∧ b ∈ names

/-- The `ctfile_delete` operation the cull enqueues for a name. -/
def spec_cull_delete_op (name : Name) : ct_op :=
  { op_start := ct_op_cb.ctfile_delete
    op_complete := some ct_op_complete_cb.ctfile_delete_from_cache
    op_args := ct_op_args.cda name false }

/-- The cutoff of the examples, `20240108-000000`. -/
def buf_example : Name := "20240108-000000".toList

/-- A cutoff later than both files of scenario S6, `20240201-000000`. -/
def buf_late : Name := "20240201-000000".toList

/-- The older file of scenario S6. -/
def name_old : Name := "20240105-000000-a".toList

/-- The newer file of scenario S6. -/
def name_new : Name := "20240112-000000-a".toList

/-- The cache of scenario S6: the newer manifest names the older one as its
predecessor; each holds one SHA record. -/
def cache_S6 : ctfile_cache := fun n =>
  if n = name_new then
    Except.ok ⟨some name_old, false, [xs_record.XS_RET_SHA [2] [12]], none⟩
  else if n = name_old then
    Except.ok ⟨none, false, [xs_record.XS_RET_SHA [1] [11]], none⟩
  else Except.error cte_t.CTE_ERRNO

/-- Private state of an extract operation (`struct ctfile_extract_state`);
`ces_fnode` tells whether the pointer is non-NULL. -/
structure ctfile_extract_state where
  ces_fnode : Bool
  ces_block_no : Nat
  ces_open_sent : Nat
  ces_is_open : Nat
  deriving DecidableEq, Repr

/-- What an extract operation meets outside this file: the local name of the
caller, the header constant, and the outcomes of the library calls.

* `ctfile_cook_name`: the naming function.
* `ct_file_extract_init`: its result (`none` is 0).
* `ct_create_xml_open`, `ct_create_xml_close`: the XML codec; an error code,
  or `c_size`.
* `ct_create_iv_ctfile chunkno`: its result for a chunk number (`none` is 0).
* `ct_file_extract_open`: its result in the completion of the open
  (`none` is 0). -/
structure extract_env where
  cca_localname : Name
  C_HDR_F_METADATA : Nat
  ctfile_cook_name : Name → Option Name
  ct_file_extract_init : Option cte_t
  ct_create_xml_open : Name → md_mode_t → Nat → Except cte_t Nat
  ct_create_iv_ctfile : Nat → Option cte_t
  ct_file_extract_open : Option cte_t
  ct_create_xml_close : Except cte_t Nat

/-- The operation record of an extract together with the extract subsystem of
the global state: the mutable argument `cca_remotename`, the private state
`op_priv`, whether `state->extract_state` is non-NULL, and the numbers of
calls of `ct_file_extract_close` and `ct_file_extract_cleanup`. -/
structure extract_op where
  cca_remotename : Option Name
  op_priv : Option ctfile_extract_state
  extract_state : Bool
  ct_file_extract_closes : Nat
  ct_file_extract_cleanups : Nat
  deriving DecidableEq, Repr

/-- The `dying:` exit of `ctfile_extract`: free the private state and clean up
the extract subsystem; the fnode is not released ("can't free fnode, don't
know if we're done with it or not"). -/
def ctfile_extract_dying (state : ct_global_state) (op : extract_op) :
    ct_global_state × extract_op :=
  match op.op_priv with
  | none => (state, op)
  | some _ =>
    if op.extract_state then
      (state, { op with
        op_priv := none
        extract_state := false
        ct_file_extract_cleanups := op.ct_file_extract_cleanups + 1 })
    else (state, { op with op_priv := none })

/-- The part of `ctfile_extract` after the `switch`: set the file state to
`RUNNING`, allocate one transaction, and make it the xml-open carrier (first
time) or the next read-chunk request. -/
def ctfile_extract_request (env : extract_env) (state : ct_global_state) (op : extract_op)
    (ces : ctfile_extract_state) (rname : Name) : ct_global_state × extract_op :=
  let state := ct_set_file_state state ct_file_state_t.CT_S_RUNNING
  match ct_trans_alloc state with
  | none => (ct_set_file_state state ct_file_state_t.CT_S_WAITING_TRANS, op)
  | some (t, state) =>
    let trans := { t with tr_statemachine := ct_statemachine_t.ct_state_ctfile_extract }
    if ces.ces_open_sent = 0 then
      let ces := { ces with ces_fnode := true }
      let state := { state with fnode_refs := state.fnode_refs + 1 }
      let trans := { trans with tr_fl_node := true }
      let state := ct_xml_file_open env.ct_create_xml_open state trans rname
        md_mode_t.MD_O_READ 0 ct_complete_fn.ctfile_extract_complete_open
      let ces := { ces with ces_open_sent := 1 }
      (ct_set_file_state state ct_file_state_t.CT_S_WAITING_SERVER,
        { op with op_priv := some ces })
    else
      let state := { state with fnode_refs := state.fnode_refs + 1 }
      let trans := { trans with
        tr_fl_node := true
        tr_state := tr_state_t.TR_S_EX_SHA
        tr_complete := some ct_complete_fn.ctfile_extract_complete_read
        tr_cleanup := some ct_cleanup_fn.ctfile_extract_cleanup_trans
        tr_type := tr_type_t.TR_T_READ_CHUNK
        tr_eof := 0
        tr_ctfile_chunkno := ces.ces_block_no
        tr_ctfile_name := some rname
        c_ex_status := 2
        c_flags := trans.c_flags ||| env.C_HDR_F_METADATA }
      let ces := { ces with ces_block_no := ces.ces_block_no + 1 }
      match env.ct_create_iv_ctfile trans.tr_ctfile_chunkno with
      | some ret => ctfile_extract_dying (ct_fatal state ret) { op with op_priv := some ces }
      | none => (ct_queue_first state trans, { op with op_priv := some ces })

/-- `ctfile_extract`: one invocation of the driver by the scheduler. As in
`ctfile_archive`, a resume in `RUNNING` or `WAITING_TRANS` without private
state or without remote name dereferences a NULL pointer in the C code and
is outside the embedding; the state is returned as it is. When
`ct_file_extract_init` fails, `state->extract_state` is taken to stay as it
was. -/
def ctfile_extract (env : extract_env) (state : ct_global_state) (op : extract_op) :
    ct_global_state × extract_op :=
  if state.ct_dying then ctfile_extract_dying state op
  else
    match state.ct_file_state with
    | ct_file_state_t.CT_S_STARTING =>
      let ces : ctfile_extract_state :=
        { ces_fnode := false, ces_block_no := 0, ces_open_sent := 0, ces_is_open := 0 }
      let op := { op with op_priv := some ces }
      let cooked : Option Name :=
        match op.cca_remotename with
        | some rname => some rname
        | none => env.ctfile_cook_name env.cca_localname
      match cooked with
      | none => ctfile_extract_dying (ct_fatal state cte_t.CTE_INVALID_CTFILE_NAME) op
      | some rname =>
        let op := { op with cca_remotename := some rname }
        match env.ct_file_extract_init with
        | some ret => ctfile_extract_dying (ct_fatal state ret) op
        | none => ctfile_extract_request env state { op with extract_state := true } ces rname
    | ct_file_state_t.CT_S_WAITING_SERVER => (state, op)
    | ct_file_state_t.CT_S_FINISHED => (state, op)
    | _ =>
      match op.op_priv, op.cca_remotename with
      | some ces, some rname => ctfile_extract_request env state op ces rname
      | _, _ => (state, op)

/-- `ctfile_extract_complete_open`: the completion of the xml-open of an
extract; the file state becomes `RUNNING`, and a failure to open the local
file is fatal. The result is the return value (`none` is 0) and the global
state. -/
def ctfile_extract_complete_open (env : extract_env) (state : ct_global_state) :
    Option cte_t × ct_global_state :=
  let state := ctfile_xml_open_complete state
  match env.ct_file_extract_open with
  | some ret => (some ret, ct_fatal state ret)
  | none => (none, state)

/-- `ctfile_extract_complete_eof`: close the local file; the return value 1
tells that the operation is done. -/
def ctfile_extract_complete_eof (op : extract_op) : Nat × extract_op :=
  (1, { op with ct_file_extract_closes := op.ct_file_extract_closes + 1 })

/-- `ctfile_extract_cleanup_trans`: release the reference of the transaction. -/
def ctfile_extract_cleanup_trans (state : ct_global_state) : ct_global_state :=
  { state with fnode_frees := state.fnode_frees + 1 }

/-- `ctfile_extract_cleanup_eof`: clean up the extract subsystem and release
the fnode twice. -/
def ctfile_extract_cleanup_eof (state : ct_global_state) (op : extract_op) :
    ct_global_state × extract_op :=
  ({ state with fnode_frees := state.fnode_frees + 1 + 1 },
    { op with
      extract_state := false
      ct_file_extract_cleanups := op.ct_file_extract_cleanups + 1 })

/-- `ctfile_archive_free_fnode`: release the reference of the transaction. -/
def ctfile_archive_free_fnode (state : ct_global_state) : ct_global_state :=
  { state with fnode_frees := state.fnode_frees + 1 }

/-- `ctfile_extract_handle_eof`: the server returned an error on a read. The
first call closes the stream: the file state becomes `FINISHED` and the
transaction becomes the xml-close carrier; a later call marks its
transaction `XML_CLOSED`. `ct_create_xml_close` is the outcome of the XML
codec. Queueing is left to the caller. -/
def ctfile_extract_handle_eof (ct_create_xml_close : Except cte_t Nat)
    (state : ct_global_state) (trans : ct_trans) : ct_global_state × ct_trans :=
  if state.ct_file_state ≠ ct_file_state_t.CT_S_FINISHED then
    let state := ct_set_file_state state ct_file_state_t.CT_S_FINISHED
    let trans := { trans with
      tr_state := tr_state_t.TR_S_XML_CLOSING
      tr_complete := some ct_complete_fn.ctfile_extract_complete_eof
      tr_cleanup := some ct_cleanup_fn.ctfile_extract_cleanup_eof }
    match ct_create_xml_close with
    | Except.error ret =>
      (ct_fatal state ret, { trans with tr_state := tr_state_t.TR_S_XML_CLOSED })
    | Except.ok c_size =>
      (state, { trans with
        c_size := c_size
        tr_data2 := some xml_body.xml_close
        tr_dataslot := 2
        tr_size2 := c_size })
  else
    (state, { trans with
      tr_complete := some ct_complete_fn.ctfile_complete_noop
      tr_cleanup := none
      tr_state := tr_state_t.TR_S_XML_CLOSED })

/-- What can happen to an extract operation between and including the
invocations of its driver.

* `wakeup`: the scheduler invokes `ctfile_extract`.
* `release`: a transaction in flight is returned to the pool.
* `open_reply`: the reply to the xml-open arrives and its completion
  `ctfile_extract_complete_open` runs; it can only arrive while an xml-open
  is queued and the driver waits for it.
* `eof t`: the server returned an error on the read request `t` and the read
  handler of the transport, outside this file, calls
  `ctfile_extract_handle_eof` on it.
* `die`: the process-wide dying flag is raised from elsewhere. -/
inductive extract_event
  | wakeup
  | release
  | open_reply
  | eof (t : ct_trans)
  | die
  deriving DecidableEq, Repr

/-- An extract operation under way: the global state, the operation record,
and the transactions `ctfile_extract_handle_eof` has worked on, as it left
them, in the order of the calls. -/
structure extract_sys where
  state : ct_global_state
  op : extract_op
  eof_handled : List ct_trans
  deriving DecidableEq, Repr

/-- One step of an extract run. -/
def extract_step (env : extract_env) (s : extract_sys) : extract_event → extract_sys
  | extract_event.wakeup =>
    { s with
      state := (ctfile_extract env s.state s.op).1
      op := (ctfile_extract env s.state s.op).2 }
  | extract_event.release => { s with state := ct_trans_free s.state }
  | extract_event.open_reply =>
    if s.state.ct_file_state = ct_file_state_t.CT_S_WAITING_SERVER ∧
        s.state.ct_queued.any (fun t => t.tr_state = tr_state_t.TR_S_XML_OPEN) then
      { s with state := (ctfile_extract_complete_open env s.state).2 }
    else s
  | extract_event.eof t =>
    { s with
      state := (ctfile_extract_handle_eof env.ct_create_xml_close s.state t).1
      eof_handled :=
        s.eof_handled ++ [(ctfile_extract_handle_eof env.ct_create_xml_close s.state t).2] }
  | extract_event.die => { s with state := { s.state with ct_dying := true } }

/-- An extract operation before its first invocation: `free` transactions in
the pool, the remote name as the caller gave it, no private state, no
extract subsystem. -/
def extract_init (free : Nat) (rname : Option Name) : extract_sys :=
  { state := ct_state_init free
    op :=
      { cca_remotename := rname
        op_priv := none
        extract_state := false
        ct_file_extract_closes := 0
        ct_file_extract_cleanups := 0 }
    eof_handled := [] }

/-- An extract run: the events applied in order from the initial state. -/
def extract_run (env : extract_env) (free : Nat) (rname : Option Name)
    (evs : List extract_event) : extract_sys :=
  evs.foldl (extract_step env) (extract_init free rname)

/-- The completion callback of a transaction that went through the EOF
handler, as far as the local file goes: `ctfile_extract_complete_eof` closes
it, `ctfile_complete_noop` does nothing. -/
def extract_eof_complete (op : extract_op) (t : ct_trans) : extract_op :=
  match t.tr_complete with
  | some ct_complete_fn.ctfile_extract_complete_eof => (ctfile_extract_complete_eof op).2
  | _ => op

/-- The first transaction the EOF handler works on is the close carrier:
completion `ctfile_extract_complete_eof`, cleanup
`ctfile_extract_cleanup_eof`, and state `XML_CLOSING` with the marshalled
xml-close when the codec built the packet, `XML_CLOSED` when it failed. -/
def eof_carrier (ct_create_xml_close : Except cte_t Nat) (t : ct_trans) : Prop :=
  t.tr_complete = some ct_complete_fn.ctfile_extract_complete_eof ∧
  t.tr_cleanup = some ct_cleanup_fn.ctfile_extract_cleanup_eof ∧
  match ct_create_xml_close with
  | Except.ok c_size =>
    t.tr_state = tr_state_t.TR_S_XML_CLOSING ∧ t.tr_data2 = some xml_body.xml_close ∧
      t.tr_dataslot = 2 ∧ t.tr_size2 = c_size
  | Except.error _ => t.tr_state = tr_state_t.TR_S_XML_CLOSED

/-- A transaction the EOF handler worked on after the first: `XML_CLOSED`, the
no-op completion, no cleanup. -/
def eof_straggler (t : ct_trans) : Prop :=
  t.tr_state = tr_state_t.TR_S_XML_CLOSED ∧
  t.tr_complete = some ct_complete_fn.ctfile_complete_noop ∧
  t.tr_cleanup = none

/-- An environment of an extract in which every collaborator succeeds. -/
def env_extract : extract_env :=
  { cca_localname := ['f']
    C_HDR_F_METADATA := 4
    ctfile_cook_name := fun n => some n
    ct_file_extract_init := none
    ct_create_xml_open := fun _ _ _ => Except.ok 100
    ct_create_iv_ctfile := fun _ => none
    ct_file_extract_open := none
    ct_create_xml_close := Except.ok 50 }

/-- The read request with chunk number `k` as `ctfile_extract` queues it under
the remote name `rname`. -/
def read_request (env : extract_env) (rname : Name) (k : Nat) : ct_trans :=
  { ct_trans_zero with
    tr_statemachine := ct_statemachine_t.ct_state_ctfile_extract
    tr_fl_node := true
    tr_state := tr_state_t.TR_S_EX_SHA
    tr_complete := some ct_complete_fn.ctfile_extract_complete_read
    tr_cleanup := some ct_cleanup_fn.ctfile_extract_cleanup_trans
    tr_type := tr_type_t.TR_T_READ_CHUNK
    tr_eof := 0
    tr_ctfile_chunkno := k
    tr_ctfile_name := some rname
    c_ex_status := 2
    c_flags := 0 ||| env.C_HDR_F_METADATA }

/-- The events of scenario S3: the open and its reply, five read requests
(chunks 0 to 4), then the server reports the end of the stream on the
request for chunk 3 and on the straggler behind it. -/
def evs_S3 : List extract_event :=
  [extract_event.wakeup, extract_event.open_reply] ++
    List.replicate 5 extract_event.wakeup ++
    [extract_event.eof (read_request env_extract ['f'] 3),
     extract_event.eof (read_request env_extract ['f'] 4)]

/-! ## List and delete drivers -/

/-- `ctfile_list_start`: one xml-list transaction. `ct_create_xml_list` is the
outcome of the XML codec, an error code or `c_size`. -/
def ctfile_list_start (ct_create_xml_list : Except cte_t Nat) (state : ct_global_state) :
    ct_global_state :=
  if state.ct_file_state = ct_file_state_t.CT_S_FINISHED ∨ state.ct_dying = true then state
  else
    match ct_trans_alloc state with
    | none => ct_set_file_state state ct_file_state_t.CT_S_WAITING_TRANS
    | some (t, state) =>
      let trans := { t with
        tr_statemachine := ct_statemachine_t.ct_state_ctfile_list
        tr_state := tr_state_t.TR_S_XML_LIST }
      match ct_create_xml_list with
      | Except.error ret => ct_trans_free (ct_fatal state ret)
      | Except.ok c_size =>
        let trans := { trans with
          c_size := c_size
          tr_data2 := some xml_body.xml_list
          tr_dataslot := 2
          tr_complete := some ct_complete_fn.ctfile_complete_noop_final
          tr_cleanup := none
          tr_size2 := c_size }
        let state := ct_queue_first state trans
        ct_set_file_state state ct_file_state_t.CT_S_FINISHED

/-- `ctfile_delete`: one xml-delete transaction for the cooked name of
`cda_name`. The naming function and the XML codec are parameters. -/
def ctfile_delete (ctfile_cook_name : Name → Option Name)
    (ct_create_xml_delete : Name → Except cte_t Nat) (cda_name : Name)
    (state : ct_global_state) : ct_global_state :=
  if state.ct_file_state = ct_file_state_t.CT_S_FINISHED ∨ state.ct_dying = true then state
  else
    match ct_trans_alloc state with
    | none => ct_set_file_state state ct_file_state_t.CT_S_WAITING_TRANS
    | some (t, state) =>
      let trans := { t with
        tr_statemachine := ct_statemachine_t.ct_state_ctfile_delete
        tr_state := tr_state_t.TR_S_XML_DELETE }
      match ctfile_cook_name cda_name with
      | none => ct_trans_free (ct_fatal state cte_t.CTE_INVALID_CTFILE_NAME)
      | some rname =>
        match ct_create_xml_delete rname with
        | Except.error ret => ct_trans_free (ct_fatal state ret)
        | Except.ok c_size =>
          let trans := { trans with
            c_size := c_size
            tr_data2 := some (xml_body.xml_delete rname)
            tr_dataslot := 2
            tr_complete := some ct_complete_fn.ctfile_delete_complete
            tr_cleanup := none
            tr_size2 := c_size }
          let state := ct_queue_first state trans
          ct_set_file_state state ct_file_state_t.CT_S_FINISHED

/-! ## Cull: setup and commit -/

/-- `ct_cull_setup`: draw the `cull_uuid` (`arc4random` is what
`arc4random_buf` delivers) and send xml-cull-setup. On a failure of the XML
codec the function leaves through `dying:`, which does nothing: the
transaction is neither queued nor returned to the pool. -/
def ct_cull_setup (ct_create_xml_cull_setup : Nat → Except cte_t Nat) (arc4random : Nat)
    (state : ct_global_state) (g : cull_globals) : ct_global_state × cull_globals :=
  if state.ct_file_state = ct_file_state_t.CT_S_FINISHED then (state, g)
  else if state.ct_dying then (state, g)
  else
    let g := { g with cull_uuid := arc4random }
    let state := ct_set_file_state state ct_file_state_t.CT_S_RUNNING
    match ct_trans_alloc state with
    | none => (ct_set_file_state state ct_file_state_t.CT_S_WAITING_TRANS, g)
    | some (t, state) =>
      let trans := { t with tr_statemachine := ct_statemachine_t.ct_state_cull }
      match ct_create_xml_cull_setup g.cull_uuid with
      | Except.error ret => (ct_fatal state ret, g)
      | Except.ok c_size =>
        let trans := { trans with
          c_size := c_size
          tr_data2 := some (xml_body.xml_cull_setup g.cull_uuid)
          tr_dataslot := 2
          tr_size2 := c_size
          tr_state := tr_state_t.TR_S_XML_CULL_SEND
          tr_complete := some ct_complete_fn.ct_cull_handle_complete
          tr_eof := 1
          tr_cleanup := none }
        let state := ct_queue_first state trans
        (ct_set_file_state state ct_file_state_t.CT_S_FINISHED, g)

/-- `ct_cull_send_complete`: send xml-cull-complete. On a failure of the XML
codec the function leaves through `dying:`, which does nothing. -/
def ct_cull_send_complete (ct_create_xml_cull_complete : Nat → Except cte_t Nat)
    (state : ct_global_state) (g : cull_globals) : ct_global_state × cull_globals :=
  if state.ct_file_state = ct_file_state_t.CT_S_FINISHED then (state, g)
  else if state.ct_dying then (state, g)
  else
    match ct_trans_alloc state with
    | none => (ct_set_file_state state ct_file_state_t.CT_S_WAITING_TRANS, g)
    | some (t, state) =>
      let trans := { t with tr_statemachine := ct_statemachine_t.ct_state_cull }
      match ct_create_xml_cull_complete g.cull_uuid with
      | Except.error ret => (ct_fatal state ret, g)
      | Except.ok c_size =>
        let trans := { trans with
          c_size := c_size
          tr_data2 := some (xml_body.xml_cull_complete g.cull_uuid)
          tr_dataslot := 2
          tr_size2 := c_size
          tr_state := tr_state_t.TR_S_XML_CULL_COMPLETE_SEND
          tr_eof := 1
          tr_complete := some ct_complete_fn.ct_cull_handle_complete
          tr_cleanup := none }
        let state := ct_queue_first state trans
        (ct_set_file_state state ct_file_state_t.CT_S_FINISHED, g)

/-- An environment of an extract in which `ct_create_iv_ctfile` fails for
chunk 1. -/
def env_extract_iv_fails : extract_env :=
  { env_extract with
    ct_create_iv_ctfile := fun k => if k = 1 then some (cte_t.CTE_OTHER 5) else none }

/-! ## Fnode references over a whole operation -/

/-- Run the cleanup callback `tr_cleanup` of a transaction, if it has one. -/
def ct_trans_cleanup (s : ct_global_state × extract_op) (t : ct_trans) :
    ct_global_state × extract_op :=
  match t.tr_cleanup with
  | none => s
  | some ct_cleanup_fn.ctfile_archive_free_fnode => (ctfile_archive_free_fnode s.1, s.2)
  | some ct_cleanup_fn.ctfile_extract_cleanup_trans => (ctfile_extract_cleanup_trans s.1, s.2)
  | some ct_cleanup_fn.ctfile_extract_cleanup_eof => ctfile_extract_cleanup_eof s.1 s.2

/-- The transactions of an extract run as they are when their work is done:
those the EOF handler worked on as it left them, the others as they were
queued. A queued read request is taken to be the one the handler worked on
when it has the same chunk number. -/
def extract_finalized (s : extract_sys) : List ct_trans :=
  s.state.ct_queued.filter (fun t =>
    !(decide (t.tr_type = tr_type_t.TR_T_READ_CHUNK) &&
      s.eof_handled.any (fun h => decide (h.tr_ctfile_chunkno = t.tr_ctfile_chunkno))))
    ++ s.eof_handled

/-- An empty local file, otherwise as `env_2050`. -/
def env_empty : archive_env :=
  { env_2050 with fstat := some 0 }

/-- A 3-byte local file, otherwise as `env_2050`. -/
def env_three : archive_env :=
  { env_2050 with fstat := some 3 }

/-- The events of scenario S3 without the straggler: four read requests, the
server reports the end of the stream on the last. -/
def evs_S3_no_straggler : List extract_event :=
  [extract_event.wakeup, extract_event.open_reply] ++
    List.replicate 4 extract_event.wakeup ++
    [extract_event.eof (read_request env_extract ['f'] 3)]

/-! ## XML reply demultiplexer -/

/-- What the parsers of the XML codec, outside this file, make of a reply
(header and body): for each parser its return code (`none` is 0) and what it
delivers.

* `ct_parse_xml_open_reply`, `ct_parse_xml_delete_reply`: the file name, or
  `none` for a NULL name.
* `ct_parse_xml_list_reply`: from the listing `ctfile_list_files` as it is,
  the listing as the parser leaves it; on a failure the listing is taken to
  stay as it was.
* `ct_parse_xml_cull_complete_reply`: the new generation id.
* `CT_EXT_XML_REPLY_HANDLER`: `none` when the macro is not defined, else the
  return code of the handler. -/
structure xml_reply where
  ct_parse_xml_open_reply : Except cte_t (Option Name)
  ct_parse_xml_close_reply : Option cte_t
  ct_parse_xml_list_reply : List Name → Except cte_t (List Name)
  ct_parse_xml_delete_reply : Except cte_t (Option Name)
  ct_parse_xml_cull_setup_reply : Option cte_t
  ct_parse_xml_cull_shas_reply : Option cte_t
  ct_parse_xml_cull_complete_reply : Except cte_t Int
  CT_EXT_XML_REPLY_HANDLER : Option (Option cte_t)

/-- What `ct_handle_xml_reply` leaves behind: the global state, the
transaction, the transactions passed to `ct_queue_transfer`, and the
generation ids passed to `ctdb_cull_end`. -/
structure xml_reply_result where
  state : ct_global_state
  trans : ct_trans
  ct_queue_transfer : List ct_trans
  ctdb_cull_end : List Int
  deriving DecidableEq, Repr

/-- The exit `just_queue:` of `ct_handle_xml_reply`: hand the transaction on. -/
def xml_just_queue (state : ct_global_state) (trans : ct_trans) (ended : List Int) :
    xml_reply_result :=
  { state := state, trans := trans, ct_queue_transfer := [trans], ctdb_cull_end := ended }

/-- `ct_handle_xml_reply`: select the parser by the state of the transaction;
on success move the transaction to its next state, on failure raise a fatal
error; hand the transaction on. `none` is the `CABORTX` of the default case.
In the delete case `tr_ctfile_name` is set to the name the parser delivered
(the C code frees that string right after). -/
def ct_handle_xml_reply (reply : xml_reply) (state : ct_global_state) (trans : ct_trans) :
    Option xml_reply_result :=
  match trans.tr_state with
  | tr_state_t.TR_S_XML_OPEN =>
    match reply.ct_parse_xml_open_reply with
    | Except.error ret => some (xml_just_queue (ct_fatal state ret) trans [])
    | Except.ok none =>
      some (xml_just_queue (ct_fatal state cte_t.CTE_CANT_OPEN_REMOTE) trans [])
    | Except.ok (some _) =>
      some (xml_just_queue state { trans with tr_state := tr_state_t.TR_S_XML_OPENED } [])
  | tr_state_t.TR_S_XML_CLOSING =>
    match reply.ct_parse_xml_close_reply with
    | some ret => some (xml_just_queue (ct_fatal state ret) trans [])
    | none => some (xml_just_queue state { trans with tr_state := tr_state_t.TR_S_DONE } [])
  | tr_state_t.TR_S_XML_LIST =>
    match reply.ct_parse_xml_list_reply state.ctfile_list_files with
    | Except.error ret => some (xml_just_queue (ct_fatal state ret) trans [])
    | Except.ok files =>
      some (xml_just_queue { state with ctfile_list_files := files }
        { trans with tr_state := tr_state_t.TR_S_DONE } [])
  | tr_state_t.TR_S_XML_DELETE =>
    match reply.ct_parse_xml_delete_reply with
    | Except.error ret => some (xml_just_queue (ct_fatal state ret) trans [])
    | Except.ok filename =>
      some (xml_just_queue state
        { trans with tr_ctfile_name := filename, tr_state := tr_state_t.TR_S_DONE } [])
  | tr_state_t.TR_S_XML_CULL_SEND =>
    match reply.ct_parse_xml_cull_setup_reply with
    | some ret => some (xml_just_queue (ct_fatal state ret) trans [])
    | none => some (xml_just_queue state { trans with tr_state := tr_state_t.TR_S_DONE } [])
  | tr_state_t.TR_S_XML_CULL_SHA_SEND =>
    match reply.ct_parse_xml_cull_shas_reply with
    | some ret => some (xml_just_queue (ct_fatal state ret) trans [])
    | none =>
      if trans.tr_eof = 1 then
        some (xml_just_queue state { trans with tr_state := tr_state_t.TR_S_DONE } [])
      else
        some (xml_just_queue state
          { trans with tr_state := tr_state_t.TR_S_XML_CULL_REPLIED } [])
  | tr_state_t.TR_S_XML_CULL_COMPLETE_SEND =>
    match reply.ct_parse_xml_cull_complete_reply with
    | Except.error ret => some (xml_just_queue (ct_fatal state ret) trans [])
    | Except.ok newgenid =>
      some (xml_just_queue state { trans with tr_state := tr_state_t.TR_S_DONE } [newgenid])
  | tr_state_t.TR_S_XML_EXT =>
    match reply.CT_EXT_XML_REPLY_HANDLER with
    | none => none
    | some (some ret) =>
      some (xml_just_queue (ct_fatal state ret)
        { trans with tr_state := tr_state_t.TR_S_DONE } [])
    | some none =>
      some (xml_just_queue state { trans with tr_state := tr_state_t.TR_S_DONE } [])
  | _ => none

/-- `ct_cull_handle_complete`: the return value, and the number of calls of
`ct_wakeup_file`. -/
def ct_cull_handle_complete (trans : ct_trans) : Nat × Nat :=
  (if trans.tr_eof ≠ 0 then 1 else 0, if trans.tr_eof = 0 then 1 else 0)

/-- The states in which a transaction waits for an XML reply of the control
messages of this file. -/
def xml_reply_states : List tr_state_t :=
  [tr_state_t.TR_S_XML_OPEN, tr_state_t.TR_S_XML_CLOSING, tr_state_t.TR_S_XML_LIST,
   tr_state_t.TR_S_XML_DELETE, tr_state_t.TR_S_XML_CULL_SEND,
   tr_state_t.TR_S_XML_CULL_SHA_SEND, tr_state_t.TR_S_XML_CULL_COMPLETE_SEND]

/-- The terminal states the demultiplexer moves a transaction to. -/
def xml_terminal_states : List tr_state_t :=
  [tr_state_t.TR_S_XML_OPENED, tr_state_t.TR_S_DONE, tr_state_t.TR_S_XML_CULL_REPLIED]

/-- The parser that the state of the transaction selects accepted the reply:
it returned 0, and an open reply carried a file name. -/
def xml_reply_accepted (reply : xml_reply) (listing : List Name) : tr_state_t → Prop
  | tr_state_t.TR_S_XML_OPEN =>
    ∃ filename, reply.ct_parse_xml_open_reply = Except.ok (some filename)
  | tr_state_t.TR_S_XML_CLOSING => reply.ct_parse_xml_close_reply = none
  | tr_state_t.TR_S_XML_LIST =>
    ∃ files, reply.ct_parse_xml_list_reply listing = Except.ok files
  | tr_state_t.TR_S_XML_DELETE =>
    ∃ filename, reply.ct_parse_xml_delete_reply = Except.ok filename
  | tr_state_t.TR_S_XML_CULL_SEND => reply.ct_parse_xml_cull_setup_reply = none
  | tr_state_t.TR_S_XML_CULL_SHA_SEND => reply.ct_parse_xml_cull_shas_reply = none
  | tr_state_t.TR_S_XML_CULL_COMPLETE_SEND =>
    ∃ newgenid, reply.ct_parse_xml_cull_complete_reply = Except.ok newgenid
  | _ => False

/-- A reply that every parser accepts. -/
def reply_ok : xml_reply :=
  { ct_parse_xml_open_reply := Except.ok (some ['f'])
    ct_parse_xml_close_reply := none
    ct_parse_xml_list_reply := fun l => Except.ok (l ++ [['a']])
    ct_parse_xml_delete_reply := Except.ok (some ['f'])
    ct_parse_xml_cull_setup_reply := none
    ct_parse_xml_cull_shas_reply := none
    ct_parse_xml_cull_complete_reply := Except.ok 7
    CT_EXT_XML_REPLY_HANDLER := none }

/-- An open reply that parses but carries no file name. -/
def reply_no_name : xml_reply :=
  { reply_ok with ct_parse_xml_open_reply := Except.ok none }

/-- The final cull-shas transaction of a stream, as far as the reply handler
looks at it: state `XML_CULL_SHA_SEND`, EOF set. -/
def cull_shas_final : ct_trans :=
  { ct_trans_zero with
    tr_statemachine := ct_statemachine_t.ct_state_cull
    tr_state := tr_state_t.TR_S_XML_CULL_SHA_SEND
    tr_complete := some ct_complete_fn.ct_cull_handle_complete
    tr_eof := 1 }

/-! ## Cancellation -/

/-- A step of a driver from `state` to `state1` that did not start anything:
no transaction left the pool, none was queued, no operation was added, and
the file state is as it was. -/
def step_idle (state state1 : ct_global_state) : Prop :=
  state1.ct_trans_free_slots = state.ct_trans_free_slots ∧
  state1.ct_queued = state.ct_queued ∧
  state1.ct_operations = state.ct_operations ∧
  state1.ct_file_state = state.ct_file_state

/-- A state in the middle of an operation on which the dying flag was raised:
file state `RUNNING`, two free transactions, one transaction queued and one
operation in the queue. -/
def state_dying : ct_global_state :=
  { ct_state_init 2 with
    ct_file_state := ct_file_state_t.CT_S_RUNNING
    ct_dying := true
    ct_queued := [ct_trans_zero]
    ct_operations := [⟨ct_op_cb.ctfile_archive, none, ct_op_args.none⟩] }

/-! ## Extract driver: notions used by the statements -/

/-- The read-chunk transactions of a queue, in queue order. -/
def read_chunks (q : List ct_trans) : List ct_trans :=
  q.filter (fun t => t.tr_type = tr_type_t.TR_T_READ_CHUNK)

/-- The shape of the queue of an extract under the remote name `rname` after
`k` read requests: at most one xml-open transaction, then the read requests
for the chunks `0` to `k - 1` in order. -/
def extract_queue_shape (env : extract_env) (rname : Name) (k : Nat)
    (q : List ct_trans) : Prop :=
  ∃ opens : List ct_trans, opens.length ≤ 1 ∧
    (∀ o ∈ opens, o.tr_state = tr_state_t.TR_S_XML_OPEN ∧ o.tr_type = tr_type_t.TR_T_ZERO) ∧
    q = opens ++ (List.range k).map (read_request env rname)

/-- The invariant of an extract run: nothing is queued and no reference taken
before the start; while the private state lives, the queue holds the open
(once sent) and the read requests for the chunks below `ces_block_no`, and
the references taken are one for the allocation and one per read request;
at any time the queue has the shape of an extract queue. -/
def extract_inv (env : extract_env) (state : ct_global_state) (op : extract_op) : Prop :=
  (state.ct_file_state = ct_file_state_t.CT_S_STARTING →
    state.ct_queued = [] ∧ op.op_priv = none ∧ state.fnode_refs = 0) ∧
  (∀ ces, op.op_priv = some ces →
    ∃ rname, op.cca_remotename = some rname ∧
      (ces.ces_open_sent = 0 →
        state.ct_queued = [] ∧ ces.ces_block_no = 0 ∧ state.fnode_refs = 0) ∧
      (ces.ces_open_sent ≠ 0 →
        extract_queue_shape env rname ces.ces_block_no state.ct_queued ∧
        state.fnode_refs = 1 + ces.ces_block_no)) ∧
  (∃ rname k, extract_queue_shape env rname k state.ct_queued)

/-- An extract run with a suspension: two free transactions, the open, its
reply, the request for chunk 0, an invocation that finds the pool empty, a
release, the request for chunk 1, the end of the stream on chunk 1, and two
more invocations. -/
def evs_extract_suspended : List extract_event :=
  [extract_event.wakeup, extract_event.open_reply, extract_event.wakeup,
   extract_event.wakeup, extract_event.release, extract_event.wakeup,
   extract_event.eof (read_request env_extract ['f'] 1),
   extract_event.release, extract_event.wakeup, extract_event.wakeup]

/-! ## Polled open -/

/-- The four timed I/O steps of `ct_xml_file_open_polled`. -/
inductive io_step
  | write_header
  | write_body
  | read_header
  | read_body
  deriving DecidableEq, Repr

/-- What `ct_xml_file_open_polled` meets outside this file.

* `ct_create_xml_open`: the XML codec; an error code, or the size `hdr.c_size`
  of the body.
* `sizeof_hdr`: `sizeof hdr`.
* `write_header`, `write_body`, `read_header`, `read_body`: what
  `ct_assl_io_write_poll` and `ct_assl_io_read_poll` return for the step, the
  number of bytes transferred or a negative value.
* `reply_c_size`, `reply_c_status`, `reply_c_opcode`: the fields of the reply
  header after `ct_unwire_header`.
* `C_HDR_S_OK`, `C_HDR_O_XML_REPLY`: the constants of the protocol. -/
structure polled_env where
  ct_create_xml_open : Name → md_mode_t → Nat → Except cte_t Nat
  sizeof_hdr : Nat
  write_header : Int
  write_body : Int
  read_header : Int
  read_body : Int
  reply_c_size : Nat
  reply_c_status : Nat
  reply_c_opcode : Nat
  C_HDR_S_OK : Nat
  C_HDR_O_XML_REPLY : Nat

/-- `ct_xml_file_open_polled`: the return value `rv` (`none` is 0) and the I/O
steps performed, in order. After the packet is built `rv` holds 0; the last
step overwrites it on a short read and confirms it on an OK reply, and
leaves it alone otherwise. The sizes are far below the bounds of `size_t`
and `ssize_t`, so the comparisons are taken on integers. -/
def ct_xml_file_open_polled (env : polled_env) (file : Name) (mode : md_mode_t)
    (chunkno : Nat) : Option cte_t × List io_step :=
  match env.ct_create_xml_open file mode chunkno with
  | Except.error rv => (some rv, [])
  | Except.ok sz =>
    let rv : Option cte_t := none
    if env.write_header ≠ (env.sizeof_hdr : Int) then
      (some cte_t.CTE_SHORT_WRITE, [io_step.write_header])
    else if env.write_body ≠ (sz : Int) then
      (some cte_t.CTE_SHORT_WRITE, [io_step.write_header, io_step.write_body])
    else if env.read_header ≠ (env.sizeof_hdr : Int) then
      (some cte_t.CTE_SHORT_READ,
        [io_step.write_header, io_step.write_body, io_step.read_header])
    else
      let rv : Option cte_t :=
        if env.read_body ≠ (env.reply_c_size : Int) then some cte_t.CTE_SHORT_READ
        else if env.reply_c_status = env.C_HDR_S_OK ∧
            env.reply_c_opcode = env.C_HDR_O_XML_REPLY then none
        else rv
      (rv, [io_step.write_header, io_step.write_body, io_step.read_header,
        io_step.read_body])

/-- A polled open in which everything succeeds: a header of 32 bytes, a body
of 100 bytes, a reply of 60 bytes with status OK and opcode XML_REPLY. -/
def env_polled : polled_env :=
  { ct_create_xml_open := fun _ _ _ => Except.ok 100
    sizeof_hdr := 32
    write_header := 32
    write_body := 100
    read_header := 32
    read_body := 60
    reply_c_size := 60
    reply_c_status := 0
    reply_c_opcode := 5
    C_HDR_S_OK := 0
    C_HDR_O_XML_REPLY := 5 }

/-! ## Cull: the predecessor walk on a cycle -/

/-- The predecessor walk (`prev_ct_file:` with its `goto`) after `n` rounds:
the tree, and where the walk stands. `some (some p)`: it is about to follow
the predecessor `p`; `some none`: `prev_filename` is NULL and the walk has
ended; `none`: it has left through `dying:`. -/
def cull_walk_rounds (cache : ctfile_cache) (size : Nat) :
    Nat → List ctfile_list_file → Option Name →
    List ctfile_list_file × Option (Option Name)
  | 0, tree, prev => (tree, some prev)
  | _ + 1, tree, none => (tree, some none)
  | n + 1, tree, some prev_filename =>
    match cull_walk_step cache size tree prev_filename with
    | (tree, none) => (tree, none)
    | (tree, some next) => cull_walk_rounds cache size n tree next

/-- A cache in which the manifest of the newer file of scenario S6 names
itself as its predecessor. -/
def cache_self : ctfile_cache := fun n =>
  if n = name_new then Except.ok ⟨some name_new, false, [], none⟩
  else Except.error cte_t.CTE_ERRNO

/-- A cache in which the two files of scenario S6 name each other as
predecessor. -/
def cache_cycle : ctfile_cache := fun n =>
  if n = name_new then Except.ok ⟨some name_old, false, [], none⟩
  else if n = name_old then Except.ok ⟨some name_new, false, [], none⟩
  else Except.error cte_t.CTE_ERRNO

/-! ## Cull: a manifest whose parse fails -/

/-- The cache of scenario S6 with a damaged newer manifest: the parser
delivers its header and first SHA record and then fails with `XS_RET_FAIL`. -/
def cache_parse_fails : ctfile_cache := fun n =>
  if n = name_new then
    Except.ok ⟨some name_old, false, [xs_record.XS_RET_SHA [2] [12]], some (cte_t.CTE_OTHER 4)⟩
  else if n = name_old then
    Except.ok ⟨none, false, [xs_record.XS_RET_SHA [1] [11]], none⟩
  else Except.error cte_t.CTE_ERRNO

/-! ## Cull: predecessors that are not listed -/

/-- A file that is in the cache and not in the listing. -/
def name_ghost : Name := "20240110-000000-g".toList

/-- The cache of scenario S6 with an unlisted file between the two: the newer
manifest names the unlisted file, which names the older one. -/
def cache_ghost : ctfile_cache := fun n =>
  if n = name_new then
    Except.ok ⟨some name_ghost, false, [xs_record.XS_RET_SHA [2] [12]], none⟩
  else if n = name_ghost then
    Except.ok ⟨some name_old, false, [xs_record.XS_RET_SHA [3] [13]], none⟩
  else if n = name_old then
    Except.ok ⟨none, false, [xs_record.XS_RET_SHA [1] [11]], none⟩
  else Except.error cte_t.CTE_ERRNO

/-- A cache in which the newer manifest names a previous-level file that
cannot be read. -/
def cache_broken_chain : ctfile_cache := fun n =>
  if n = name_new then
    Except.ok ⟨some name_ghost, false, [xs_record.XS_RET_SHA [2] [12]], none⟩
  else Except.error cte_t.CTE_ERRNO


/-! ## Proofs: general lemmas -/

theorem foldl_invariant {σ ε : Type} (step : σ → ε → σ) (P : σ → Prop)
    (hstep : ∀ s e, P s → P (step s e)) :
    ∀ (evs : List ε) (s : σ), P s → P (evs.foldl step s) := by
  intro evs
  induction evs with
  | nil => intro s hs; exact hs
  | cons e rest ih => intro s hs; exact ih _ (hstep s e hs)

theorem write_chunks_append (q : List ct_trans) (t : ct_trans) :
    write_chunks (q ++ [t]) =
      write_chunks q ++ (if t.tr_type = tr_type_t.TR_T_WRITE_CHUNK then [t] else []) := by
  unfold write_chunks
  by_cases h : t.tr_type = tr_type_t.TR_T_WRITE_CHUNK <;> simp [List.filter_append, h]

theorem payload_sum_append (q : List ct_trans) (t : ct_trans) :
    payload_sum (q ++ [t]) =
      payload_sum q + (if t.tr_type = tr_type_t.TR_T_WRITE_CHUNK then t.tr_size0 else 0) := by
  unfold payload_sum
  by_cases h : t.tr_type = tr_type_t.TR_T_WRITE_CHUNK <;> simp [write_chunks_append, h]

theorem chunk_numbers_append (q : List ct_trans) (t : ct_trans) :
    chunk_numbers (q ++ [t]) =
      chunk_numbers q ++
        (if t.tr_type = tr_type_t.TR_T_WRITE_CHUNK then [t.tr_ctfile_chunkno] else []) := by
  unfold chunk_numbers
  by_cases h : t.tr_type = tr_type_t.TR_T_WRITE_CHUNK <;> simp [write_chunks_append, h]

/-! ## Proofs: the archive driver -/

/-- The loop of `ctfile_archive` never leaves the file state at `STARTING`. -/
theorem archive_loop_not_starting (env : archive_env) (rname : Name) :
    ∀ (free : Nat) (state : ct_global_state) (cas : ctfile_archive_state),
      state.ct_file_state ≠ ct_file_state_t.CT_S_STARTING →
      (ctfile_archive_loop env rname free state cas).1.ct_file_state ≠
        ct_file_state_t.CT_S_STARTING := by
  intro free
  induction free with
  | zero => intro state cas _; simp [ctfile_archive_loop, ct_set_file_state]
  | succ free ih =>
    intro state cas hs
    rw [ctfile_archive_loop]
    simp only []
    split_ifs with h1 h2
    · simp [ct_set_file_state]
    · simp [ctfile_archive_close, ct_set_file_state]
    · apply ih
      simp only [ctfile_archive_read]
      split_ifs <;> simpa [ct_queue_first] using hs

/-- Induction principle for the loop of `ctfile_archive`: a relation `J`
between queue and private state that the open, and read steps preserve, and
that the close step turns into `F`, holds when the loop returns. -/
theorem archive_loop_induct (env : archive_env) (rname : Name)
    (J : List ct_trans → ctfile_archive_state → Prop) (F : List ct_trans → Prop)
    (hopen : ∀ (state : ct_global_state) (cas : ctfile_archive_state),
      J state.ct_queued cas → cas.cas_open_sent = 0 →
      J (ct_xml_file_open env.ct_create_xml_open state archive_trans rname
          md_mode_t.MD_O_WRITE 0 ct_complete_fn.ctfile_xml_open_complete).ct_queued
        { cas with cas_open_sent := 1 })
    (hclose : ∀ (state : ct_global_state) (cas : ctfile_archive_state),
      J state.ct_queued cas → cas.cas_open_sent ≠ 0 → cas.cas_size = cas.cas_offset →
      F (ctfile_archive_close env rname state archive_trans cas).ct_queued)
    (hread : ∀ (state : ct_global_state) (cas : ctfile_archive_state),
      J state.ct_queued cas → cas.cas_open_sent ≠ 0 → cas.cas_size ≠ cas.cas_offset →
      J (ctfile_archive_read env rname state archive_trans cas).1.ct_queued
        (ctfile_archive_read env rname state archive_trans cas).2) :
    ∀ (free : Nat) (state : ct_global_state) (cas : ctfile_archive_state),
      J state.ct_queued cas →
      (∀ cas1, (ctfile_archive_loop env rname free state cas).2 = some cas1 →
        J (ctfile_archive_loop env rname free state cas).1.ct_queued cas1) ∧
      ((ctfile_archive_loop env rname free state cas).1.ct_file_state =
          ct_file_state_t.CT_S_FINISHED →
        F (ctfile_archive_loop env rname free state cas).1.ct_queued) ∧
      ((ctfile_archive_loop env rname free state cas).2 = none →
        (ctfile_archive_loop env rname free state cas).1.ct_file_state =
          ct_file_state_t.CT_S_FINISHED) := by
  intro free
  induction free with
  | zero =>
    intro state cas hJ
    simp only [ctfile_archive_loop, ct_set_file_state]
    refine ⟨?_, ?_, ?_⟩
    · intro cas1 h1
      simp at h1
      subst h1
      exact hJ
    · intro h; simp at h
    · intro h; simp at h
  | succ free ih =>
    intro state cas hJ
    rw [ctfile_archive_loop]
    simp only []
    have hJ1 : J ({ state with ct_trans_free_slots := free } : ct_global_state).ct_queued cas := hJ
    split_ifs with h1 h2
    · refine ⟨?_, ?_, ?_⟩
      · intro cas1 hc
        simp at hc
        subst hc
        simpa [ct_set_file_state] using hopen _ cas hJ1 h1
      · intro h; simp [ct_set_file_state] at h
      · intro h; simp at h
    · refine ⟨?_, ?_, ?_⟩
      · intro cas1 hc; simp at hc
      · intro _
        exact hclose _ cas hJ1 h1 h2
      · intro _; simp [ctfile_archive_close, ct_set_file_state]
    · exact ih _ _ (hread _ cas hJ1 h1 h2)

theorem archive_dying_queued (state : ct_global_state) (op : archive_op) :
    (ctfile_archive_dying state op).1.ct_queued = state.ct_queued ∧
    (ctfile_archive_dying state op).1.ct_file_state = state.ct_file_state ∧
    (ctfile_archive_dying state op).2.op_priv = none ∧
    (ctfile_archive_dying state op).2.cca_remotename = op.cca_remotename := by
  unfold ctfile_archive_dying
  cases hp : op.op_priv with
  | none => simp [hp]
  | some cas =>
    simp only []
    split_ifs <;> simp

theorem archive_dying_inv (given : Option Name)
    (J : Name → List ct_trans → ctfile_archive_state → Prop) (F G : List ct_trans → Prop)
    (state : ct_global_state) (op : archive_op)
    (h1 : state.ct_file_state = ct_file_state_t.CT_S_STARTING →
      state.ct_queued = [] ∧ op.cca_remotename = given)
    (h2 : state.ct_file_state = ct_file_state_t.CT_S_FINISHED → F state.ct_queued)
    (h3 : G state.ct_queued) :
    archive_inv given J F G (ctfile_archive_dying state op) := by
  obtain ⟨hq, hf, hp, hr⟩ := archive_dying_queued state op
  unfold archive_inv
  rw [hq, hf, hp, hr]
  refine ⟨fun h => ⟨(h1 h).1, rfl, (h1 h).2⟩, ?_, h2, h3⟩
  intro cas hc
  cases hc

/-- Every step of an archive run preserves `archive_inv`, when the steps of
the driver preserve `J`, the close step establishes `F`, and `G` follows
from either. -/
theorem archive_step_inv (env : archive_env) (given : Option Name)
    (J : Name → List ct_trans → ctfile_archive_state → Prop) (F G : List ct_trans → Prop)
    (hstart : ∀ cas rname,
      ctfile_archive_start env ⟨given, none⟩ = Except.ok (cas, rname) → J rname [] cas)
    (hopen : ∀ rname (state : ct_global_state) (cas : ctfile_archive_state),
      J rname state.ct_queued cas → cas.cas_open_sent = 0 →
      J rname (ct_xml_file_open env.ct_create_xml_open state archive_trans rname
          md_mode_t.MD_O_WRITE 0 ct_complete_fn.ctfile_xml_open_complete).ct_queued
        { cas with cas_open_sent := 1 })
    (hclose : ∀ rname (state : ct_global_state) (cas : ctfile_archive_state),
      J rname state.ct_queued cas → cas.cas_open_sent ≠ 0 → cas.cas_size = cas.cas_offset →
      F (ctfile_archive_close env rname state archive_trans cas).ct_queued)
    (hread : ∀ rname (state : ct_global_state) (cas : ctfile_archive_state),
      J rname state.ct_queued cas → cas.cas_open_sent ≠ 0 → cas.cas_size ≠ cas.cas_offset →
      J rname (ctfile_archive_read env rname state archive_trans cas).1.ct_queued
        (ctfile_archive_read env rname state archive_trans cas).2)
    (hJG : ∀ rname q cas, J rname q cas → G q) (hFG : ∀ q, F q → G q)
    (s : ct_global_state × archive_op) (e : archive_event)
    (hs : archive_inv given J F G s) : archive_inv given J F G (archive_step env s e) := by
  obtain ⟨state, op⟩ := s
  obtain ⟨hS, hP, hF, hG⟩ := hs
  simp only at hS hP hF hG
  have hloop : ∀ (rname : Name) (st : ct_global_state) (cas : ctfile_archive_state),
      J rname st.ct_queued cas → st.ct_file_state ≠ ct_file_state_t.CT_S_STARTING →
      archive_inv given J F G
        ((ctfile_archive_loop env rname st.ct_trans_free_slots st cas).1,
          { cca_remotename := some rname,
            op_priv := (ctfile_archive_loop env rname st.ct_trans_free_slots st cas).2 }) := by
    intro rname st cas hJ hne
    have hl := archive_loop_induct env rname (J rname) F (hopen rname) (hclose rname)
      (hread rname) st.ct_trans_free_slots st cas hJ
    have hn := archive_loop_not_starting env rname st.ct_trans_free_slots st cas hne
    refine ⟨fun h => absurd h hn, ?_, hl.2.1, ?_⟩
    · intro cas1 hc
      exact ⟨rname, rfl, hl.1 cas1 hc⟩
    · cases hc : (ctfile_archive_loop env rname st.ct_trans_free_slots st cas).2 with
      | none => exact hFG _ (hl.2.1 (hl.2.2 hc))
      | some cas1 => exact hJG rname _ cas1 (hl.1 cas1 hc)
  cases e with
  | release => exact ⟨hS, hP, hF, hG⟩
  | die => exact ⟨hS, hP, hF, hG⟩
  | open_reply =>
    simp only [archive_step]
    split_ifs with h
    · refine ⟨?_, hP, ?_, hG⟩
      · intro h2; simp [ctfile_xml_open_complete, ct_set_file_state] at h2
      · intro h2; simp [ctfile_xml_open_complete, ct_set_file_state] at h2
    · exact ⟨hS, hP, hF, hG⟩
  | wakeup =>
    simp only [archive_step, ctfile_archive]
    split_ifs with hd
    · exact archive_dying_inv given J F G state op (fun h => ⟨(hS h).1, (hS h).2.2⟩) hF hG
    · cases hfs : state.ct_file_state with
      | CT_S_FINISHED => exact ⟨hS, hP, hF, hG⟩
      | CT_S_WAITING_SERVER => exact ⟨hS, hP, hF, hG⟩
      | CT_S_STARTING =>
        simp only []
        have hop : op = ⟨given, none⟩ := by
          obtain ⟨_, h2, h3⟩ := hS hfs
          cases op; simp_all
        have hq : state.ct_queued = [] := (hS hfs).1
        cases hst : ctfile_archive_start env op with
        | error ec =>
          obtain ⟨e, cas⟩ := ec
          simp only []
          apply archive_dying_inv
          · intro _
            refine ⟨?_, (hS hfs).2.2⟩
            split_ifs <;> simpa [ct_fatal] using hq
          · intro h
            exfalso
            split_ifs at h <;> simp [ct_fatal, hfs] at h
          · split_ifs <;> simpa [ct_fatal] using hG
        | ok cr =>
          obtain ⟨cas, rname⟩ := cr
          simp only []
          rw [hop] at hst
          have hJ0 := hstart cas rname hst
          exact hloop rname (ct_set_file_state { state with fnode_refs := state.fnode_refs + 1 }
              ct_file_state_t.CT_S_RUNNING) cas (by simpa [ct_set_file_state, hq] using hJ0)
              (by simp [ct_set_file_state])
      | CT_S_RUNNING =>
        simp only []
        cases hp : op.op_priv with
        | none =>
          simp only []
          exact ⟨by simp [hfs], by simp [hp], by simp [hfs], hG⟩
        | some cas =>
          cases hr : op.cca_remotename with
          | none =>
            obtain ⟨rn, h1, _⟩ := hP cas hp
            simp [hr] at h1
          | some rname =>
            simp only []
            obtain ⟨rn, h1, hJ⟩ := hP cas hp
            rw [hr] at h1
            cases h1
            exact hloop rname (ct_set_file_state state ct_file_state_t.CT_S_RUNNING) cas
              (by simpa [ct_set_file_state] using hJ) (by simp [ct_set_file_state])
      | CT_S_WAITING_TRANS =>
        simp only []
        cases hp : op.op_priv with
        | none =>
          simp only []
          exact ⟨by simp [hfs], by simp [hp], by simp [hfs], hG⟩
        | some cas =>
          cases hr : op.cca_remotename with
          | none =>
            obtain ⟨rn, h1, _⟩ := hP cas hp
            simp [hr] at h1
          | some rname =>
            simp only []
            obtain ⟨rn, h1, hJ⟩ := hP cas hp
            rw [hr] at h1
            cases h1
            exact hloop rname (ct_set_file_state state ct_file_state_t.CT_S_RUNNING) cas
              (by simpa [ct_set_file_state] using hJ) (by simp [ct_set_file_state])

/-- The invariant holds after every archive run. -/
theorem archive_run_inv (env : archive_env) (given : Option Name)
    (J : Name → List ct_trans → ctfile_archive_state → Prop) (F G : List ct_trans → Prop)
    (hstart : ∀ cas rname,
      ctfile_archive_start env ⟨given, none⟩ = Except.ok (cas, rname) → J rname [] cas)
    (hopen : ∀ rname (state : ct_global_state) (cas : ctfile_archive_state),
      J rname state.ct_queued cas → cas.cas_open_sent = 0 →
      J rname (ct_xml_file_open env.ct_create_xml_open state archive_trans rname
          md_mode_t.MD_O_WRITE 0 ct_complete_fn.ctfile_xml_open_complete).ct_queued
        { cas with cas_open_sent := 1 })
    (hclose : ∀ rname (state : ct_global_state) (cas : ctfile_archive_state),
      J rname state.ct_queued cas → cas.cas_open_sent ≠ 0 → cas.cas_size = cas.cas_offset →
      F (ctfile_archive_close env rname state archive_trans cas).ct_queued)
    (hread : ∀ rname (state : ct_global_state) (cas : ctfile_archive_state),
      J rname state.ct_queued cas → cas.cas_open_sent ≠ 0 → cas.cas_size ≠ cas.cas_offset →
      J rname (ctfile_archive_read env rname state archive_trans cas).1.ct_queued
        (ctfile_archive_read env rname state archive_trans cas).2)
    (hJG : ∀ rname q cas, J rname q cas → G q) (hFG : ∀ q, F q → G q) (hG0 : G [])
    (free : Nat) (evs : List archive_event) :
    archive_inv given J F G (archive_run env free given evs) := by
  unfold archive_run
  apply foldl_invariant (archive_step env) (archive_inv given J F G)
    (archive_step_inv env given J F G hstart hopen hclose hread hJG hFG)
  refine ⟨fun _ => ⟨rfl, rfl, rfl⟩, ?_, ?_, hG0⟩
  · intro cas hc; simp [archive_init] at hc
  · intro h; simp [archive_init, ct_state_init] at h

/-- What a successful start leaves in the private state. -/
theorem archive_start_ok (env : archive_env) (op : archive_op)
    (cas : ctfile_archive_state) (rname : Name)
    (h : ctfile_archive_start env op = Except.ok (cas, rname)) :
    env.fstat = some cas.cas_size ∧ cas.cas_offset = 0 ∧ cas.cas_block_no = 0 ∧
      cas.cas_open_sent = 0 := by
  unfold ctfile_archive_start at h
  simp only [] at h
  split_ifs at h with h1 h2
  · split at h
    · cases h
    · split at h
      · cases h
      · rename_i st hst
        split at h
        · simp only [Except.ok.injEq, Prod.mk.injEq] at h
          obtain ⟨hc, _⟩ := h
          subst hc
          exact ⟨hst, rfl, rfl, rfl⟩
        · split at h
          · cases h
          · simp only [Except.ok.injEq, Prod.mk.injEq] at h
            obtain ⟨hc, _⟩ := h
            subst hc
            exact ⟨hst, rfl, rfl, rfl⟩
  · split at h
    · cases h
    · split at h
      · cases h
      · rename_i st hst
        split at h
        · simp only [Except.ok.injEq, Prod.mk.injEq] at h
          obtain ⟨hc, _⟩ := h
          subst hc
          exact ⟨hst, rfl, rfl, rfl⟩
        · split at h
          · cases h
          · simp only [Except.ok.injEq, Prod.mk.injEq] at h
            obtain ⟨hc, _⟩ := h
            subst hc
            exact ⟨hst, rfl, rfl, rfl⟩

/-- The queue after `ct_xml_file_open` holds the same write-chunk transactions. -/
theorem write_chunks_xml_file_open (create : Name → md_mode_t → Nat → Except cte_t Nat)
    (state : ct_global_state) (file : Name) (mode : md_mode_t) (chunkno : Nat)
    (cb : ct_complete_fn) (t : ct_trans) (ht : t.tr_type = tr_type_t.TR_T_ZERO) :
    write_chunks (ct_xml_file_open create state t file mode chunkno cb).ct_queued =
      write_chunks state.ct_queued := by
  unfold ct_xml_file_open
  cases create file mode chunkno with
  | error e => simp [ct_trans_free, ct_fatal]
  | ok c => simp [ct_queue_first, write_chunks_append, ht]

/-- The queue after the close step holds the same write-chunk transactions. -/
theorem write_chunks_archive_close (env : archive_env) (rname : Name)
    (state : ct_global_state) (cas : ctfile_archive_state) :
    write_chunks (ctfile_archive_close env rname state archive_trans cas).ct_queued =
      write_chunks state.ct_queued := by
  simp [ctfile_archive_close, ct_set_file_state, ct_queue_first, write_chunks_append,
    archive_trans, ct_trans_zero]

/-- The read step queues exactly one transaction, a write-chunk carrying the
bytes read and the current block number, and advances the private state. -/
theorem archive_read_spec (env : archive_env) (rname : Name)
    (state : ct_global_state) (t : ct_trans) (cas : ctfile_archive_state) :
    ∃ tr : ct_trans,
      (ctfile_archive_read env rname state t cas).1.ct_queued = state.ct_queued ++ [tr] ∧
      tr.tr_type = tr_type_t.TR_T_WRITE_CHUNK ∧
      tr.tr_size0 = env.fread cas.cas_offset (ctfile_archive_rsz env cas) ∧
      tr.tr_ctfile_chunkno = cas.cas_block_no ∧
      (ctfile_archive_read env rname state t cas).2.cas_size = cas.cas_size ∧
      (ctfile_archive_read env rname state t cas).2.cas_block_no = cas.cas_block_no + 1 ∧
      (ctfile_archive_read env rname state t cas).2.cas_open_sent = cas.cas_open_sent ∧
      (ctfile_archive_read env rname state t cas).2.cas_offset =
        if ctfile_archive_rsz env cas ≠ env.fread cas.cas_offset (ctfile_archive_rsz env cas) ∨
            env.fread cas.cas_offset (ctfile_archive_rsz env cas) + cas.cas_offset
              = cas.cas_size
        then cas.cas_size
        else cas.cas_offset + env.fread cas.cas_offset (ctfile_archive_rsz env cas) := by
  unfold ctfile_archive_read
  simp only []
  split_ifs <;> exact ⟨_, rfl, rfl, rfl, rfl, rfl, rfl, rfl, rfl⟩

/-- C1 (amended): for every ctfile archive run that reaches `FINISHED` (any file
size, any `max_block_size`, any pattern of pool exhaustion, open reply and
wakeups) in which every read returns the number of bytes requested, the sum
of the payload sizes `tr_size[0]` of the queued write-chunk transactions
equals the size `cas_size` recorded at the start. -/
theorem archive_payload_full_reads (env : archive_env) (free : Nat) (given : Option Name)
    (evs : List archive_event) (S : Nat) (hS : env.fstat = some S)
    (hfull : ∀ pos n, env.fread pos n = n)
    (hfin : (archive_run env free given evs).1.ct_file_state =
      ct_file_state_t.CT_S_FINISHED) :
    payload_sum (archive_run env free given evs).1.ct_queued = S := by
  have h := archive_run_inv env given
    (fun _ q cas => cas.cas_size = S ∧ payload_sum q = cas.cas_offset)
    (fun q => payload_sum q = S) (fun _ => True) ?_ ?_ ?_ ?_ ?_ ?_ trivial free evs
  · exact h.2.2.1 hfin
  · intro cas rname hst
    obtain ⟨h1, h2, _, _⟩ := archive_start_ok env _ cas rname hst
    rw [hS] at h1
    cases h1
    exact ⟨rfl, by simp [payload_sum, write_chunks, h2]⟩
  · intro rname state cas hJ _
    refine ⟨hJ.1, ?_⟩
    unfold payload_sum
    rw [write_chunks_xml_file_open _ _ _ _ _ _ _ rfl]
    exact hJ.2
  · intro rname state cas hJ _ heq
    unfold payload_sum
    rw [write_chunks_archive_close]
    show payload_sum state.ct_queued = S
    rw [hJ.2, ← heq, hJ.1]
  · intro rname state cas hJ _ _
    obtain ⟨tr, hq, hty, hsz, _, hsize, _, _, hoff⟩ :=
      archive_read_spec env rname state archive_trans cas
    rw [hq, hsize, hoff, payload_sum_append, hty, hsz, hfull]
    refine ⟨hJ.1, ?_⟩
    simp only [if_true, hJ.2]
    split_ifs with hc
    · rcases hc with hc | hc
      · exact absurd rfl hc
      · omega
    · rfl
  · intros; trivial
  · intros; trivial

/-- Witness of C1 (amended): a 2050-byte file archived in blocks of 1024 bytes
across a suspension queues 2050 bytes of payload. -/
theorem archive_payload_full_reads_witness :
    env_2050.fstat = some 2050 ∧ (∀ pos n, env_2050.fread pos n = n) ∧
    (archive_run env_2050 3 none evs_suspended).1.ct_file_state =
      ct_file_state_t.CT_S_FINISHED ∧
    payload_sum (archive_run env_2050 3 none evs_suspended).1.ct_queued = 2050 :=
  ⟨rfl, fun _ _ => rfl, by decide,
    archive_payload_full_reads env_2050 3 none evs_suspended 2050 rfl (fun _ _ => rfl)
      (by decide)⟩

/-- Counterexample to C1 as stated: a 10-byte file whose single read returns 3
bytes. The run reaches `FINISHED` and the queued payload is 3 bytes, not the
10 bytes recorded as `cas_size`. -/
theorem archive_payload_short_read :
    env_short_read.fstat = some 10 ∧
    (∀ pos n, env_short_read.fread pos n ≤ n) ∧
    (archive_run env_short_read 3 none
      [archive_event.wakeup, archive_event.open_reply, archive_event.wakeup]).1.ct_file_state
        = ct_file_state_t.CT_S_FINISHED ∧
    payload_sum (archive_run env_short_read 3 none
      [archive_event.wakeup, archive_event.open_reply, archive_event.wakeup]).1.ct_queued
        = 3 :=
  ⟨rfl, fun _ n => Nat.min_le_left n 3, by decide, by decide⟩

/-- C2: in every ctfile archive run (every read outcome, every interleaving of
wakeups, pool exhaustion, releases, the open reply and the dying flag) the
chunk numbers of the queued write-chunk transactions, in queue order, are
exactly `0, 1, ..., N-1` where `N` is the number of write-chunk transactions. -/
theorem archive_chunk_numbers (env : archive_env) (free : Nat) (given : Option Name)
    (evs : List archive_event) :
    chunk_numbers (archive_run env free given evs).1.ct_queued =
      List.range (chunk_numbers (archive_run env free given evs).1.ct_queued).length := by
  have h := archive_run_inv env given
    (fun _ q cas => chunk_numbers q = List.range cas.cas_block_no)
    (fun q => chunk_numbers q = List.range (chunk_numbers q).length)
    (fun q => chunk_numbers q = List.range (chunk_numbers q).length)
    ?_ ?_ ?_ ?_ ?_ ?_ (by simp [chunk_numbers, write_chunks]) free evs
  · exact h.2.2.2
  · intro cas rname hst
    obtain ⟨_, _, h3, _⟩ := archive_start_ok env _ cas rname hst
    simp [chunk_numbers, write_chunks, h3]
  · intro rname state cas hJ _
    unfold chunk_numbers
    rw [write_chunks_xml_file_open _ _ _ _ _ _ _ rfl]
    exact hJ
  · intro rname state cas hJ _ _
    unfold chunk_numbers
    rw [write_chunks_archive_close]
    have hJ1 : chunk_numbers state.ct_queued = List.range cas.cas_block_no := hJ
    unfold chunk_numbers at hJ1
    rw [hJ1, List.length_range]
  · intro rname state cas hJ _ _
    obtain ⟨tr, hq, hty, _, hno, _, hbn, _, _⟩ :=
      archive_read_spec env rname state archive_trans cas
    have hJ1 : chunk_numbers state.ct_queued = List.range cas.cas_block_no := hJ
    rw [hq, hbn, chunk_numbers_append, hty, hno, hJ1, if_pos rfl, List.range_succ]
  · intro rname q cas hJ
    have hJ1 : chunk_numbers q = List.range cas.cas_block_no := hJ
    rw [hJ1, List.length_range]
  · intro q hq; exact hq

/-! ### The complete sequence of a faithful archive -/

theorem spec_blocks_mul_ge (S B : Nat) (hB : 1 ≤ B) : S ≤ spec_blocks S B * B := by
  unfold spec_blocks
  have h1 := Nat.div_add_mod (S + B - 1) B
  have h2 := Nat.mod_lt (S + B - 1) (show B > 0 by omega)
  rw [Nat.mul_comm] at h1
  omega

theorem spec_blocks_last (S B k : Nat) (hB : 1 ≤ B) (hk : k * B < S) :
    (min B (S - k * B) + k * B = S) ↔ k + 1 = spec_blocks S B := by
  unfold spec_blocks
  have hpos : 0 < B := hB
  have e1 : k + 1 ≤ (S + B - 1) / B ↔ (k + 1) * B ≤ S + B - 1 :=
    Nat.le_div_iff_mul_le hpos
  have e2 : (S + B - 1) / B < k + 2 ↔ S + B - 1 < (k + 2) * B :=
    Nat.div_lt_iff_lt_mul hpos
  have m1 : (k + 1) * B = k * B + B := Nat.succ_mul k B
  have m2 : (k + 2) * B = k * B + B + B := by rw [Nat.succ_mul, Nat.succ_mul]
  constructor
  · intro h
    have hle : S ≤ k * B + B := by
      rcases Nat.le_total B (S - k * B) with h3 | h3
      · rw [Nat.min_eq_left h3] at h; omega
      · omega
    have a1 := e1.2 (by omega)
    have a2 := e2.2 (by omega)
    omega
  · intro h
    have a1 := e1.1 (by omega)
    have a2 := e2.1 (by omega)
    rw [Nat.min_eq_right (by omega)]
    omega

/-- The read step on block `k` of a faithful archive queues the `k`-th
write-chunk the specification expects. -/
theorem archive_read_faithful (env : archive_env) (rname : Name) (S : Nat)
    (hB : 1 ≤ env.ct_max_block_size) (hfull : ∀ pos n, env.fread pos n = n)
    (state : ct_global_state) (cas : ctfile_archive_state)
    (hsize : cas.cas_size = S)
    (hoff : cas.cas_offset = cas.cas_block_no * env.ct_max_block_size)
    (hlt : cas.cas_offset < S) :
    (ctfile_archive_read env rname state archive_trans cas).1.ct_queued =
      state.ct_queued ++ [spec_archive_chunk env rname S cas.cas_block_no] ∧
    (ctfile_archive_read env rname state archive_trans cas).2.cas_size = S ∧
    (ctfile_archive_read env rname state archive_trans cas).2.cas_open_sent
      = cas.cas_open_sent ∧
    (ctfile_archive_read env rname state archive_trans cas).2.cas_block_no
      = cas.cas_block_no + 1 ∧
    (((ctfile_archive_read env rname state archive_trans cas).2.cas_offset =
        (cas.cas_block_no + 1) * env.ct_max_block_size ∧
      (ctfile_archive_read env rname state archive_trans cas).2.cas_offset < S) ∨
     ((ctfile_archive_read env rname state archive_trans cas).2.cas_offset = S ∧
      cas.cas_block_no + 1 = spec_blocks S env.ct_max_block_size)) := by
  have hrsz : ctfile_archive_rsz env cas =
      min env.ct_max_block_size (S - cas.cas_block_no * env.ct_max_block_size) := by
    unfold ctfile_archive_rsz
    simp only [hsize, hoff]
    split_ifs with h
    · exact (Nat.min_eq_left (by omega)).symm
    · exact (Nat.min_eq_right (by omega)).symm
  have hlast := spec_blocks_last S env.ct_max_block_size cas.cas_block_no hB (hoff ▸ hlt)
  have m1 : (cas.cas_block_no + 1) * env.ct_max_block_size =
      cas.cas_block_no * env.ct_max_block_size + env.ct_max_block_size := Nat.succ_mul _ _
  unfold ctfile_archive_read
  simp only [hfull, hrsz, hsize, hoff, ne_eq, not_true_eq_false, false_or]
  by_cases hl : cas.cas_block_no + 1 = spec_blocks S env.ct_max_block_size
  · have h1 := hlast.2 hl
    simp only [h1, if_true]
    refine ⟨?_, trivial, trivial, trivial, Or.inr ⟨trivial, hl⟩⟩
    simp [ct_queue_first, spec_archive_chunk, archive_trans, ct_trans_zero, hl]
  · have h1 : ¬ (min env.ct_max_block_size (S - cas.cas_block_no * env.ct_max_block_size)
        + cas.cas_block_no * env.ct_max_block_size = S) := fun h => hl (hlast.1 h)
    simp only [h1, if_false]
    have hmin : min env.ct_max_block_size (S - cas.cas_block_no * env.ct_max_block_size)
        = env.ct_max_block_size := by
      rcases Nat.le_total env.ct_max_block_size
        (S - cas.cas_block_no * env.ct_max_block_size) with h3 | h3
      · exact Nat.min_eq_left h3
      · rw [Nat.min_eq_right h3] at h1; omega
    refine ⟨?_, trivial, trivial, trivial, Or.inl ⟨?_, ?_⟩⟩
    · simp [ct_queue_first, spec_archive_chunk, archive_trans, ct_trans_zero, hl]
    · simp only [hmin]; omega
    · simp only [hmin]
      rcases Nat.lt_or_ge (cas.cas_block_no * env.ct_max_block_size + env.ct_max_block_size) S
        with h4 | h4
      · exact h4
      · exfalso
        apply h1
        rw [hmin] at h1
        omega

/-- The relation between remote name, queue and private state on which the
complete sequence of a faithful archive rests. -/
theorem archive_sequence_inv (env : archive_env) (free : Nat) (given : Option Name)
    (S c_size : Nat) (rname : Name) (cas0 : ctfile_archive_state)
    (hB : 1 ≤ env.ct_max_block_size) (hfull : ∀ pos n, env.fread pos n = n)
    (hstart : ctfile_archive_start env ⟨given, none⟩ = Except.ok (cas0, rname))
    (hsize : env.fstat = some S)
    (hopen : env.ct_create_xml_open rname md_mode_t.MD_O_WRITE 0 = Except.ok c_size)
    (evs : List archive_event)
    (hfin : (archive_run env free given evs).1.ct_file_state =
      ct_file_state_t.CT_S_FINISHED) :
    (archive_run env free given evs).1.ct_queued = spec_archive_queue env rname c_size S := by
  have h := archive_run_inv env given
    (fun rn q cas => rn = rname ∧ cas.cas_size = S ∧
      ((cas.cas_open_sent = 0 ∧ q = []) ∨
       (cas.cas_open_sent ≠ 0 ∧
        q = spec_archive_open rname c_size :: spec_archive_chunks env rname S cas.cas_block_no ∧
        ((cas.cas_offset = cas.cas_block_no * env.ct_max_block_size ∧ cas.cas_offset < S) ∨
         (cas.cas_offset = S ∧ cas.cas_block_no = spec_blocks S env.ct_max_block_size)))) ∧
      (cas.cas_open_sent = 0 → cas.cas_offset = 0 ∧ cas.cas_block_no = 0))
    (fun q => q = spec_archive_queue env rname c_size S) (fun _ => True)
    ?_ ?_ ?_ ?_ ?_ ?_ trivial free evs
  · exact h.2.2.1 hfin
  · intro cas rn hst
    rw [hstart] at hst
    simp only [Except.ok.injEq, Prod.mk.injEq] at hst
    obtain ⟨hc, hr⟩ := hst
    subst hc hr
    obtain ⟨h1, h2, h3, h4⟩ := archive_start_ok env _ cas0 rname hstart
    rw [hsize] at h1
    cases h1
    exact ⟨rfl, rfl, Or.inl ⟨h4, rfl⟩, fun _ => ⟨h2, h3⟩⟩
  · intro rn state cas hJ h0
    obtain ⟨hrn, hsz, hcase, hzero⟩ := hJ
    subst hrn
    refine ⟨rfl, hsz, Or.inr ⟨by simp, ?_, ?_⟩, ?_⟩
    · rcases hcase with ⟨_, hq⟩ | ⟨hne, _⟩
      · simp only [ct_xml_file_open, hopen, ct_queue_first, hq, (hzero h0).2]
        simp [spec_archive_chunks, spec_archive_open, archive_trans]
      · exact absurd h0 hne
    · have hS1 := hzero h0
      simp only [hS1.1, hS1.2]
      rcases Nat.eq_zero_or_pos S with hS0 | hSpos
      · subst hS0
        exact Or.inr ⟨rfl, by unfold spec_blocks; exact (Nat.div_eq_of_lt (by omega)).symm⟩
      · left
        simp [hSpos]
    · intro h; simp at h
  · intro rn state cas hJ hne heq
    obtain ⟨hrn, hsz, hcase, _⟩ := hJ
    subst hrn
    rcases hcase with ⟨h0, _⟩ | ⟨_, hq, hpos⟩
    · exact absurd h0 hne
    · rcases hpos with ⟨_, hlt⟩ | ⟨_, hbn⟩
      · omega
      · simp only [ctfile_archive_close, ct_set_file_state, ct_queue_first, hq, hbn]
        simp [spec_archive_queue, spec_archive_close, archive_trans, ct_trans_zero]
  · intro rn state cas hJ hne hneq
    obtain ⟨hrn, hsz, hcase, _⟩ := hJ
    subst hrn
    rcases hcase with ⟨h0, _⟩ | ⟨_, hq, hpos⟩
    · exact absurd h0 hne
    · rcases hpos with ⟨hoff, hlt⟩ | ⟨hoff, _⟩
      · obtain ⟨r1, r2, r3, r4, r5⟩ :=
          archive_read_faithful env rn S hB hfull state cas hsz hoff hlt
        refine ⟨rfl, r2, Or.inr ⟨by rw [r3]; exact hne, ?_, ?_⟩, ?_⟩
        · rw [r1, hq, r4]
          simp [spec_archive_chunks, List.range_succ]
        · rw [r4]; exact r5
        · intro h; rw [r3] at h; exact absurd h hne
      · omega
  · intros; trivial
  · intros; trivial

/-- With enough free transactions the loop of a faithful archive runs to the
close: `k` blocks of room left and `k + 1` free transactions. -/
theorem archive_loop_finishes (env : archive_env) (rname : Name)
    (hfull : ∀ pos n, env.fread pos n = n) :
    ∀ (free k : Nat) (state : ct_global_state) (cas : ctfile_archive_state),
      cas.cas_open_sent ≠ 0 → cas.cas_offset ≤ cas.cas_size →
      cas.cas_size - cas.cas_offset ≤ k * env.ct_max_block_size → k + 1 ≤ free →
      (ctfile_archive_loop env rname free state cas).1.ct_file_state =
        ct_file_state_t.CT_S_FINISHED := by
  intro free
  induction free with
  | zero => intro k state cas _ _ _ hk; omega
  | succ free ih =>
    intro k state cas hne hle hroom hk
    rw [ctfile_archive_loop]
    simp only []
    split_ifs with h1 h2
    · exact absurd h1 hne
    · simp [ctfile_archive_close, ct_set_file_state]
    · obtain ⟨tr, _, _, _, _, hsz, _, hos, hoff⟩ :=
        archive_read_spec env rname { state with ct_trans_free_slots := free }
          archive_trans cas
      have hk1 : 1 ≤ k := by
        rcases Nat.eq_zero_or_pos k with h0 | h0
        · subst h0; omega
        · exact h0
      obtain ⟨j, rfl⟩ : ∃ j, k = j + 1 := ⟨k - 1, by omega⟩
      have m1 : (j + 1) * env.ct_max_block_size =
          j * env.ct_max_block_size + env.ct_max_block_size := Nat.succ_mul _ _
      have hrsz : ctfile_archive_rsz env cas ≤ cas.cas_size - cas.cas_offset ∧
          (ctfile_archive_rsz env cas = cas.cas_size - cas.cas_offset ∨
            ctfile_archive_rsz env cas = env.ct_max_block_size) := by
        unfold ctfile_archive_rsz
        simp only []
        split_ifs with h3
        · exact ⟨by omega, Or.inr rfl⟩
        · exact ⟨le_refl _, Or.inl rfl⟩
      rw [hfull] at hoff
      show (ctfile_archive_loop env rname free
        (ctfile_archive_read env rname _ archive_trans cas).1
        (ctfile_archive_read env rname _ archive_trans cas).2).1.ct_file_state = _
      apply ih j
      · rw [hos]; exact hne
      · rw [hsz, hoff]
        split_ifs <;> omega
      · rw [hsz, hoff]
        split_ifs with h4
        · omega
        · have h5 : ctfile_archive_rsz env cas + cas.cas_offset ≠ cas.cas_size :=
            fun h => h4 (Or.inr h)
          omega
      · omega

/-- Releasing `n` transactions adds `n` free slots and changes nothing else. -/
theorem archive_release_many (env : archive_env) (n : Nat)
    (s : ct_global_state × archive_op) :
    (List.replicate n archive_event.release).foldl (archive_step env) s =
      ({ s.1 with ct_trans_free_slots := s.1.ct_trans_free_slots + n }, s.2) := by
  induction n generalizing s with
  | zero => rfl
  | succ n ih =>
    rw [List.replicate_succ, List.foldl_cons, ih]
    simp only [archive_step, ct_trans_free]
    congr 2
    omega

/-- The first iteration of the loop sends the xml-open. -/
theorem archive_loop_open (env : archive_env) (rname : Name) (free : Nat)
    (state : ct_global_state) (cas : ctfile_archive_state) (h : cas.cas_open_sent = 0) :
    ctfile_archive_loop env rname (free + 1) state cas =
      (ct_set_file_state
        (ct_xml_file_open env.ct_create_xml_open { state with ct_trans_free_slots := free }
          archive_trans rname md_mode_t.MD_O_WRITE 0 ct_complete_fn.ctfile_xml_open_complete)
        ct_file_state_t.CT_S_WAITING_SERVER, some { cas with cas_open_sent := 1 }) := by
  rw [ctfile_archive_loop]
  simp only [h, if_true]
  rfl

/-- The straight run of a faithful archive reaches `FINISHED`. -/
theorem archive_straight_finishes (env : archive_env) (free : Nat) (given : Option Name)
    (S c_size : Nat) (rname : Name) (cas0 : ctfile_archive_state)
    (hB : 1 ≤ env.ct_max_block_size) (hfull : ∀ pos n, env.fread pos n = n)
    (hstart : ctfile_archive_start env ⟨given, none⟩ = Except.ok (cas0, rname))
    (hsize : env.fstat = some S)
    (hopen : env.ct_create_xml_open rname md_mode_t.MD_O_WRITE 0 = Except.ok c_size) :
    (archive_run env free given
      (evs_straight (spec_blocks S env.ct_max_block_size + 1))).1.ct_file_state =
        ct_file_state_t.CT_S_FINISHED := by
  obtain ⟨h1, h2, h3, h4⟩ := archive_start_ok env _ cas0 rname hstart
  rw [hsize] at h1
  have hS : cas0.cas_size = S := by cases h1; rfl
  unfold archive_run evs_straight
  rw [List.foldl_append, List.foldl_append, archive_release_many]
  simp only [List.foldl_cons, List.foldl_nil]
  simp only [archive_init, ct_state_init, archive_step, ct_trans_free, ctfile_archive,
    hstart, ct_set_file_state, archive_loop_open _ _ _ _ _ h4, ct_xml_file_open, hopen,
    ct_queue_first, ctfile_xml_open_complete]
  simp only [List.nil_append, List.any_cons, List.any_nil, archive_trans, decide_True,
    Bool.or_false, and_self, if_true, Bool.false_eq_true, if_false, Bool.or_true]
  apply archive_loop_finishes env rname hfull _ (spec_blocks S env.ct_max_block_size)
  · simp
  · simp [h2]
  · simp only [h2, hS, Nat.sub_zero]
    exact spec_blocks_mul_ge S _ hB
  · omega

/-- C3: for a file of `S` bytes and `max_block_size` `B >= 1`, when every read
returns the number of bytes requested, the start succeeds with remote name
`rname` and the xml-open packet is built, every archive run that reaches
`FINISHED` has queued exactly: the xml-open (write, chunk number 0), then
`N = ceil(S/B)` write-chunks, the `i`-th with chunk number `i`, payload
`min B (S - i*B)`, flags `METADATA` plus `ENCRYPTED` exactly when cleartext
was not requested, `ex_status` 2 and EOF exactly when `i = N-1`, then the
xml-close with EOF; the run without suspension reaches `FINISHED`; the total
is `N + 2`. -/
theorem archive_complete_sequence (env : archive_env) (free : Nat) (given : Option Name)
    (S c_size : Nat) (rname : Name) (cas0 : ctfile_archive_state)
    (hS : 1 ≤ S) (hB : 1 ≤ env.ct_max_block_size)
    (hfull : ∀ pos n, env.fread pos n = n)
    (hstart : ctfile_archive_start env ⟨given, none⟩ = Except.ok (cas0, rname))
    (hsize : env.fstat = some S)
    (hopen : env.ct_create_xml_open rname md_mode_t.MD_O_WRITE 0 = Except.ok c_size) :
    (∀ evs, (archive_run env free given evs).1.ct_file_state =
        ct_file_state_t.CT_S_FINISHED →
      (archive_run env free given evs).1.ct_queued =
        spec_archive_queue env rname c_size S) ∧
    (archive_run env free given
      (evs_straight (spec_blocks S env.ct_max_block_size + 1))).1.ct_file_state =
        ct_file_state_t.CT_S_FINISHED ∧
    (spec_archive_queue env rname c_size S).length =
      spec_blocks S env.ct_max_block_size + 2 ∧
    1 ≤ spec_blocks S env.ct_max_block_size := by
  refine ⟨?_, ?_, ?_, ?_⟩
  · intro evs hfin
    exact archive_sequence_inv env free given S c_size rname cas0 hB hfull hstart hsize
      hopen evs hfin
  · exact archive_straight_finishes env free given S c_size rname cas0 hB hfull hstart
      hsize hopen
  · simp [spec_archive_queue, spec_archive_chunks]
  · have h := spec_blocks_mul_ge S env.ct_max_block_size hB
    rcases Nat.eq_zero_or_pos (spec_blocks S env.ct_max_block_size) with h0 | h0
    · rw [h0] at h; omega
    · exact h0

/-- Witness of C3, scenario S2: a 2050-byte file with blocks of 1024 bytes
queues xml-open, write-chunks of 1024, 1024 and 2 bytes, xml-close: five
transactions. -/
theorem archive_complete_sequence_witness :
    (archive_run env_2050 0 none (evs_straight 4)).1.ct_queued =
      spec_archive_queue env_2050 ['f'] 100 2050 ∧
    (spec_archive_queue env_2050 ['f'] 100 2050).length = 5 ∧
    (spec_archive_queue env_2050 ['f'] 100 2050).map
        (fun t => (t.tr_size0, t.tr_ctfile_chunkno, t.tr_eof)) =
      [(0, 0, 0), (1024, 0, 0), (1024, 1, 0), (2, 2, 1), (0, 0, 1)] :=
  have h := archive_complete_sequence env_2050 0 none 2050 100 ['f']
    ⟨true, true, 2050, 0, 0, 0⟩ (by decide) (by decide) (fun _ _ => rfl) rfl rfl rfl
  ⟨h.1 _ h.2.1, h.2.2.1, by decide⟩

/-- Scenario S1: a 3-byte file, blocks of 1024 bytes, cleartext: xml-open, one
write-chunk (3 bytes, chunk 0, EOF, flag `METADATA` only), xml-close. -/
theorem archive_scenario_three_bytes :
    (archive_run { env_2050 with fstat := some 3 } 0 none (evs_straight 2)).1.ct_queued.map
        (fun t => (t.tr_state, t.tr_size0, t.tr_ctfile_chunkno, t.tr_eof, t.c_flags)) =
      [(tr_state_t.TR_S_XML_OPEN, 0, 0, 0, 0), (tr_state_t.TR_S_READ, 3, 0, 1, 4),
       (tr_state_t.TR_S_XML_CLOSE, 0, 0, 1, 4)] := by
  decide

/-! ## Proofs: the name verifier -/

theorem strcspn_eq_length (s : Name) (reject : List Char) :
    strcspn s reject = s.length ↔ ∀ c ∈ s, c ∉ reject := by
  unfold strcspn
  constructor
  · intro h
    have hp := List.takeWhile_prefix (fun c => decide (c ∉ reject)) (l := s)
    have he := hp.eq_of_length h
    have := List.takeWhile_eq_self_iff.1 he
    intro c hc
    simpa using this c hc
  · intro h
    have : s.takeWhile (fun c => decide (c ∉ reject)) = s :=
      List.takeWhile_eq_self_iff.2 (fun c hc => by simpa using h c hc)
    rw [this]

/-- C4: for every non-NULL name, `ctfile_verify_name` returns 0 if and only if
the name contains no character of the rejection set and the fake date stamp
followed by the name base64-encodes within `CT_CTFILE_MAXLEN`; for a NULL
name it returns non-zero. The encoder is any function that, like base64,
never accepts an input that is not shorter than the destination buffer. -/
theorem ctfile_verify_name_spec (reject : List Char) (maxlen : Nat)
    (encode : Name → Nat → Nat)
    (hencode : ∀ src, encode src maxlen = 0 → src.length < maxlen) :
    (∀ name : Name,
      ctfile_verify_name reject maxlen encode (some name) = 0 ↔
        ((∀ c ∈ name, c ∉ reject) ∧ encode (ctfile_fake_stamp ++ name) maxlen = 0)) ∧
    (∀ name : Name,
      ctfile_verify_name reject maxlen encode (some name) ≠ 0 ↔
        ¬ ((∀ c ∈ name, c ∉ reject) ∧ encode (ctfile_fake_stamp ++ name) maxlen = 0)) ∧
    ctfile_verify_name reject maxlen encode none ≠ 0 := by
  have key : ∀ name : Name,
      ctfile_verify_name reject maxlen encode (some name) = 0 ↔
        ((∀ c ∈ name, c ∉ reject) ∧ encode (ctfile_fake_stamp ++ name) maxlen = 0) := by
    intro name
    unfold ctfile_verify_name
    simp only []
    split_ifs with h1 h2 h3
    · constructor
      · intro h; cases h
      · intro h
        have := hencode _ h.2
        omega
    · constructor
      · intro h; cases h
      · intro h; exact absurd h.2 h2
    · have h2 : encode (ctfile_fake_stamp ++ name) maxlen = 0 := not_not.1 h2
      exact ⟨fun _ => ⟨(strcspn_eq_length name reject).1 h3, h2⟩, fun _ => rfl⟩
    · have h2 : encode (ctfile_fake_stamp ++ name) maxlen = 0 := not_not.1 h2
      constructor
      · intro h; cases h
      · intro h; exact absurd ((strcspn_eq_length name reject).2 h.1) h3
  exact ⟨key, fun name => not_congr (key name), by simp [ctfile_verify_name]⟩

/-- Witness of C4: with the rejection set `/`, `:` and a buffer of 64 bytes the
name `ab` passes and the name `a/b` is refused. -/
theorem ctfile_verify_name_spec_witness :
    ctfile_verify_name ['/', ':'] 64 base64_fits (some ['a', 'b']) = 0 ∧
    ctfile_verify_name ['/', ':'] 64 base64_fits (some ['a', '/', 'b']) ≠ 0 ∧
    ((∀ c ∈ ['a', 'b'], c ∉ ['/', ':']) ∧
      base64_fits (ctfile_fake_stamp ++ ['a', 'b']) 64 = 0) :=
  have h := ctfile_verify_name_spec ['/', ':'] 64 base64_fits (by
    intro src h
    unfold base64_fits at h
    split_ifs at h with h1
    omega)
  ⟨(h.1 ['a', 'b']).2 ⟨by decide, by decide⟩, by decide, (h.1 ['a', 'b']).1 (by decide)⟩

/-! ## Proofs: the live-SHA set -/

theorem memcmp_self (n : Nat) : ∀ a : Sha, memcmp a a n = 0 := by
  induction n with
  | zero => intro a; rfl
  | succ n ih => intro a; simp [memcmp, ih]

theorem memcmp_take_left (n : Nat) : ∀ a : Sha, memcmp (a.take n) a n = 0 := by
  induction n with
  | zero => intro a; rfl
  | succ n ih =>
    intro a
    cases a with
    | nil => simp [memcmp, memcmp_self]
    | cons x rest => simp [memcmp, ih]

theorem memcmp_eq_zero_symm (n : Nat) :
    ∀ a b : Sha, memcmp a b n = 0 → memcmp b a n = 0 := by
  induction n with
  | zero => intro a b _; rfl
  | succ n ih =>
    intro a b h
    simp only [memcmp] at h ⊢
    split_ifs at h with h1
    · omega
    · rw [if_neg (fun h2 => h1 h2.symm)]
      exact ih _ _ h

theorem memcmp_congr_left (n : Nat) :
    ∀ d y x : Sha, memcmp d y n = 0 → memcmp d x n = memcmp y x n := by
  induction n with
  | zero => intro d y x _; rfl
  | succ n ih =>
    intro d y x h
    simp only [memcmp] at h ⊢
    split_ifs at h with h1
    · omega
    · have h1 : d.headD 0 = y.headD 0 := not_not.1 h1
      rw [h1, ih _ _ _ h]

theorem memcmp_antisymm (n : Nat) :
    ∀ a b : Sha, memcmp a b n < 0 → 0 < memcmp b a n := by
  induction n with
  | zero => intro a b h; simp [memcmp] at h
  | succ n ih =>
    intro a b h
    simp only [memcmp] at h ⊢
    split_ifs at h with h1
    · rw [if_pos (fun h2 => h1 h2.symm)]
      omega
    · rw [if_neg (fun h2 => h1 h2.symm)]
      exact ih _ _ h

/-- A node found by `RB_INSERT_sha` has the key of the inserted node, and the
tree is left as it was. -/
theorem RB_INSERT_sha_found (node : Sha) :
    ∀ (head : List Sha) (x : Sha), (RB_INSERT_sha head node).1 = some x →
      x ∈ head ∧ ct_cmp_sha node x = 0 ∧ (RB_INSERT_sha head node).2 = head := by
  intro head
  induction head with
  | nil => intro x h; simp [RB_INSERT_sha] at h
  | cons y rest ih =>
    intro x h
    simp only [RB_INSERT_sha] at h ⊢
    split_ifs at h ⊢ with h1 h2
    · obtain ⟨hm, hc, he⟩ := ih x h
      exact ⟨List.mem_cons_of_mem _ hm, hc, by rw [he]⟩
    · simp only [Option.some.injEq] at h
      subst h
      exact ⟨List.mem_cons_self _ _, by omega, rfl⟩

/-- In an ordered tree `RB_INSERT_sha` finds a member with the key of the node
whenever there is one. -/
theorem RB_INSERT_sha_finds (node : Sha) :
    ∀ (head : List Sha), sha_tree_ordered head →
      (∃ x ∈ head, ct_cmp_sha node x = 0) → ∃ y, (RB_INSERT_sha head node).1 = some y := by
  intro head
  induction head with
  | nil => intro _ h; obtain ⟨x, hx, _⟩ := h; cases hx
  | cons y rest ih =>
    intro hord hex
    obtain ⟨x, hx, hc⟩ := hex
    have hord2 := List.pairwise_cons.1 hord
    simp only [RB_INSERT_sha]
    split_ifs with h1 h2
    · exfalso
      rcases List.mem_cons.1 hx with rfl | hx
      · omega
      · have h3 : ct_cmp_sha y x < 0 := hord2.1 x hx
        have h4 : ct_cmp_sha node y = ct_cmp_sha x y :=
          memcmp_congr_left _ node x y hc
        have h5 := memcmp_antisymm _ y x h3
        unfold ct_cmp_sha at h1 h4
        omega
    · rcases List.mem_cons.1 hx with rfl | hx
      · omega
      · exact ih hord2.2 ⟨x, hx, hc⟩
    · exact ⟨y, rfl⟩

/-- When `RB_INSERT_sha` links the node in, the new tree holds the old
members and the node. -/
theorem RB_INSERT_sha_new (node : Sha) :
    ∀ (head : List Sha), (RB_INSERT_sha head node).1 = none →
      ∃ l1 l2, head = l1 ++ l2 ∧ (RB_INSERT_sha head node).2 = l1 ++ node :: l2 := by
  intro head
  induction head with
  | nil => intro _; exact ⟨[], [], rfl, rfl⟩
  | cons y rest ih =>
    intro h
    simp only [RB_INSERT_sha] at h ⊢
    split_ifs at h ⊢ with h1 h2
    · exact ⟨[], y :: rest, rfl, rfl⟩
    · obtain ⟨l1, l2, e1, e2⟩ := ih h
      exact ⟨y :: l1, l2, by rw [e1]; rfl, by rw [e2]; rfl⟩

/-- A second `RB_INSERT_sha` of the same node finds it and leaves the tree
alone, whatever the tree. -/
theorem RB_INSERT_sha_again (node : Sha) :
    ∀ (head : List Sha),
      (∃ y, (RB_INSERT_sha (RB_INSERT_sha head node).2 node).1 = some y) ∧
      (RB_INSERT_sha (RB_INSERT_sha head node).2 node).2 = (RB_INSERT_sha head node).2 := by
  have hself : ct_cmp_sha node node = 0 := memcmp_self _ node
  intro head
  induction head with
  | nil => simp [RB_INSERT_sha, hself]
  | cons y rest ih =>
    simp only [RB_INSERT_sha]
    split_ifs with h1 h2
    · simp [RB_INSERT_sha, hself]
    · simp only [RB_INSERT_sha, if_neg h1, if_pos h2]
      exact ⟨ih.1, by rw [ih.2]⟩
    · simp only [RB_INSERT_sha, if_neg h1, if_neg h2]
      exact ⟨⟨y, rfl⟩, trivial⟩

/-- An ordered tree holds at most one member with a given key. -/
theorem sha_members_le_one (node : Sha) :
    ∀ (head : List Sha), sha_tree_ordered head → (sha_members head node).length ≤ 1 := by
  intro head
  induction head with
  | nil => intro _; simp [sha_members]
  | cons y rest ih =>
    intro hord
    have hord2 := List.pairwise_cons.1 hord
    unfold sha_members
    by_cases hc : ct_cmp_sha node y = 0
    · have hnone : rest.filter (fun x => decide (ct_cmp_sha node x = 0)) = [] := by
        apply List.filter_eq_nil_iff.2
        intro x hx
        have h3 : ct_cmp_sha y x < 0 := hord2.1 x hx
        have h4 : ct_cmp_sha node x = ct_cmp_sha y x := memcmp_congr_left _ node y x hc
        simp only [decide_eq_true_eq]
        omega
      simp [List.filter_cons, hc, hnone]
    · simp only [List.filter_cons, hc, decide_False, Bool.false_eq_true, if_false]
      exact ih hord2.2

theorem memcmp_pos_antisymm (n : Nat) :
    ∀ a b : Sha, 0 < memcmp a b n → memcmp b a n < 0 := by
  induction n with
  | zero => intro a b h; simp [memcmp] at h
  | succ n ih =>
    intro a b h
    simp only [memcmp] at h ⊢
    split_ifs at h with h1
    · rw [if_pos (fun h2 => h1 h2.symm)]
      omega
    · rw [if_neg (fun h2 => h1 h2.symm)]
      exact ih _ _ h

theorem memcmp_trans (n : Nat) :
    ∀ a b c : Sha, memcmp a b n < 0 → memcmp b c n < 0 → memcmp a c n < 0 := by
  induction n with
  | zero => intro a b c h; simp [memcmp] at h
  | succ n ih =>
    intro a b c h1 h2
    simp only [memcmp] at h1 h2 ⊢
    split_ifs at h1 h2 ⊢ with e1 e2 e3 e3 e2 e3 e3
    all_goals first
      | omega
      | exact ih _ _ _ h1 h2

/-- `RB_INSERT_sha` keeps the tree ordered, so that the tree invariant holds
of every set built by insertions from the empty set. -/
theorem RB_INSERT_sha_ordered (node : Sha) :
    ∀ head : List Sha, sha_tree_ordered head →
      sha_tree_ordered (RB_INSERT_sha head node).2 := by
  intro head
  induction head with
  | nil => intro _; simp [RB_INSERT_sha, sha_tree_ordered]
  | cons x rest ih =>
    intro hord
    have hord2 := List.pairwise_cons.1 hord
    simp only [RB_INSERT_sha]
    split_ifs with h1 h2
    · refine List.pairwise_cons.2 ⟨?_, hord⟩
      intro z hz
      rcases List.mem_cons.1 hz with rfl | hz
      · exact h1
      · exact memcmp_trans _ _ _ _ h1 (hord2.1 z hz)
    · refine List.pairwise_cons.2 ⟨?_, ih hord2.2⟩
      intro z hz
      cases hr : (RB_INSERT_sha rest node).1 with
      | some y =>
        rw [(RB_INSERT_sha_found node rest y hr).2.2] at hz
        exact hord2.1 z hz
      | none =>
        obtain ⟨l1, l2, e1, e2⟩ := RB_INSERT_sha_new node rest hr
        rw [e2] at hz
        rcases List.mem_append.1 hz with hz | hz
        · exact hord2.1 z (e1 ▸ List.mem_append_left _ hz)
        · rcases List.mem_cons.1 hz with rfl | hz
          · exact memcmp_pos_antisymm _ _ _ h2
          · exact hord2.1 z (e1 ▸ List.mem_append_right _ hz)
    · exact hord

theorem ct_cmp_sha_take (d x : Sha) :
    ct_cmp_sha d x = ct_cmp_sha (d.take SHA_DIGEST_LENGTH) x := by
  unfold ct_cmp_sha
  exact memcmp_congr_left _ d _ x
    (memcmp_eq_zero_symm _ _ _ (memcmp_take_left SHA_DIGEST_LENGTH d))

theorem sha_members_take (head : List Sha) (d : Sha) :
    sha_members head d = sha_members head (d.take SHA_DIGEST_LENGTH) := by
  unfold sha_members
  apply List.filter_congr
  intro x _
  rw [ct_cmp_sha_take d x]

/-- C5: SHA set insertion is idempotent. For every live-SHA set (an ordered
tree) and every digest `d`, after two calls of `ct_cull_sha_insert` in a row
the set has exactly one member with the key of `d`; the counter `shacnt` has
grown by one if `d` was absent before the first call and by zero if it was
present; the first call returns 0 or 1 accordingly; the second call returns
1 and changes neither set nor counter. -/
theorem ct_cull_sha_insert_idempotent (g : cull_globals) (d : Sha)
    (hord : sha_tree_ordered g.ct_sha_rb_head) :
    (sha_members
      (ct_cull_sha_insert (ct_cull_sha_insert g d).2 d).2.ct_sha_rb_head d).length = 1 ∧
    (ct_cull_sha_insert (ct_cull_sha_insert g d).2 d).2.shacnt =
      g.shacnt + (if sha_members g.ct_sha_rb_head d = [] then 1 else 0) ∧
    (ct_cull_sha_insert g d).1 = (if sha_members g.ct_sha_rb_head d = [] then 0 else 1) ∧
    (ct_cull_sha_insert (ct_cull_sha_insert g d).2 d).1 = 1 ∧
    (ct_cull_sha_insert (ct_cull_sha_insert g d).2 d).2 = (ct_cull_sha_insert g d).2 := by
  have hagain := RB_INSERT_sha_again (d.take SHA_DIGEST_LENGTH) g.ct_sha_rb_head
  rw [sha_members_take, sha_members_take g.ct_sha_rb_head]
  cases hr : (RB_INSERT_sha g.ct_sha_rb_head (d.take SHA_DIGEST_LENGTH)).1 with
  | some x =>
    obtain ⟨hx, hc, _⟩ := RB_INSERT_sha_found _ _ x hr
    have h1 : ct_cull_sha_insert g d = (1, g) := by
      simp only [ct_cull_sha_insert, hr]
    have hmem : x ∈ sha_members g.ct_sha_rb_head (d.take SHA_DIGEST_LENGTH) := by
      unfold sha_members
      exact List.mem_filter.2 ⟨hx, by simpa using hc⟩
    have hne : sha_members g.ct_sha_rb_head (d.take SHA_DIGEST_LENGTH) ≠ [] :=
      List.ne_nil_of_mem hmem
    have hle := sha_members_le_one (d.take SHA_DIGEST_LENGTH) _ hord
    have hpos := List.length_pos_of_mem hmem
    rw [h1]
    simp only [h1, if_neg hne]
    exact ⟨by omega, rfl, trivial, trivial, trivial⟩
  | none =>
    obtain ⟨l1, l2, e1, e2⟩ := RB_INSERT_sha_new _ _ hr
    have hnil : sha_members g.ct_sha_rb_head (d.take SHA_DIGEST_LENGTH) = [] := by
      unfold sha_members
      apply List.filter_eq_nil_iff.2
      intro x hx hc
      obtain ⟨y, hy⟩ := RB_INSERT_sha_finds _ _ hord ⟨x, hx, by simpa using hc⟩
      rw [hr] at hy
      cases hy
    have h1 : ct_cull_sha_insert g d =
        (0, { g with
          ct_sha_rb_head := (RB_INSERT_sha g.ct_sha_rb_head (d.take SHA_DIGEST_LENGTH)).2
          shacnt := g.shacnt + 1 }) := by
      simp only [ct_cull_sha_insert, hr]
    obtain ⟨⟨y, hy⟩, _⟩ := hagain
    have h2 : ct_cull_sha_insert
        { g with
          ct_sha_rb_head := (RB_INSERT_sha g.ct_sha_rb_head (d.take SHA_DIGEST_LENGTH)).2
          shacnt := g.shacnt + 1 } d =
        (1, { g with
          ct_sha_rb_head := (RB_INSERT_sha g.ct_sha_rb_head (d.take SHA_DIGEST_LENGTH)).2
          shacnt := g.shacnt + 1 }) := by
      simp only [ct_cull_sha_insert, hy]
    rw [h1]
    simp only [h2, if_pos hnil]
    refine ⟨?_, trivial, trivial, trivial, trivial⟩
    rw [e2]
    have hself : ct_cmp_sha (d.take SHA_DIGEST_LENGTH) (d.take SHA_DIGEST_LENGTH) = 0 :=
      memcmp_self _ _
    rw [e1] at hnil
    unfold sha_members at hnil ⊢
    rw [List.filter_append] at hnil
    obtain ⟨n1, n2⟩ := List.append_eq_nil.1 hnil
    rw [List.filter_append, n1, List.filter_cons, n2]
    simp [hself]

/-- Witness of C5: inserting an absent digest twice into a set of two leaves
one member with its key and the counter at three. -/
theorem ct_cull_sha_insert_idempotent_witness :
    sha_tree_ordered sha_set_example.ct_sha_rb_head ∧
    (sha_members (ct_cull_sha_insert (ct_cull_sha_insert sha_set_example
      (List.replicate 20 5)).2 (List.replicate 20 5)).2.ct_sha_rb_head
      (List.replicate 20 5)).length = 1 ∧
    (ct_cull_sha_insert (ct_cull_sha_insert sha_set_example
      (List.replicate 20 5)).2 (List.replicate 20 5)).2.shacnt = 3 :=
  have hord : sha_tree_ordered sha_set_example.ct_sha_rb_head := by
    unfold sha_tree_ordered sha_set_example
    simp only [List.pairwise_cons, List.mem_singleton, forall_eq, List.not_mem_nil,
      IsEmpty.forall_iff, implies_true, List.Pairwise.nil, and_true]
    decide
  have h := ct_cull_sha_insert_idempotent sha_set_example (List.replicate 20 5) hord
  ⟨hord, h.1, by rw [h.2.1]; decide⟩

/-! ## Proofs: streaming the live-SHA set -/

theorem spec_blocks_eq (S B k : Nat) (hB : 1 ≤ B) (h1 : k * B < S) (h2 : S ≤ (k + 1) * B) :
    spec_blocks S B = k + 1 := by
  have m1 : (k + 1) * B = k * B + B := Nat.succ_mul k B
  have h := (spec_blocks_last S B k hB h1).1 (by rw [Nat.min_eq_right (by omega)]; omega)
  exact h.symm

theorem spec_blocks_zero (B : Nat) (hB : 1 ≤ B) : spec_blocks 0 B = 0 := by
  unfold spec_blocks
  exact Nat.div_eq_of_lt (by omega)

theorem spec_blocks_gt (S B k : Nat) (hB : 1 ≤ B) (h1 : k * B < S) : k < spec_blocks S B := by
  have h := spec_blocks_mul_ge S B hB
  by_contra hc
  have : spec_blocks S B * B ≤ k * B := Nat.mul_le_mul_right B (by omega)
  omega

/-- What one send does to a live cull-send operation with a free transaction,
under the encoder of the specification. -/
theorem cull_send_live (xml_size : List Sha → Nat) (state : ct_global_state)
    (g : cull_globals) (n : Nat)
    (hfs : state.ct_file_state ≠ ct_file_state_t.CT_S_FINISHED)
    (hd : state.ct_dying = false) (hfree : state.ct_trans_free_slots = n + 1)
    (hcnt : g.shacnt = g.ct_sha_rb_head.length) :
    ∃ t : ct_trans,
      t.tr_state = tr_state_t.TR_S_XML_CULL_SHA_SEND ∧
      (ct_cull_send_shas (spec_create_xml_cull_shas xml_size) state g).1.ct_queued =
        state.ct_queued ++ [t] ∧
      (ct_cull_send_shas (spec_create_xml_cull_shas xml_size) state g).1.ct_dying = false ∧
      (ct_cull_send_shas (spec_create_xml_cull_shas xml_size) state g).2.sha_per_packet =
        g.sha_per_packet ∧
      (ct_cull_send_shas (spec_create_xml_cull_shas xml_size) state g).2.ct_sha_rb_head.length
        = g.ct_sha_rb_head.length - g.sha_per_packet ∧
      (ct_cull_send_shas (spec_create_xml_cull_shas xml_size) state g).2.shacnt
        = g.ct_sha_rb_head.length - g.sha_per_packet ∧
      ((g.ct_sha_rb_head.length ≤ g.sha_per_packet ∧ t.tr_eof = 1 ∧
        (ct_cull_send_shas (spec_create_xml_cull_shas xml_size) state g).1.ct_file_state =
          ct_file_state_t.CT_S_FINISHED) ∨
       (g.sha_per_packet < g.ct_sha_rb_head.length ∧ t.tr_eof = 0 ∧
        (ct_cull_send_shas (spec_create_xml_cull_shas xml_size) state g).1.ct_file_state ≠
          ct_file_state_t.CT_S_FINISHED)) := by
  have hsub : shacnt_sub g.shacnt (min g.sha_per_packet g.ct_sha_rb_head.length) =
      g.ct_sha_rb_head.length - g.sha_per_packet := by
    unfold shacnt_sub
    rw [hcnt, if_pos (Nat.min_le_right _ _)]
    omega
  unfold ct_cull_send_shas
  simp only [if_neg hfs, hd, Bool.false_eq_true, if_false, ct_trans_alloc, ct_set_file_state,
    hfree, spec_create_xml_cull_shas, hsub, List.length_drop, ct_queue_first]
  by_cases hle : g.ct_sha_rb_head.length ≤ g.sha_per_packet
  · have h0 : g.ct_sha_rb_head.length - g.sha_per_packet = 0 := by omega
    simp only [h0, true_or, if_true]
    exact ⟨_, by trivial, rfl, by trivial, by trivial, by simp [List.length_drop, h0],
      by trivial, Or.inl ⟨by trivial, by trivial, by trivial⟩⟩
  · have h0 : ¬ (g.ct_sha_rb_head.length - g.sha_per_packet = 0) := by omega
    have h1 : ¬ (List.drop g.sha_per_packet g.ct_sha_rb_head = []) := by
      intro h
      have := congrArg List.length h
      simp only [List.length_drop, List.length_nil] at this
      exact h0 this
    simp only [h0, h1, or_self, if_false]
    exact ⟨_, by trivial, rfl, by trivial, by trivial, by simp [List.length_drop],
      by trivial, Or.inr ⟨by omega, by trivial, by simp⟩⟩

/-- Every step of a cull-send run preserves `cull_send_inv`. -/
theorem cull_send_step_inv (xml_size : List Sha → Nat) (S B : Nat) (hB : 1 ≤ B)
    (s : ct_global_state × cull_globals) (e : cull_event) (hs : cull_send_inv S B s) :
    cull_send_inv S B (cull_send_step (spec_create_xml_cull_shas xml_size) s e) := by
  obtain ⟨state, g⟩ := s
  cases e with
  | release => exact hs
  | die => exact hs
  | wakeup =>
    obtain ⟨hq, hb, hF, hN⟩ := hs
    simp only at hq hb hF hN
    simp only [cull_send_step]
    by_cases hfs : state.ct_file_state = ct_file_state_t.CT_S_FINISHED
    · simp only [ct_cull_send_shas, if_pos hfs]
      exact ⟨hq, hb, hF, hN⟩
    · cases hd : state.ct_dying with
      | true =>
        simp only [ct_cull_send_shas, if_neg hfs, hd, if_true]
        exact ⟨hq, hb, hF, hN⟩
      | false =>
        cases hfree : state.ct_trans_free_slots with
        | zero =>
          simp only [ct_cull_send_shas, if_neg hfs, hd, Bool.false_eq_true, if_false,
            ct_trans_alloc, ct_set_file_state, hfree]
          refine ⟨hq, hb, ?_, ?_⟩
          · intro h; cases h
          · intro _; exact hN hfs
        | succ n =>
          obtain ⟨h1, h2, h3, h4⟩ := hN hfs
          obtain ⟨t, ht, e1, _, e3, e4, e5, e6⟩ :=
            cull_send_live xml_size state g n hfs hd hfree h3
          rw [hb] at e3 e4 e5 e6
          have m1 : (state.ct_queued.length + 1) * B = state.ct_queued.length * B + B :=
            Nat.succ_mul _ _
          refine ⟨?_, by rw [e3], ?_, ?_⟩
          · intro t1 ht1
            rw [e1] at ht1
            rcases List.mem_append.1 ht1 with hm | hm
            · exact hq t1 hm
            · rw [List.mem_singleton.1 hm]; exact ht
          · intro hfin
            rcases e6 with ⟨hle, heof, _⟩ | ⟨_, _, hne⟩
            · have hN1 : max 1 (spec_blocks S B) = state.ct_queued.length + 1 := by
                rcases h4 with h0 | hlt
                · rw [h0] at h2 ⊢
                  rcases Nat.eq_zero_or_pos S with hS | hS
                  · rw [hS, spec_blocks_zero B hB]; rfl
                  · rw [spec_blocks_eq S B 0 hB (by omega) (by omega)]; rfl
                · rw [spec_blocks_eq S B _ hB hlt (by omega)]
                  omega
              rw [e1, hN1]
              refine ⟨by simp, ?_⟩
              unfold queued_eofs at h1 ⊢
              rw [List.map_append, h1]
              simp [heof]
            · exact absurd hfin hne
          · intro hne
            rcases e6 with ⟨_, _, hfin⟩ | ⟨hlt, heof, _⟩
            · exact absurd hfin hne
            · rw [e1, e4, e5]
              refine ⟨?_, ?_, rfl, Or.inr ?_⟩
              · unfold queued_eofs at h1 ⊢
                rw [List.map_append, h1]
                simp [heof, List.replicate_succ']
              · simp only [List.length_append, List.length_singleton]
                omega
              · simp only [List.length_append, List.length_singleton]
                omega

/-- The cull-send run without suspension reaches `FINISHED` when it has at
least as many rounds as batches are left. -/
theorem cull_straight_finishes (xml_size : List Sha → Nat) (S B : Nat) (hB : 1 ≤ B) :
    ∀ (m : Nat) (s : ct_global_state × cull_globals),
      cull_send_inv S B s → s.1.ct_dying = false →
      (s.1.ct_file_state = ct_file_state_t.CT_S_FINISHED ∨
        max 1 (spec_blocks S B) - s.1.ct_queued.length ≤ m) →
      ((cull_evs_straight m).foldl
        (cull_send_step (spec_create_xml_cull_shas xml_size)) s).1.ct_file_state =
          ct_file_state_t.CT_S_FINISHED := by
  intro m
  induction m with
  | zero =>
    intro s hinv _ h
    simp only [cull_evs_straight, List.foldl_nil]
    rcases h with h | h
    · exact h
    · by_contra hne
      obtain ⟨_, _, _, h4⟩ := hinv.2.2.2 hne
      rcases h4 with h0 | hlt
      · rw [h0] at h; omega
      · have := spec_blocks_gt S B _ hB hlt
        omega
  | succ m ih =>
    intro s hinv hd h
    obtain ⟨state, g⟩ := s
    simp only [cull_evs_straight, List.foldl_cons]
    have hinv1 := cull_send_step_inv xml_size S B hB _ cull_event.release hinv
    have hinv2 := cull_send_step_inv xml_size S B hB _ cull_event.wakeup hinv1
    apply ih _ hinv2
    · simp only [cull_send_step]
      by_cases hfs : state.ct_file_state = ct_file_state_t.CT_S_FINISHED
      · simp only [ct_cull_send_shas, ct_trans_free, if_pos hfs]
        exact hd
      · obtain ⟨_, _, h3, _⟩ := hinv.2.2.2 hfs
        obtain ⟨t, _, _, e2, _⟩ :=
          cull_send_live xml_size (ct_trans_free state) g state.ct_trans_free_slots
            hfs hd rfl h3
        exact e2
    · simp only [cull_send_step]
      by_cases hfs : state.ct_file_state = ct_file_state_t.CT_S_FINISHED
      · left
        simp only [ct_cull_send_shas, ct_trans_free, if_pos hfs]
        exact hfs
      · obtain ⟨_, _, h3, _⟩ := hinv.2.2.2 hfs
        obtain ⟨t, _, e1, _, _, _, _, e6⟩ :=
          cull_send_live xml_size (ct_trans_free state) g state.ct_trans_free_slots
            hfs hd rfl h3
        rcases e6 with ⟨_, _, hfin⟩ | ⟨_, _, _⟩
        · exact Or.inl hfin
        · right
          rw [e1]
          rcases h with h | h
          · exact absurd h hfs
          · simp only [ct_trans_free, List.length_append, List.length_singleton]
            simp only at h
            omega

/-- C6 (amended): cull-send batching. Over a live-SHA set of size `S` (with
`shacnt = S`) and batch size `B = sha_per_packet >= 1`, with the packet
encoder that removes `min B remaining` digests per call and reports that
count, every run of `ct_cull_send_shas` that reaches `FINISHED` has queued
`max 1 (ceil (S / B))` transactions, all of them cull-shas transactions, of
which the last and only the last has `tr_eof` set; the run without
suspension reaches `FINISHED`. For `S >= 1` the number is `ceil (S / B)`; for
the empty set it is one transaction, which carries EOF. -/
theorem cull_send_batches (xml_size : List Sha → Nat) (head : List Sha) (B free : Nat)
    (hB : 1 ≤ B) :
    (∀ evs : List cull_event,
      (cull_send_run (spec_create_xml_cull_shas xml_size) free
        (cull_globals_of head B) evs).1.ct_file_state = ct_file_state_t.CT_S_FINISHED →
      cull_shas_trans (cull_send_run (spec_create_xml_cull_shas xml_size) free
          (cull_globals_of head B) evs).1.ct_queued =
        (cull_send_run (spec_create_xml_cull_shas xml_size) free
          (cull_globals_of head B) evs).1.ct_queued ∧
      (cull_send_run (spec_create_xml_cull_shas xml_size) free
          (cull_globals_of head B) evs).1.ct_queued.length =
        max 1 (spec_blocks head.length B) ∧
      queued_eofs (cull_send_run (spec_create_xml_cull_shas xml_size) free
          (cull_globals_of head B) evs).1.ct_queued =
        List.replicate (max 1 (spec_blocks head.length B) - 1) 0 ++ [1]) ∧
    (cull_send_run (spec_create_xml_cull_shas xml_size) free (cull_globals_of head B)
      (cull_evs_straight (max 1 (spec_blocks head.length B)))).1.ct_file_state =
        ct_file_state_t.CT_S_FINISHED ∧
    (1 ≤ head.length → max 1 (spec_blocks head.length B) = spec_blocks head.length B) := by
  have hinit : cull_send_inv head.length B (ct_state_init free, cull_globals_of head B) := by
    refine ⟨?_, rfl, ?_, ?_⟩
    · intro t ht; cases ht
    · intro h; cases h
    · intro _
      exact ⟨rfl, by simp [ct_state_init, cull_globals_of], rfl, Or.inl rfl⟩
  refine ⟨?_, ?_, ?_⟩
  · intro evs hfin
    have hinv := foldl_invariant (cull_send_step (spec_create_xml_cull_shas xml_size))
      (cull_send_inv head.length B)
      (fun s e hs => cull_send_step_inv xml_size head.length B hB s e hs) evs _ hinit
    obtain ⟨h1, _, h3, _⟩ := hinv
    refine ⟨?_, (h3 hfin).1, (h3 hfin).2⟩
    unfold cull_shas_trans
    apply List.filter_eq_self.2
    intro t ht
    simpa using h1 t ht
  · exact cull_straight_finishes xml_size head.length B hB _ _ hinit rfl
      (Or.inr (by simp [ct_state_init]))
  · intro h1
    have := spec_blocks_gt head.length B 0 hB (by omega)
    omega

/-- Witness of C6 (amended): five digests in batches of two are sent in three
transactions with EOF flags 0, 0, 1. -/
theorem cull_send_batches_witness :
    queued_eofs (cull_send_run (spec_create_xml_cull_shas List.length) 0
      (cull_globals_of [[1], [2], [3], [4], [5]] 2) (cull_evs_straight 3)).1.ct_queued =
        [0, 0, 1] :=
  have h := cull_send_batches List.length [[1], [2], [3], [4], [5]] 2 0 (by decide)
  (h.1 (cull_evs_straight 3) h.2.1).2.2

/-- Counterexample to C6 as stated: over the empty set (`S = 0`, `shacnt = 0`)
with batch size 2 the driver queues one cull-shas transaction, with EOF, and
finishes, where `ceil (0 / 2)` is zero. -/
theorem cull_send_empty_set :
    (cull_send_run (spec_create_xml_cull_shas List.length) 1 (cull_globals_of [] 2)
      [cull_event.wakeup]).1.ct_file_state = ct_file_state_t.CT_S_FINISHED ∧
    (cull_shas_trans (cull_send_run (spec_create_xml_cull_shas List.length) 1
      (cull_globals_of [] 2) [cull_event.wakeup]).1.ct_queued).length = 1 ∧
    queued_eofs (cull_send_run (spec_create_xml_cull_shas List.length) 1
      (cull_globals_of [] 2) [cull_event.wakeup]).1.ct_queued = [1] ∧
    spec_blocks ([] : List Sha).length 2 = 0 := by
  decide

/-! ## Proofs: delete orchestration -/

theorem ctfile_list_tree_find_isSome (tree : List Name) (key : Name) :
    (∃ x, ctfile_list_tree_find tree key = some x) ↔ key ∈ tree := by
  unfold ctfile_list_tree_find
  constructor
  · rintro ⟨x, hx⟩
    have h1 := List.find?_some hx
    have h2 := List.mem_of_find?_eq_some hx
    simp only [decide_eq_true_eq] at h1
    rw [← h1]; exact h2
  · intro h
    cases hf : tree.find? (fun x => decide (x = key)) with
    | some x => exact ⟨x, rfl⟩
    | none =>
      have := List.find?_eq_none.1 hf key h
      simp at this

theorem ctfile_list_tree_find_none (tree : List Name) (key : Name) :
    ctfile_list_tree_find tree key = none ↔ key ∉ tree := by
  rw [← ctfile_list_tree_find_isSome]
  cases ctfile_list_tree_find tree key <;> simp

theorem strlcpy_fits (p : Name) (size : Nat) (h : p.length < size) : strlcpy p size = p := by
  unfold strlcpy
  exact List.take_of_length_le (by omega)

/-- Pass 2 examines every retained file, in order. -/
theorem delete_check_pass2_examined (cache : ctfile_cache) (size : Nat)
    (delete_files : List Name) :
    ∀ (files : List Name) (fail : Nat) (examined : List Name),
      (ctfile_delete_check_pass2 cache size delete_files files fail examined).2 =
        examined ++ files := by
  intro files
  induction files with
  | nil => intro fail examined; simp [ctfile_delete_check_pass2]
  | cons f rest ih =>
    intro fail examined
    simp only [ctfile_delete_check_pass2]
    split <;> first
      | (rw [ih]; simp)
      | (split <;> (rw [ih]; simp))

/-- Once raised, the failure flag of pass 2 stays raised. -/
theorem delete_check_pass2_sticky (cache : ctfile_cache) (size : Nat)
    (delete_files : List Name) :
    ∀ (files : List Name) (fail : Nat) (examined : List Name), fail ≠ 0 →
      (ctfile_delete_check_pass2 cache size delete_files files fail examined).1 ≠ 0 := by
  intro files
  induction files with
  | nil => intro fail examined h; simpa [ctfile_delete_check_pass2] using h
  | cons f rest ih =>
    intro fail examined h
    simp only [ctfile_delete_check_pass2]
    split <;> first
      | exact ih _ _ h
      | exact ih _ _ (by decide)
      | (split <;> first | exact ih _ _ h | exact ih _ _ (by decide))

/-- Pass 2 raises the failure flag when a retained file names a predecessor
that is to be deleted. -/
theorem delete_check_pass2_fails (cache : ctfile_cache) (size : Nat)
    (delete_files : List Name) (hfit : ∀ n ∈ delete_files, n.length < size) :
    ∀ (files : List Name) (fail : Nat) (examined : List Name),
      (∃ f ∈ files, ∃ p, ctfile_get_previous cache f = Except.ok (some p) ∧
        p ∈ delete_files) →
      (ctfile_delete_check_pass2 cache size delete_files files fail examined).1 ≠ 0 := by
  intro files
  induction files with
  | nil => intro fail examined h; obtain ⟨f, hf, _⟩ := h; cases hf
  | cons f rest ih =>
    intro fail examined h
    obtain ⟨g, hg, p, hp, hmem⟩ := h
    rcases List.mem_cons.1 hg with rfl | hg
    · simp only [ctfile_delete_check_pass2, hp, strlcpy_fits p size (hfit p hmem)]
      obtain ⟨x, hx⟩ := (ctfile_list_tree_find_isSome delete_files p).2 hmem
      rw [hx]
      exact delete_check_pass2_sticky cache size delete_files rest 1 _ (by decide)
    · have hrest : ∃ f ∈ rest, ∃ p, ctfile_get_previous cache f = Except.ok (some p) ∧
          p ∈ delete_files := ⟨g, hg, p, hp, hmem⟩
      simp only [ctfile_delete_check_pass2]
      split <;> first
        | exact ih _ _ hrest
        | (split <;> exact ih _ _ hrest)

/-- Pass 2 leaves the failure flag alone when every predecessor can be read
and none of the search keys is in `delete_files`. -/
theorem delete_check_pass2_passes (cache : ctfile_cache) (size : Nat)
    (delete_files : List Name) :
    ∀ (files : List Name) (fail : Nat) (examined : List Name),
      (∀ f ∈ files, ∃ prev, ctfile_get_previous cache f = Except.ok prev ∧
        ∀ p, prev = some p → strlcpy p size ∉ delete_files) →
      (ctfile_delete_check_pass2 cache size delete_files files fail examined).1 = fail := by
  intro files
  induction files with
  | nil => intro fail examined _; rfl
  | cons f rest ih =>
    intro fail examined h
    obtain ⟨prev, hprev, hkey⟩ := h f (List.mem_cons_self _ _)
    have hrest : ∀ f ∈ rest, ∃ prev, ctfile_get_previous cache f = Except.ok prev ∧
        ∀ p, prev = some p → strlcpy p size ∉ delete_files :=
      fun g hg => h g (List.mem_cons_of_mem _ hg)
    cases prev with
    | none =>
      simp only [ctfile_delete_check_pass2, hprev]
      exact ih _ _ hrest
    | some p =>
      simp only [ctfile_delete_check_pass2, hprev,
        (ctfile_list_tree_find_none delete_files _).2 (hkey p rfl)]
      exact ih _ _ hrest

/-- The scheduling loop appends one delete operation per name and touches
nothing else. -/
theorem delete_schedule_spec (callback : Bool) :
    ∀ (files : List Name) (state : ct_global_state),
      ctfile_delete_schedule callback state files =
        { state with
          ct_operations := state.ct_operations ++ files.map (spec_delete_op callback) } := by
  intro files
  induction files with
  | nil => intro state; simp [ctfile_delete_schedule]
  | cons f rest ih =>
    intro state
    simp only [ctfile_delete_schedule, ih, ct_add_operation, List.map_cons,
      List.append_assoc, List.singleton_append]
    rfl

/-- C7: delete dependency check, failure side. On a live entry (file state not
`FINISHED`, dying flag clear), for every pair of trees and every cache of
manifests: if some retained file names an immediate predecessor that is a
member of `delete_files`, then `ctfile_delete_check_required` raises the
fatal error `CAN_NOT_DELETE` and does nothing else to the global state, so
that no `ctfile_delete` operation is enqueued and the file state is not set
to `FINISHED`; all retained files were examined before. The names of
`delete_files` fit the name buffer `mlf_name` they are stored in. -/
theorem delete_check_can_not_delete (cache : ctfile_cache) (size : Nat) (callback : Bool)
    (state : ct_global_state) (trees : ct_delete_trees)
    (hfs : state.ct_file_state ≠ ct_file_state_t.CT_S_FINISHED)
    (hd : state.ct_dying = false)
    (hfit : ∀ n ∈ trees.delete_files, n.length < size)
    (hdep : ∃ f ∈ trees.all_files, ∃ p,
      ctfile_get_previous cache f = Except.ok (some p) ∧ p ∈ trees.delete_files) :
    (ctfile_delete_check_required cache size callback state trees).1 =
      ct_fatal state cte_t.CTE_CAN_NOT_DELETE ∧
    (ctfile_delete_check_required cache size callback state trees).1.ct_fatal_log =
      state.ct_fatal_log ++ [cte_t.CTE_CAN_NOT_DELETE] ∧
    (ctfile_delete_check_required cache size callback state trees).1.ct_operations =
      state.ct_operations ∧
    (ctfile_delete_check_required cache size callback state trees).1.ct_file_state ≠
      ct_file_state_t.CT_S_FINISHED ∧
    (ctfile_delete_check_required cache size callback state trees).1.ct_op_completed =
      state.ct_op_completed ∧
    (ctfile_delete_check_required cache size callback state trees).2.2 = trees.all_files := by
  have hfail := delete_check_pass2_fails cache size trees.delete_files hfit
    trees.all_files 0 [] hdep
  have hex := delete_check_pass2_examined cache size trees.delete_files trees.all_files 0 []
  have hval : ctfile_delete_check_required cache size callback state trees =
      (ct_fatal state cte_t.CTE_CAN_NOT_DELETE, none, trees.all_files) := by
    unfold ctfile_delete_check_required
    simp only [if_neg hfs, hd, Bool.false_eq_true, if_false, if_pos hfail, hex,
      List.nil_append]
  rw [hval]
  exact ⟨rfl, rfl, rfl, hfs, rfl, rfl⟩

/-- Witness of C7, scenario S5: delete `A` while the retained `B` names `A` as
its predecessor. -/
theorem delete_check_can_not_delete_witness :
    (ctfile_delete_check_required cache_S5 256 true (ct_state_init 0)
      ⟨[['B']], [['A']]⟩).1.ct_fatal_log = [cte_t.CTE_CAN_NOT_DELETE] ∧
    (ctfile_delete_check_required cache_S5 256 true (ct_state_init 0)
      ⟨[['B']], [['A']]⟩).1.ct_operations = [] :=
  have h := delete_check_can_not_delete cache_S5 256 true (ct_state_init 0) ⟨[['B']], [['A']]⟩
    (by decide) rfl (by decide) ⟨['B'], by decide, ['A'], rfl, by decide⟩
  ⟨h.2.1, h.2.2.1⟩

/-- C8 (amended): delete dependency check, success side. On a live entry,
whenever the predecessor of every retained file can be read and no retained
file names a predecessor whose name, as copied into the search key, is a
member of `delete_files`, `ctfile_delete_check_required` raises no fatal
error and appends exactly one `ctfile_delete` operation with the
cache-eviction completion `ctfile_delete_from_cache` per member of
`delete_files`, each carrying the callback of the caller, sets the file state
to `FINISHED` and completes. -/
theorem delete_check_schedules (cache : ctfile_cache) (size : Nat) (callback : Bool)
    (state : ct_global_state) (trees : ct_delete_trees)
    (hfs : state.ct_file_state ≠ ct_file_state_t.CT_S_FINISHED)
    (hd : state.ct_dying = false)
    (hok : ∀ f ∈ trees.all_files, ∃ prev, ctfile_get_previous cache f = Except.ok prev ∧
      ∀ p, prev = some p → strlcpy p size ∉ trees.delete_files) :
    (ctfile_delete_check_required cache size callback state trees).1.ct_operations =
      state.ct_operations ++ trees.delete_files.map (spec_delete_op callback) ∧
    (delete_ops (ctfile_delete_check_required cache size callback state trees).1.ct_operations).length =
      (delete_ops state.ct_operations).length + trees.delete_files.length ∧
    (ctfile_delete_check_required cache size callback state trees).1.ct_dying = false ∧
    (ctfile_delete_check_required cache size callback state trees).1.ct_fatal_log =
      state.ct_fatal_log ∧
    (ctfile_delete_check_required cache size callback state trees).1.ct_file_state =
      ct_file_state_t.CT_S_FINISHED ∧
    (ctfile_delete_check_required cache size callback state trees).1.ct_op_completed =
      state.ct_op_completed + 1 ∧
    (ctfile_delete_check_required cache size callback state trees).2.2 = trees.all_files := by
  have hpass := delete_check_pass2_passes cache size trees.delete_files
    trees.all_files 0 [] hok
  have hex := delete_check_pass2_examined cache size trees.delete_files trees.all_files 0 []
  have hval : ctfile_delete_check_required cache size callback state trees =
      (ct_op_complete (ct_set_file_state
        { state with
          ct_operations :=
            state.ct_operations ++ trees.delete_files.map (spec_delete_op callback) }
        ct_file_state_t.CT_S_FINISHED), none, trees.all_files) := by
    unfold ctfile_delete_check_required
    simp only [if_neg hfs, hd, Bool.false_eq_true, if_false, hpass, ne_eq,
      not_true_eq_false, hex, List.nil_append, delete_schedule_spec]
  rw [hval]
  refine ⟨rfl, ?_, hd, rfl, rfl, rfl, rfl⟩
  show (delete_ops
    (state.ct_operations ++ trees.delete_files.map (spec_delete_op callback))).length = _
  unfold delete_ops
  rw [List.filter_append, List.length_append]
  congr 1
  rw [List.filter_eq_self.2, List.length_map]
  intro o ho
  obtain ⟨n, _, rfl⟩ := List.mem_map.1 ho
  simp [spec_delete_op]

/-- Witness of C8 (amended): deleting `B`, which nothing depends on, while `A`
is retained schedules the one delete operation. -/
theorem delete_check_schedules_witness :
    (ctfile_delete_check_required cache_S5 256 true (ct_state_init 0)
      ⟨[['A']], [['B']]⟩).1.ct_operations = [spec_delete_op true ['B']] ∧
    (ctfile_delete_check_required cache_S5 256 true (ct_state_init 0)
      ⟨[['A']], [['B']]⟩).1.ct_dying = false :=
  have h := delete_check_schedules cache_S5 256 true (ct_state_init 0) ⟨[['A']], [['B']]⟩
    (by decide) rfl (by
      intro f hf
      have hf : f = ['A'] := by simpa using hf
      subst hf
      exact ⟨none, rfl, fun p hp => by cases hp⟩)
  ⟨h.1, h.2.2.1⟩

/-- Counterexample to C8 as stated: `A` is to be deleted, the retained `B` has
a manifest that cannot be read. No retained file has a predecessor in
`delete_files`, yet the check fails with `CAN_NOT_DELETE` and schedules no
delete operation. -/
theorem delete_check_unreadable :
    (¬ ∃ f ∈ [['B']], ∃ p, ctfile_get_previous cache_unreadable f = Except.ok (some p) ∧
      p ∈ [['A']]) ∧
    (ctfile_delete_check_required cache_unreadable 256 true (ct_state_init 0)
      ⟨[['B']], [['A']]⟩).1.ct_fatal_log = [cte_t.CTE_CAN_NOT_DELETE] ∧
    (ctfile_delete_check_required cache_unreadable 256 true (ct_state_init 0)
      ⟨[['B']], [['A']]⟩).1.ct_operations = [] ∧
    (ctfile_delete_check_required cache_unreadable 256 true (ct_state_init 0)
      ⟨[['B']], [['A']]⟩).1.ct_file_state ≠ ct_file_state_t.CT_S_FINISHED := by
  refine ⟨?_, by decide, by decide, by decide⟩
  rintro ⟨f, hf, p, hp, _⟩
  have hf : f = ['B'] := by simpa using hf
  subst hf
  have h : ctfile_get_previous cache_unreadable ['B'] = Except.error cte_t.CTE_ERRNO := rfl
  rw [h] at hp
  cases hp

theorem ctfile_list_tree_link_mem (file n : Name) :
    ∀ tree : List Name, n ∈ ctfile_list_tree_link tree file ↔ n ∈ tree ∨ n = file := by
  intro tree
  induction tree with
  | nil => simp [ctfile_list_tree_link]
  | cons x rest ih =>
    simp only [ctfile_list_tree_link]
    split_ifs with h1
    · simp only [List.mem_cons]
      tauto
    · simp only [List.mem_cons, ih]
      tauto

theorem ctfile_list_tree_insert_mem (file n : Name) (tree : List Name) :
    n ∈ ctfile_list_tree_insert tree file ↔ n ∈ tree ∨ n = file := by
  unfold ctfile_list_tree_insert
  split_ifs with h
  · constructor
    · exact Or.inl
    · rintro (h1 | h1)
      · exact h1
      · rw [h1]; exact h
  · exact ctfile_list_tree_link_mem file n tree

theorem ctfile_list_tree_link_nodup (file : Name) :
    ∀ tree : List Name, tree.Nodup → file ∉ tree →
      (ctfile_list_tree_link tree file).Nodup := by
  intro tree
  induction tree with
  | nil => intro _ _; simp [ctfile_list_tree_link]
  | cons x rest ih =>
    intro h hn
    have h2 := List.nodup_cons.1 h
    have hn1 : file ≠ x := fun e => hn (e ▸ List.mem_cons_self _ _)
    have hn2 : file ∉ rest := fun e => hn (List.mem_cons_of_mem _ e)
    simp only [ctfile_list_tree_link]
    split_ifs with h1
    · exact List.nodup_cons.2 ⟨hn, h⟩
    · refine List.nodup_cons.2 ⟨?_, ih h2.2 hn2⟩
      intro hm
      rcases (ctfile_list_tree_link_mem file x rest).1 hm with hm | hm
      · exact h2.1 hm
      · exact hn1 hm.symm

theorem ctfile_list_tree_insert_nodup (file : Name) (tree : List Name) (h : tree.Nodup) :
    (ctfile_list_tree_insert tree file).Nodup := by
  unfold ctfile_list_tree_insert
  split_ifs with hm
  · exact h
  · exact ctfile_list_tree_link_nodup file tree h hm

/-- The members of the result tree of the filter loop without exclude set. -/
theorem ctfile_list_filter_mem (m : Name → Nat) (n : Name) :
    ∀ (files results : List Name),
      n ∈ ctfile_list_filter m none files results ↔
        n ∈ results ∨ (n ∈ files ∧ m n = 0) := by
  intro files
  induction files with
  | nil => intro results; simp [ctfile_list_filter]
  | cons f rest ih =>
    intro results
    simp only [ctfile_list_filter, and_true]
    split_ifs with h
    · rw [ih, ctfile_list_tree_insert_mem, List.mem_cons]
      constructor
      · rintro ((h1 | h1) | h1)
        · exact Or.inl h1
        · exact Or.inr ⟨Or.inl h1, h1 ▸ h⟩
        · exact Or.inr ⟨Or.inr h1.1, h1.2⟩
      · rintro (h1 | ⟨h1 | h1, h2⟩)
        · exact Or.inl (Or.inl h1)
        · exact Or.inl (Or.inr h1)
        · exact Or.inr ⟨h1, h2⟩
    · rw [ih, List.mem_cons]
      constructor
      · rintro (h1 | h1)
        · exact Or.inl h1
        · exact Or.inr ⟨Or.inr h1.1, h1.2⟩
      · rintro (h1 | ⟨h1 | h1, h2⟩)
        · exact Or.inl h1
        · exact absurd (h1 ▸ h2) h
        · exact Or.inr ⟨h1, h2⟩

theorem ctfile_list_filter_nodup (m : Name → Nat) :
    ∀ (files results : List Name), results.Nodup →
      (ctfile_list_filter m none files results).Nodup := by
  intro files
  induction files with
  | nil => intro results h; simpa [ctfile_list_filter] using h
  | cons f rest ih =>
    intro results h
    simp only [ctfile_list_filter, and_true]
    split_ifs with h1
    · exact ih _ (ctfile_list_tree_insert_nodup f results h)
    · exact ih _ h

/-- The members of the two trees after pass 1 of `ctfile_process_delete`. -/
theorem process_delete_pass1_mem (m : Name → Nat) (n : Name) :
    ∀ (visit : List Name) (trees : ct_delete_trees), trees.all_files.Nodup →
      (n ∈ (ctfile_process_delete_pass1 m visit trees).delete_files ↔
        n ∈ trees.delete_files ∨ (n ∈ visit ∧ m n = 0)) ∧
      (n ∈ (ctfile_process_delete_pass1 m visit trees).all_files ↔
        n ∈ trees.all_files ∧ ¬ (n ∈ visit ∧ m n = 0)) := by
  intro visit
  induction visit with
  | nil => intro trees _; simp [ctfile_process_delete_pass1]
  | cons f rest ih =>
    intro trees hnd
    simp only [ctfile_process_delete_pass1]
    split_ifs with h
    · obtain ⟨i1, i2⟩ := ih
        { all_files := trees.all_files.erase f
          delete_files := ctfile_list_tree_insert trees.delete_files f }
        (hnd.erase f)
      simp only at i1 i2
      rw [i1, i2, ctfile_list_tree_insert_mem, hnd.mem_erase_iff, List.mem_cons]
      constructor
      · constructor
        · rintro ((h1 | h1) | h1)
          · exact Or.inl h1
          · exact Or.inr ⟨Or.inl h1, h1 ▸ h⟩
          · exact Or.inr ⟨Or.inr h1.1, h1.2⟩
        · rintro (h1 | ⟨h1 | h1, h2⟩)
          · exact Or.inl (Or.inl h1)
          · exact Or.inl (Or.inr h1)
          · exact Or.inr ⟨h1, h2⟩
      · constructor
        · rintro ⟨⟨h1, h2⟩, h3⟩
          refine ⟨h2, ?_⟩
          rintro ⟨h4 | h4, h5⟩
          · exact h1 h4
          · exact h3 ⟨h4, h5⟩
        · rintro ⟨h1, h2⟩
          refine ⟨⟨?_, h1⟩, fun h3 => h2 ⟨Or.inr h3.1, h3.2⟩⟩
          intro h3
          exact h2 ⟨Or.inl h3, h3 ▸ h⟩
    · obtain ⟨i1, i2⟩ := ih trees hnd
      rw [i1, i2, List.mem_cons]
      constructor
      · constructor
        · rintro (h1 | h1)
          · exact Or.inl h1
          · exact Or.inr ⟨Or.inr h1.1, h1.2⟩
        · rintro (h1 | ⟨h1 | h1, h2⟩)
          · exact Or.inl h1
          · exact absurd (h1 ▸ h2) h
          · exact Or.inr ⟨h1, h2⟩
      · constructor
        · rintro ⟨h1, h2⟩
          refine ⟨h1, ?_⟩
          rintro ⟨h4 | h4, h5⟩
          · exact h (h4 ▸ h5)
          · exact h2 ⟨h4, h5⟩
        · rintro ⟨h1, h2⟩
          exact ⟨h1, fun h3 => h2 ⟨Or.inr h3.1, h3.2⟩⟩

/-- The fetch loop queues no transaction and adds no operation but extracts. -/
theorem process_delete_fetch_queued (in_cache : Name → Bool) :
    ∀ (files : List Name) (state : ct_global_state),
      (ctfile_process_delete_fetch in_cache state files).ct_queued = state.ct_queued := by
  intro files
  induction files with
  | nil => intro state; rfl
  | cons f rest ih =>
    intro state
    simp only [ctfile_process_delete_fetch]
    have hadd : (ct_add_operation_after state ct_op_cb.ctfile_extract
        (some ct_op_complete_cb.ctfile_delete_extract_cleanup)
        (ct_op_args.cca f (some f) 1)).ct_queued = state.ct_queued := by
      unfold ct_add_operation_after
      split <;> rfl
    split_ifs
    · exact ih state
    · rw [ih, hadd]

/-- With a pattern that compiles and no exclude list, `ctfile_list_complete`
returns 0, empties the list and adds the matching names to the results. -/
theorem ctfile_list_complete_ok (compile : ct_match_compiler) (files : List Name)
    (mode : ct_match_mode) (flist : List Name) (m : Name → Nat) (results : List Name)
    (hm : compile mode flist = Except.ok m) :
    ctfile_list_complete compile files mode flist none results =
      (none, [], ctfile_list_filter m none files results) := by
  unfold ctfile_list_complete
  split_ifs with h
  · subst h; rfl
  · simp only [hm]

/-- C9 (amended): for every server listing (the empty one included) and every
caller pattern that compiles, with the date pattern `all_ctfiles_pattern`
compiled to `m_all` and the pattern of the caller to `m`: if no listed name
that matches the date pattern also matches the pattern of the caller,
`ctfile_process_delete` returns `NOTHING_TO_DELETE` and adds no operation
and queues no transaction; otherwise it returns 0, `delete_files` is exactly
the set of listed names that match both, `all_files` is exactly the set of
the other listed names that match the date pattern, the dependency check
is enqueued with these two trees after the extracts of the retained files
that are not cached, and no transaction is queued. -/
theorem process_delete_partition (compile : ct_match_compiler) (mode : ct_match_mode)
    (pattern : List Name) (in_cache : Name → Bool) (state : ct_global_state)
    (m_all m : Name → Nat)
    (hall : compile ct_match_mode.CT_MATCH_REGEX all_ctfiles_pattern = Except.ok m_all)
    (hpat : compile mode pattern = Except.ok m) :
    ((∀ n ∈ state.ctfile_list_files, m_all n = 0 → m n ≠ 0) →
      (ctfile_process_delete compile mode pattern in_cache state).1 =
        some cte_t.CTE_NOTHING_TO_DELETE ∧
      (ctfile_process_delete compile mode pattern in_cache state).2.ct_operations =
        state.ct_operations ∧
      (ctfile_process_delete compile mode pattern in_cache state).2.ct_queued =
        state.ct_queued) ∧
    ((∃ n ∈ state.ctfile_list_files, m_all n = 0 ∧ m n = 0) →
      (ctfile_process_delete compile mode pattern in_cache state).1 = none ∧
      (ctfile_process_delete compile mode pattern in_cache state).2.ct_queued =
        state.ct_queued ∧
      ∃ all_files delete_files : List Name,
        (ctfile_process_delete compile mode pattern in_cache state).2 =
          ct_add_operation
            (ctfile_process_delete_fetch in_cache
              { state with ctfile_list_files := [] } all_files)
            ct_op_cb.ctfile_delete_check_required none
            (ct_op_args.trees all_files delete_files) ∧
        (∀ n, n ∈ delete_files ↔
          n ∈ state.ctfile_list_files ∧ m_all n = 0 ∧ m n = 0) ∧
        (∀ n, n ∈ all_files ↔
          n ∈ state.ctfile_list_files ∧ m_all n = 0 ∧ m n ≠ 0)) := by
  have hlist := ctfile_list_complete_ok compile state.ctfile_list_files
    ct_match_mode.CT_MATCH_REGEX all_ctfiles_pattern m_all [] hall
  have hnd : (ctfile_list_filter m_all none state.ctfile_list_files []).Nodup :=
    ctfile_list_filter_nodup m_all _ _ List.nodup_nil
  have hmem0 : ∀ n, n ∈ ctfile_list_filter m_all none state.ctfile_list_files [] ↔
      n ∈ state.ctfile_list_files ∧ m_all n = 0 := by
    intro n
    rw [ctfile_list_filter_mem]
    simp
  have hdel : ∀ n, n ∈ (ctfile_process_delete_pass1 m
        (ctfile_list_filter m_all none state.ctfile_list_files [])
        { all_files := ctfile_list_filter m_all none state.ctfile_list_files [],
          delete_files := [] }).delete_files ↔
      n ∈ state.ctfile_list_files ∧ m_all n = 0 ∧ m n = 0 := by
    intro n
    rw [(process_delete_pass1_mem m n _ _ hnd).1, hmem0]
    simp only [List.not_mem_nil, false_or]
    tauto
  have hallf : ∀ n, n ∈ (ctfile_process_delete_pass1 m
        (ctfile_list_filter m_all none state.ctfile_list_files [])
        { all_files := ctfile_list_filter m_all none state.ctfile_list_files [],
          delete_files := [] }).all_files ↔
      n ∈ state.ctfile_list_files ∧ m_all n = 0 ∧ m n ≠ 0 := by
    intro n
    rw [(process_delete_pass1_mem m n _ _ hnd).2, hmem0]
    tauto
  constructor
  · intro hno
    have hempty : (ctfile_process_delete_pass1 m
        (ctfile_list_filter m_all none state.ctfile_list_files [])
        { all_files := ctfile_list_filter m_all none state.ctfile_list_files [],
          delete_files := [] }).delete_files = [] := by
      apply List.eq_nil_iff_forall_not_mem.2
      intro n hn
      obtain ⟨h1, h2, h3⟩ := (hdel n).1 hn
      exact hno n h1 h2 h3
    have hval : ctfile_process_delete compile mode pattern in_cache state =
        (some cte_t.CTE_NOTHING_TO_DELETE, { state with ctfile_list_files := [] }) := by
      unfold ctfile_process_delete
      simp only [hlist, hpat, hempty, if_true]
    rw [hval]
    exact ⟨rfl, rfl, rfl⟩
  · rintro ⟨n, hn1, hn2, hn3⟩
    have hne : (ctfile_process_delete_pass1 m
        (ctfile_list_filter m_all none state.ctfile_list_files [])
        { all_files := ctfile_list_filter m_all none state.ctfile_list_files [],
          delete_files := [] }).delete_files ≠ [] :=
      List.ne_nil_of_mem ((hdel n).2 ⟨hn1, hn2, hn3⟩)
    have hval : ctfile_process_delete compile mode pattern in_cache state =
        (none, ct_add_operation
          (ctfile_process_delete_fetch in_cache { state with ctfile_list_files := [] }
            (ctfile_process_delete_pass1 m
              (ctfile_list_filter m_all none state.ctfile_list_files [])
              { all_files := ctfile_list_filter m_all none state.ctfile_list_files [],
                delete_files := [] }).all_files)
          ct_op_cb.ctfile_delete_check_required none
          (ct_op_args.trees
            (ctfile_process_delete_pass1 m
              (ctfile_list_filter m_all none state.ctfile_list_files [])
              { all_files := ctfile_list_filter m_all none state.ctfile_list_files [],
                delete_files := [] }).all_files
            (ctfile_process_delete_pass1 m
              (ctfile_list_filter m_all none state.ctfile_list_files [])
              { all_files := ctfile_list_filter m_all none state.ctfile_list_files [],
                delete_files := [] }).delete_files)) := by
      unfold ctfile_process_delete
      simp only [hlist, hpat, if_neg hne]
    rw [hval]
    refine ⟨rfl, ?_, _, _, rfl, hdel, hallf⟩
    show (ctfile_process_delete_fetch in_cache _ _).ct_queued = _
    rw [process_delete_fetch_queued]

/-- Witness of C9 (amended): a listing in which two date-stamped names match
the pattern of the caller, and one in which none does. -/
theorem process_delete_partition_witness :
    (ctfile_process_delete compile_example ct_match_mode.CT_MATCH_GLOB [['a']]
      (fun _ => false) listing_example).1 = none ∧
    (ctfile_process_delete compile_example ct_match_mode.CT_MATCH_GLOB [['z']]
      (fun _ => false) listing_example).1 = some cte_t.CTE_NOTHING_TO_DELETE :=
  have h1 := process_delete_partition compile_example ct_match_mode.CT_MATCH_GLOB [['a']]
    (fun _ => false) listing_example _ _ rfl rfl
  have h2 := process_delete_partition compile_example ct_match_mode.CT_MATCH_GLOB [['z']]
    (fun _ => false) listing_example _ _ rfl rfl
  ⟨(h1.2 ⟨['a', 'b'], by decide, by decide, by decide⟩).1, (h2.1 (by decide)).1⟩

/-- Counterexample to C9 as stated: a caller pattern that does not compile (the
empty pattern list of the example compiler) matches no listed name, yet
`ctfile_process_delete` returns the error of the compiler, which is not
`NOTHING_TO_DELETE`; this holds for the empty listing as well. -/
theorem process_delete_bad_pattern :
    (ctfile_process_delete compile_example ct_match_mode.CT_MATCH_GLOB []
      (fun _ => false) listing_example).1 = some (cte_t.CTE_OTHER 7) ∧
    (ctfile_process_delete compile_example ct_match_mode.CT_MATCH_GLOB []
      (fun _ => false) (ct_state_init 0)).1 = some (cte_t.CTE_OTHER 7) ∧
    cte_t.CTE_OTHER 7 ≠ cte_t.CTE_NOTHING_TO_DELETE := by
  decide

/-! ## Proofs: collecting the ctfiles -/

/-- The counters of the first loop: `keep_files` is zero exactly when every
name is older than the cutoff, `total_files` is the number of entries. -/
theorem cull_collect_pass1_counts (buf : Name) :
    ∀ tree : List ctfile_list_file,
      ((cull_collect_pass1 buf tree).2.1 = 0 ↔ ∀ f ∈ tree, cull_old buf f.mlf_name) ∧
      (cull_collect_pass1 buf tree).2.2 = tree.length := by
  intro tree
  induction tree with
  | nil => simp [cull_collect_pass1]
  | cons g rest ih =>
    simp only [cull_collect_pass1]
    split_ifs with hc
    · simp only [List.mem_cons, forall_eq_or_imp, List.length_cons, ih.2, and_true]
      rw [ih.1]
      constructor
      · intro h; exact ⟨hc, h⟩
      · intro h; exact h.2
    · simp only [List.mem_cons, forall_eq_or_imp, List.length_cons, ih.2, and_true]
      constructor
      · intro h; omega
      · intro h; exact absurd h.1 hc

/-- Scenario S6 evaluated: the older file is force-kept, no deletion is
scheduled, both manifests are in the live-SHA set, the operation completes. -/
theorem cull_scenario_S6 :
    (ct_cull_collect_ctfiles cache_S6 256 5 7 buf_example (ct_state_init 0)
      (cull_globals_of [] 1000) [⟨name_old, 0⟩, ⟨name_new, 0⟩]).map
        (fun r => (r.1.ct_operations, r.1.ct_op_completed, r.2.1.ct_sha_rb_head)) =
      some ([], 1, [[1], [2]]) := by
  decide

theorem ctfile_get_previous_error (cache : ctfile_cache) (a : Name) (e : cte_t)
    (h : ctfile_get_previous cache a = Except.error e) : cache a = Except.error e := by
  unfold ctfile_get_previous at h
  cases hc : cache a with
  | error e1 => rw [hc] at h; simpa using h
  | ok m => rw [hc] at h; cases h

/-- The predecessor walk never leaves with a call of `ct_fatal`. -/
theorem cull_walk_fatal (cache : ctfile_cache) (size : Nat) :
    ∀ (fuel : Nat) (tree : List ctfile_list_file) (prev : Option Name)
      (tree1 : List ctfile_list_file) (ret : cte_t),
      cull_walk cache size fuel tree prev ≠ some (cull_outcome.dying tree1 (some ret)) := by
  intro fuel
  induction fuel with
  | zero =>
    intro tree prev tree1 ret h
    cases prev with
    | none => simp [cull_walk] at h
    | some p => simp [cull_walk] at h
  | succ fuel ih =>
    intro tree prev tree1 ret h
    cases prev with
    | none => simp [cull_walk] at h
    | some p =>
      simp only [cull_walk] at h
      cases hs : cull_walk_step cache size tree p with
      | mk t1 nxt =>
        rw [hs] at h
        cases nxt with
        | none => simp at h
        | some next => exact ih t1 next tree1 ret h

/-- A fatal error of the second loop carries the code with which the manifest
cache failed on some name. -/
theorem cull_collect_pass2_fatal (cache : ctfile_cache) (size fuel : Nat) :
    ∀ (visit : List Name) (tree tree1 : List ctfile_list_file) (ret : cte_t),
      cull_collect_pass2 cache size fuel visit tree =
        some (cull_outcome.dying tree1 (some ret)) →
      ∃ n, cache n = Except.error ret := by
  intro visit
  induction visit with
  | nil =>
    intro tree tree1 ret h
    simp [cull_collect_pass2] at h
  | cons v rest ih =>
    intro tree tree1 ret h
    simp only [cull_collect_pass2] at h
    cases hf : cull_tree_find tree v with
    | none =>
      rw [hf] at h
      exact ih tree tree1 ret h
    | some file =>
      rw [hf] at h
      simp only at h
      by_cases hk : file.mlf_keep = 0
      · rw [if_pos hk] at h
        exact ih tree tree1 ret h
      · rw [if_neg hk] at h
        cases hp : ctfile_get_previous cache file.mlf_name with
        | error e =>
          rw [hp] at h
          simp only [Option.some.injEq, cull_outcome.dying.injEq] at h
          have he : e = ret := by simpa using h.2
          exact ⟨file.mlf_name, he ▸ ctfile_get_previous_error cache _ e hp⟩
        | ok prev =>
          rw [hp] at h
          simp only at h
          cases hw : cull_walk cache size fuel tree prev with
          | none => rw [hw] at h; cases h
          | some o =>
            rw [hw] at h
            cases o with
            | ok t1 => exact ih t1 tree1 ret h
            | dying t1 fatal =>
              simp only [Option.some.injEq, cull_outcome.dying.injEq] at h
              rw [h.1, h.2] at hw
              exact absurd hw (cull_walk_fatal cache size fuel tree prev tree1 ret)

/-- `ct_cull_add_shafile` returns 0 with the global state as it was, or 1
after a call of `ct_fatal` with the code with which the manifest cache failed
on some name. -/
theorem ct_cull_add_shafile_fatal (cache : ctfile_cache) :
    ∀ (fuel : Nat) (state : ct_global_state) (g : cull_globals) (file : Name)
      (r : Nat × ct_global_state × cull_globals),
      ct_cull_add_shafile cache fuel state g file = some r →
      (r.1 = 0 ∧ r.2.1 = state) ∨
        (r.1 = 1 ∧ ∃ n e, cache n = Except.error e ∧ r.2.1 = ct_fatal state e) := by
  intro fuel
  induction fuel with
  | zero => intro state g file r h; simp [ct_cull_add_shafile] at h
  | succ fuel ih =>
    intro state g file r h
    simp only [ct_cull_add_shafile] at h
    cases hc : cache file with
    | error e =>
      rw [hc] at h
      simp only [Option.some.injEq] at h
      subst h
      exact Or.inr ⟨rfl, file, e, hc, rfl⟩
    | ok m =>
      rw [hc] at h
      simp only at h
      cases hend : m.ending with
      | some e =>
        rw [hend] at h
        simp only [Option.some.injEq] at h
        subst h
        exact Or.inl ⟨rfl, rfl⟩
      | none =>
        rw [hend] at h
        simp only at h
        cases hprev : m.cmg_prevlvl_filename with
        | none =>
          rw [hprev] at h
          simp only [Option.some.injEq] at h
          subst h
          exact Or.inl ⟨rfl, rfl⟩
        | some p =>
          rw [hprev] at h
          exact ih state _ p r h

/-- The third loop leaves the count of completed operations alone, and the
fatal log either as it was or longer by the code with which the manifest
cache failed on some name. -/
theorem cull_collect_pass3_fatal (cache : ctfile_cache) (fuel : Nat) :
    ∀ (tree : List ctfile_list_file) (state : ct_global_state) (g : cull_globals)
      (r : ct_global_state × cull_globals × Bool),
      cull_collect_pass3 cache fuel tree state g = some r →
      r.1.ct_op_completed = state.ct_op_completed ∧
      (r.1.ct_fatal_log = state.ct_fatal_log ∨
        ∃ n e, cache n = Except.error e ∧ r.1.ct_fatal_log = state.ct_fatal_log ++ [e]) := by
  intro tree
  induction tree with
  | nil =>
    intro state g r h
    simp only [cull_collect_pass3, Option.some.injEq] at h
    subst h
    exact ⟨rfl, Or.inl rfl⟩
  | cons f rest ih =>
    intro state g r h
    simp only [cull_collect_pass3] at h
    by_cases hk : f.mlf_keep = 0
    · rw [if_pos hk] at h
      simpa [ct_add_operation] using ih _ g r h
    · rw [if_neg hk] at h
      cases ha : ct_cull_add_shafile cache fuel state g f.mlf_name with
      | none => rw [ha] at h; cases h
      | some q =>
        rw [ha] at h
        obtain ⟨ret, st, g1⟩ := q
        simp only at h
        rcases ct_cull_add_shafile_fatal cache fuel state g f.mlf_name _ ha with h0 | h1
        · simp only at h0
          rw [h0.1, h0.2] at h
          simp only [ne_eq, not_true_eq_false, if_false] at h
          exact ih state g1 r h
        · obtain ⟨hr, n, e, hne, hst⟩ := h1
          simp only at hr hst
          rw [hr] at h
          simp only [ne_eq, one_ne_zero, not_false_eq_true, if_true, Option.some.injEq] at h
          subst h
          rw [hst]
          exact ⟨rfl, Or.inr ⟨n, e, hne, rfl⟩⟩

theorem cull_collect_guarded (cache : ctfile_cache) (size fuel keep_days : Nat) (buf : Name)
    (state : ct_global_state) (g : cull_globals) (tree : List ctfile_list_file)
    (hfs : state.ct_file_state ≠ ct_file_state_t.CT_S_FINISHED)
    (hd : state.ct_dying = false) (hkd : keep_days ≠ 0)
    (hguard : (cull_collect_pass1 buf tree).2.1 = 0 ∧ (cull_collect_pass1 buf tree).2.2 ≠ 0) :
    ct_cull_collect_ctfiles cache size fuel keep_days buf state g tree =
      some (ct_fatal state cte_t.CTE_CULL_EVERYTHING, g, (cull_collect_pass1 buf tree).1) := by
  unfold ct_cull_collect_ctfiles
  simp only [if_neg hfs, hd, Bool.false_eq_true, if_false, if_neg hkd, if_pos hguard]

theorem cull_collect_unguarded (cache : ctfile_cache) (size fuel keep_days : Nat) (buf : Name)
    (state : ct_global_state) (g : cull_globals) (tree : List ctfile_list_file)
    (hfs : state.ct_file_state ≠ ct_file_state_t.CT_S_FINISHED)
    (hd : state.ct_dying = false) (hkd : keep_days ≠ 0)
    (hguard : ¬ ((cull_collect_pass1 buf tree).2.1 = 0 ∧ (cull_collect_pass1 buf tree).2.2 ≠ 0))
    (r : ct_global_state × cull_globals × List ctfile_list_file)
    (hr : ct_cull_collect_ctfiles cache size fuel keep_days buf state g tree = some r) :
    r.1.ct_fatal_log = state.ct_fatal_log ∨
      ∃ n e, cache n = Except.error e ∧ r.1.ct_fatal_log = state.ct_fatal_log ++ [e] := by
  unfold ct_cull_collect_ctfiles at hr
  simp only [if_neg hfs, hd, Bool.false_eq_true, if_false, if_neg hkd, if_neg hguard] at hr
  cases hp2 : cull_collect_pass2 cache size fuel
      ((cull_collect_pass1 buf tree).1.map (fun f => f.mlf_name))
      (cull_collect_pass1 buf tree).1 with
  | none => rw [hp2] at hr; cases hr
  | some o =>
    rw [hp2] at hr
    cases o with
    | dying t1 fatal =>
      cases fatal with
      | none =>
        simp only [Option.some.injEq] at hr
        subst hr
        exact Or.inl rfl
      | some ret =>
        simp only [Option.some.injEq] at hr
        subst hr
        obtain ⟨n, hn⟩ := cull_collect_pass2_fatal cache size fuel _ _ t1 ret hp2
        exact Or.inr ⟨n, ret, hn, rfl⟩
    | ok t1 =>
      simp only at hr
      cases hp3 : cull_collect_pass3 cache fuel t1 state
          { g with ctdb_cull_started := g.ctdb_cull_started + 1 } with
      | none => rw [hp3] at hr; cases hr
      | some q =>
        rw [hp3] at hr
        have h3 := (cull_collect_pass3_fatal cache fuel t1 state _ q hp3).2
        obtain ⟨st, g1, b⟩ := q
        cases b with
        | true =>
          simp only [Option.some.injEq] at hr
          subst hr
          exact h3
        | false =>
          simp only [Option.some.injEq] at hr
          subst hr
          exact h3

/-- C11: on a live entry (file state not `FINISHED`, dying flag clear) with
`keep_days` non-zero, and a manifest cache that never fails with the code
`CULL_EVERYTHING` itself, `ct_cull_collect_ctfiles` fails with
`CULL_EVERYTHING` if and only if the ctfile set is non-empty and every name
is older than the cutoff; it then returns right after the call of `ct_fatal`:
the operation queue, the cull globals with the live-SHA set and the count of
completed operations are as they were. With an empty set the operation
completes without any fatal error. -/
theorem cull_everything_guard (cache : ctfile_cache) (size fuel keep_days : Nat) (buf : Name)
    (state : ct_global_state) (g : cull_globals) (tree : List ctfile_list_file)
    (hfs : state.ct_file_state ≠ ct_file_state_t.CT_S_FINISHED)
    (hd : state.ct_dying = false) (hkd : keep_days ≠ 0)
    (hcache : ∀ n, cache n ≠ Except.error cte_t.CTE_CULL_EVERYTHING) :
    ((∃ r, ct_cull_collect_ctfiles cache size fuel keep_days buf state g tree = some r ∧
        r.1.ct_fatal_log = state.ct_fatal_log ++ [cte_t.CTE_CULL_EVERYTHING]) ↔
      (tree ≠ [] ∧ ∀ f ∈ tree, cull_old buf f.mlf_name)) ∧
    ((tree ≠ [] ∧ ∀ f ∈ tree, cull_old buf f.mlf_name) →
      ∃ r, ct_cull_collect_ctfiles cache size fuel keep_days buf state g tree = some r ∧
        r.1 = ct_fatal state cte_t.CTE_CULL_EVERYTHING ∧
        r.1.ct_operations = state.ct_operations ∧
        r.2.1 = g ∧
        r.1.ct_op_completed = state.ct_op_completed) ∧
    (tree = [] →
      ct_cull_collect_ctfiles cache size fuel keep_days buf state g tree =
        some (ct_op_complete state,
          { g with ctdb_cull_started := g.ctdb_cull_started + 1 }, [])) := by
  have hcount := cull_collect_pass1_counts buf tree
  have hiff : ((cull_collect_pass1 buf tree).2.1 = 0 ∧ (cull_collect_pass1 buf tree).2.2 ≠ 0) ↔
      (tree ≠ [] ∧ ∀ f ∈ tree, cull_old buf f.mlf_name) := by
    rw [hcount.1, hcount.2]
    constructor
    · rintro ⟨h1, h2⟩
      refine ⟨?_, h1⟩
      intro h
      rw [h] at h2
      exact h2 rfl
    · rintro ⟨h1, h2⟩
      refine ⟨h2, ?_⟩
      intro h
      exact h1 (List.length_eq_zero.1 h)
  refine ⟨⟨?_, ?_⟩, ?_, ?_⟩
  · rintro ⟨r, hr, hlog⟩
    by_contra hno
    have hguard := fun h => hno (hiff.1 h)
    rcases cull_collect_unguarded cache size fuel keep_days buf state g tree hfs hd hkd
        hguard r hr with h | ⟨n, e, hne, h⟩
    · rw [h] at hlog
      have := congrArg List.length hlog
      simp at this
    · rw [h] at hlog
      have he : e = cte_t.CTE_CULL_EVERYTHING := by simpa using hlog
      rw [he] at hne
      exact hcache n hne
  · intro h
    exact ⟨_, cull_collect_guarded cache size fuel keep_days buf state g tree hfs hd hkd
      (hiff.2 h), rfl⟩
  · intro h
    exact ⟨_, cull_collect_guarded cache size fuel keep_days buf state g tree hfs hd hkd
      (hiff.2 h), rfl, rfl, rfl, rfl⟩
  · intro h
    subst h
    unfold ct_cull_collect_ctfiles
    simp [hfs, hd, hkd, cull_collect_pass1, cull_collect_pass2, cull_collect_pass3]

/-- Witness of C11: over the set of scenario S6 with a cutoff later than both
names, every file is older than the cutoff and the guard fires: the function
returns right after the fatal error `CULL_EVERYTHING`, with nothing enqueued,
the cull globals untouched and the operation not completed. Over the empty
set with the same cutoff the operation completes. -/
theorem cull_everything_guard_witness :
    (∃ r, ct_cull_collect_ctfiles cache_S6 256 5 7 buf_late (ct_state_init 0)
        (cull_globals_of [] 1000) [⟨name_old, 0⟩, ⟨name_new, 0⟩] = some r ∧
      r.1.ct_fatal_log = (ct_state_init 0).ct_fatal_log ++ [cte_t.CTE_CULL_EVERYTHING]) ∧
    (∃ r, ct_cull_collect_ctfiles cache_S6 256 5 7 buf_late (ct_state_init 0)
        (cull_globals_of [] 1000) [⟨name_old, 0⟩, ⟨name_new, 0⟩] = some r ∧
      r.1 = ct_fatal (ct_state_init 0) cte_t.CTE_CULL_EVERYTHING ∧
      r.1.ct_operations = (ct_state_init 0).ct_operations ∧
      r.2.1 = cull_globals_of [] 1000 ∧
      r.1.ct_op_completed = (ct_state_init 0).ct_op_completed) ∧
    ct_cull_collect_ctfiles cache_S6 256 5 7 buf_late (ct_state_init 0)
        (cull_globals_of [] 1000) [] =
      some (ct_op_complete (ct_state_init 0),
        { cull_globals_of [] 1000 with
          ctdb_cull_started := (cull_globals_of [] 1000).ctdb_cull_started + 1 }, []) := by
  have hcache : ∀ n, cache_S6 n ≠ Except.error cte_t.CTE_CULL_EVERYTHING := by
    intro n h
    unfold cache_S6 at h
    split_ifs at h
    cases h
  have hall : ([⟨name_old, 0⟩, ⟨name_new, 0⟩] : List ctfile_list_file) ≠ [] ∧
      ∀ f ∈ ([⟨name_old, 0⟩, ⟨name_new, 0⟩] : List ctfile_list_file),
        cull_old buf_late f.mlf_name := by
    refine ⟨by decide, ?_⟩
    intro f hf
    simp only [List.mem_cons, List.mem_singleton, List.not_mem_nil, or_false] at hf
    rcases hf with rfl | rfl
    · unfold cull_old; decide
    · unfold cull_old; decide
  exact ⟨(cull_everything_guard cache_S6 256 5 7 buf_late (ct_state_init 0)
      (cull_globals_of [] 1000) [⟨name_old, 0⟩, ⟨name_new, 0⟩]
      (by decide) rfl (by decide) hcache).1.2 hall,
    (cull_everything_guard cache_S6 256 5 7 buf_late (ct_state_init 0)
      (cull_globals_of [] 1000) [⟨name_old, 0⟩, ⟨name_new, 0⟩]
      (by decide) rfl (by decide) hcache).2.1 hall,
    (cull_everything_guard cache_S6 256 5 7 buf_late (ct_state_init 0)
      (cull_globals_of [] 1000) [] (by decide) rfl (by decide) hcache).2.2 rfl⟩

/-- The guard of C11 evaluated on a set whose two files are both older than
the cutoff: the fatal error is `CULL_EVERYTHING`, nothing is enqueued, the
live-SHA set stays empty, the operation is not completed. -/
theorem cull_everything_two_old :
    (ct_cull_collect_ctfiles cache_S6 256 5 7 "20240201-000000".toList (ct_state_init 0)
      (cull_globals_of [] 1000) [⟨name_old, 0⟩, ⟨name_new, 0⟩]).map
        (fun r => (r.1.ct_fatal_log, r.1.ct_operations, r.2.1.ct_sha_rb_head,
          r.1.ct_op_completed)) =
      some ([cte_t.CTE_CULL_EVERYTHING], [], [], 0) := by
  decide

/-! ## Extract driver: the request step, case by case -/

theorem extract_request_busy (env : extract_env) (state : ct_global_state) (op : extract_op)
    (ces : ctfile_extract_state) (rname : Name) (h : state.ct_trans_free_slots = 0) :
    ctfile_extract_request env state op ces rname =
      (ct_set_file_state (ct_set_file_state state ct_file_state_t.CT_S_RUNNING)
        ct_file_state_t.CT_S_WAITING_TRANS, op) := by
  unfold ctfile_extract_request ct_trans_alloc
  simp only [ct_set_file_state, h]

theorem extract_request_open (env : extract_env) (state : ct_global_state) (op : extract_op)
    (ces : ctfile_extract_state) (rname : Name) (n : Nat)
    (h : state.ct_trans_free_slots = n + 1) (ho : ces.ces_open_sent = 0) :
    ctfile_extract_request env state op ces rname =
      (ct_set_file_state
        (ct_xml_file_open env.ct_create_xml_open
          { ct_set_file_state state ct_file_state_t.CT_S_RUNNING with
            ct_trans_free_slots := n
            fnode_refs := state.fnode_refs + 1 }
          { ct_trans_zero with
            tr_statemachine := ct_statemachine_t.ct_state_ctfile_extract
            tr_fl_node := true }
          rname md_mode_t.MD_O_READ 0 ct_complete_fn.ctfile_extract_complete_open)
        ct_file_state_t.CT_S_WAITING_SERVER,
        { op with op_priv := some { ces with ces_fnode := true, ces_open_sent := 1 } }) := by
  unfold ctfile_extract_request ct_trans_alloc
  simp only [ct_set_file_state, h, ho, if_true]

theorem extract_request_read (env : extract_env) (state : ct_global_state) (op : extract_op)
    (ces : ctfile_extract_state) (rname : Name) (n : Nat)
    (h : state.ct_trans_free_slots = n + 1) (ho : ces.ces_open_sent ≠ 0)
    (hiv : env.ct_create_iv_ctfile ces.ces_block_no = none) :
    ctfile_extract_request env state op ces rname =
      (ct_queue_first
        { ct_set_file_state state ct_file_state_t.CT_S_RUNNING with
          ct_trans_free_slots := n
          fnode_refs := state.fnode_refs + 1 }
        (read_request env rname ces.ces_block_no),
        { op with op_priv := some { ces with ces_block_no := ces.ces_block_no + 1 } }) := by
  unfold ctfile_extract_request ct_trans_alloc
  simp only [ct_set_file_state, h, if_neg ho, hiv]
  rfl

theorem extract_request_iv_fail (env : extract_env) (state : ct_global_state) (op : extract_op)
    (ces : ctfile_extract_state) (rname : Name) (n : Nat) (ret : cte_t)
    (h : state.ct_trans_free_slots = n + 1) (ho : ces.ces_open_sent ≠ 0)
    (hiv : env.ct_create_iv_ctfile ces.ces_block_no = some ret) :
    ctfile_extract_request env state op ces rname =
      ctfile_extract_dying
        (ct_fatal
          { ct_set_file_state state ct_file_state_t.CT_S_RUNNING with
            ct_trans_free_slots := n
            fnode_refs := state.fnode_refs + 1 } ret)
        { op with op_priv := some { ces with ces_block_no := ces.ces_block_no + 1 } } := by
  unfold ctfile_extract_request ct_trans_alloc
  simp only [ct_set_file_state, h, if_neg ho, hiv]

/-! ## Extract driver: end of stream -/

theorem ctfile_extract_dying_state (state : ct_global_state) (op : extract_op) :
    (ctfile_extract_dying state op).1 = state ∧
    (ctfile_extract_dying state op).2.ct_file_extract_closes = op.ct_file_extract_closes := by
  unfold ctfile_extract_dying
  cases op.op_priv with
  | none => exact ⟨rfl, rfl⟩
  | some ces =>
    simp only
    split_ifs <;> exact ⟨rfl, rfl⟩

/-- After the request part of `ctfile_extract` the file state is not
`FINISHED`, and the local file has not been closed. -/
theorem ctfile_extract_request_state (env : extract_env) (state : ct_global_state)
    (op : extract_op) (ces : ctfile_extract_state) (rname : Name) :
    (ctfile_extract_request env state op ces rname).1.ct_file_state ≠
      ct_file_state_t.CT_S_FINISHED ∧
    (ctfile_extract_request env state op ces rname).2.ct_file_extract_closes =
      op.ct_file_extract_closes := by
  cases hn : state.ct_trans_free_slots with
  | zero =>
    rw [extract_request_busy env state op ces rname hn]
    exact ⟨by simp [ct_set_file_state], rfl⟩
  | succ n =>
    by_cases ho : ces.ces_open_sent = 0
    · rw [extract_request_open env state op ces rname n hn ho]
      exact ⟨by simp [ct_set_file_state], rfl⟩
    · cases hiv : env.ct_create_iv_ctfile ces.ces_block_no with
      | none =>
        rw [extract_request_read env state op ces rname n hn ho hiv]
        exact ⟨by simp [ct_queue_first, ct_set_file_state], rfl⟩
      | some ret =>
        rw [extract_request_iv_fail env state op ces rname n ret hn ho hiv,
          (ctfile_extract_dying_state _ _).1, (ctfile_extract_dying_state _ _).2]
        exact ⟨by simp [ct_fatal, ct_set_file_state], rfl⟩

/-- `ctfile_extract` neither enters nor leaves the file state `FINISHED`, and
never closes the local file. -/
theorem ctfile_extract_finished (env : extract_env) (state : ct_global_state)
    (op : extract_op) :
    ((ctfile_extract env state op).1.ct_file_state = ct_file_state_t.CT_S_FINISHED ↔
      state.ct_file_state = ct_file_state_t.CT_S_FINISHED) ∧
    (ctfile_extract env state op).2.ct_file_extract_closes = op.ct_file_extract_closes := by
  unfold ctfile_extract
  by_cases hd : state.ct_dying = true
  · rw [if_pos hd, (ctfile_extract_dying_state _ _).1, (ctfile_extract_dying_state _ _).2]
    exact ⟨Iff.rfl, rfl⟩
  · rw [if_neg hd]
    cases hfs : state.ct_file_state with
    | CT_S_STARTING =>
      simp only
      cases hc : (match op.cca_remotename with
          | some rname => some rname
          | none => env.ctfile_cook_name env.cca_localname) with
      | none =>
        simp only
        rw [(ctfile_extract_dying_state _ _).1, (ctfile_extract_dying_state _ _).2]
        exact ⟨by simp [ct_fatal, hfs], rfl⟩
      | some rname =>
        simp only
        cases env.ct_file_extract_init with
        | some ret =>
          simp only
          rw [(ctfile_extract_dying_state _ _).1, (ctfile_extract_dying_state _ _).2]
          exact ⟨by simp [ct_fatal, hfs], rfl⟩
        | none =>
          simp only
          have h := ctfile_extract_request_state env state
            { cca_remotename := some rname
              op_priv := some
                { ces_fnode := false, ces_block_no := 0, ces_open_sent := 0, ces_is_open := 0 }
              extract_state := true
              ct_file_extract_closes := op.ct_file_extract_closes
              ct_file_extract_cleanups := op.ct_file_extract_cleanups }
            { ces_fnode := false, ces_block_no := 0, ces_open_sent := 0, ces_is_open := 0 } rname
          exact ⟨by simpa using h.1, h.2⟩
    | CT_S_WAITING_SERVER => simp [hfs]
    | CT_S_FINISHED => simp [hfs]
    | CT_S_RUNNING =>
      simp only
      cases hp : op.op_priv with
      | none => simp [hfs]
      | some ces =>
        cases hr : op.cca_remotename with
        | none => simp [hfs]
        | some rname =>
          simp only
          have h := ctfile_extract_request_state env state op ces rname
          exact ⟨by simpa using h.1, h.2⟩
    | CT_S_WAITING_TRANS =>
      simp only
      cases hp : op.op_priv with
      | none => simp [hfs]
      | some ces =>
        cases hr : op.cca_remotename with
        | none => simp [hfs]
        | some rname =>
          simp only
          have h := ctfile_extract_request_state env state op ces rname
          exact ⟨by simpa using h.1, h.2⟩

/-- The first call of the EOF handler: the file state becomes `FINISHED` and
the transaction the close carrier. -/
theorem ctfile_extract_handle_eof_first (close : Except cte_t Nat) (state : ct_global_state)
    (t : ct_trans) (h : state.ct_file_state ≠ ct_file_state_t.CT_S_FINISHED) :
    (ctfile_extract_handle_eof close state t).1.ct_file_state =
      ct_file_state_t.CT_S_FINISHED ∧
    eof_carrier close (ctfile_extract_handle_eof close state t).2 := by
  unfold ctfile_extract_handle_eof eof_carrier
  rw [if_pos h]
  cases close with
  | error ret => exact ⟨rfl, rfl, rfl, rfl⟩
  | ok c_size => exact ⟨rfl, rfl, rfl, rfl, rfl, rfl, rfl⟩

/-- A later call of the EOF handler: the global state stays as it is and the
transaction is marked `XML_CLOSED` with the no-op completion. -/
theorem ctfile_extract_handle_eof_later (close : Except cte_t Nat) (state : ct_global_state)
    (t : ct_trans) (h : state.ct_file_state = ct_file_state_t.CT_S_FINISHED) :
    (ctfile_extract_handle_eof close state t).1 = state ∧
    eof_straggler (ctfile_extract_handle_eof close state t).2 := by
  unfold ctfile_extract_handle_eof eof_straggler
  rw [if_neg (by simp [h])]
  exact ⟨rfl, rfl, rfl, rfl⟩

theorem extract_eof_complete_stragglers :
    ∀ (rest : List ct_trans) (op : extract_op), (∀ t ∈ rest, eof_straggler t) →
      rest.foldl extract_eof_complete op = op ∧
      rest.filter (fun t => decide (t.tr_complete =
        some ct_complete_fn.ctfile_extract_complete_eof)) = [] := by
  intro rest
  induction rest with
  | nil => intro op _; exact ⟨rfl, rfl⟩
  | cons t rest ih =>
    intro op h
    have ht := h t (List.mem_cons_self _ _)
    have hstep : extract_eof_complete op t = op := by
      unfold extract_eof_complete
      rw [ht.2.1]
    have hih := ih op (fun x hx => h x (List.mem_cons_of_mem _ hx))
    refine ⟨?_, ?_⟩
    · rw [List.foldl_cons, hstep]
      exact hih.1
    · rw [List.filter_cons, ht.2.1]
      simpa using hih.2

/-- The invariant of an extract run as to the end of the stream. -/
theorem extract_eof_inv (env : extract_env) (free : Nat) (rname : Option Name)
    (evs : List extract_event) :
    ((extract_run env free rname evs).state.ct_file_state ≠ ct_file_state_t.CT_S_FINISHED →
      (extract_run env free rname evs).eof_handled = []) ∧
    ((extract_run env free rname evs).state.ct_file_state = ct_file_state_t.CT_S_FINISHED →
      ∃ t0 rest, (extract_run env free rname evs).eof_handled = t0 :: rest ∧
        eof_carrier env.ct_create_xml_close t0 ∧ ∀ t ∈ rest, eof_straggler t) ∧
    (extract_run env free rname evs).op.ct_file_extract_closes = 0 := by
  unfold extract_run
  refine foldl_invariant (extract_step env)
    (fun s =>
      (s.state.ct_file_state ≠ ct_file_state_t.CT_S_FINISHED → s.eof_handled = []) ∧
      (s.state.ct_file_state = ct_file_state_t.CT_S_FINISHED →
        ∃ t0 rest, s.eof_handled = t0 :: rest ∧
          eof_carrier env.ct_create_xml_close t0 ∧ ∀ t ∈ rest, eof_straggler t) ∧
      s.op.ct_file_extract_closes = 0) ?_ evs _ ?_
  · rintro s ev ⟨h1, h2, h3⟩
    cases ev with
    | wakeup =>
      have hf := ctfile_extract_finished env s.state s.op
      refine ⟨?_, ?_, ?_⟩
      · intro h
        exact h1 (fun hh => h (hf.1.2 hh))
      · intro h
        exact h2 (hf.1.1 h)
      · show (ctfile_extract env s.state s.op).2.ct_file_extract_closes = 0
        rw [hf.2]
        exact h3
    | release => exact ⟨h1, h2, h3⟩
    | open_reply =>
      simp only [extract_step]
      split_ifs with hc
      · refine ⟨?_, ?_, h3⟩
        · intro _
          exact h1 (by rw [hc.1]; decide)
        · intro h
          exfalso
          revert h
          unfold ctfile_extract_complete_open ctfile_xml_open_complete
          cases env.ct_file_extract_open <;> simp [ct_fatal, ct_set_file_state]
      · exact ⟨h1, h2, h3⟩
    | die => exact ⟨h1, h2, h3⟩
    | eof t =>
      by_cases hfin : s.state.ct_file_state = ct_file_state_t.CT_S_FINISHED
      · have hl := ctfile_extract_handle_eof_later env.ct_create_xml_close s.state t hfin
        obtain ⟨t0, rest, e1, e2, e3⟩ := h2 hfin
        refine ⟨?_, ?_, h3⟩
        · intro h
          exfalso
          apply h
          show (ctfile_extract_handle_eof env.ct_create_xml_close s.state t).1.ct_file_state = _
          rw [hl.1]
          exact hfin
        · intro _
          refine ⟨t0, rest ++ [(ctfile_extract_handle_eof env.ct_create_xml_close s.state t).2],
            ?_, e2, ?_⟩
          · show s.eof_handled ++ _ = _
            rw [e1]
            rfl
          · intro x hx
            rcases List.mem_append.1 hx with h | h
            · exact e3 x h
            · rw [List.mem_singleton.1 h]
              exact hl.2
      · have hf := ctfile_extract_handle_eof_first env.ct_create_xml_close s.state t hfin
        refine ⟨?_, ?_, h3⟩
        · intro h
          exact absurd hf.1 h
        · intro _
          refine ⟨(ctfile_extract_handle_eof env.ct_create_xml_close s.state t).2, [], ?_,
            hf.2, fun x hx => by cases hx⟩
          show s.eof_handled ++ _ = _
          rw [h1 hfin]
          rfl
  · refine ⟨fun _ => rfl, ?_, rfl⟩
    intro h
    cases h

/-- The global state after the first call of the EOF handler: the file state
is `FINISHED`; when the xml-close packet could not be built the fatal error
with the code of the codec has been raised, otherwise nothing else changed. -/
theorem ctfile_extract_handle_eof_fatal (close : Except cte_t Nat) (state : ct_global_state)
    (t : ct_trans) (h : state.ct_file_state ≠ ct_file_state_t.CT_S_FINISHED) :
    (∀ ret, close = Except.error ret →
      (ctfile_extract_handle_eof close state t).1 =
        ct_fatal (ct_set_file_state state ct_file_state_t.CT_S_FINISHED) ret ∧
      (ctfile_extract_handle_eof close state t).1.ct_dying = true ∧
      (ctfile_extract_handle_eof close state t).1.ct_fatal_log =
        state.ct_fatal_log ++ [ret] ∧
      (ctfile_extract_handle_eof close state t).2.tr_state = tr_state_t.TR_S_XML_CLOSED) ∧
    (∀ c_size, close = Except.ok c_size →
      (ctfile_extract_handle_eof close state t).1 =
        ct_set_file_state state ct_file_state_t.CT_S_FINISHED ∧
      (ctfile_extract_handle_eof close state t).2.tr_state = tr_state_t.TR_S_XML_CLOSING) := by
  unfold ctfile_extract_handle_eof
  rw [if_pos h]
  constructor
  · intro ret hc
    rw [hc]
    exact ⟨rfl, rfl, rfl, rfl⟩
  · intro c_size hc
    rw [hc]
    exact ⟨rfl, rfl⟩

/-- C12 (amended): extract EOF handling. The first call of
`ctfile_extract_handle_eof` (file state not yet `FINISHED`) sets the file
state to `FINISHED` and installs the completion `ctfile_extract_complete_eof`
and the cleanup `ctfile_extract_cleanup_eof` on its transaction; when the
close packet could be built the transaction is the xml-close carrier in state
`XML_CLOSING` and nothing else changes in the global state; when it could not
be built the fatal error with the code of the codec is raised (the dying flag
is set and the code logged) and the transaction is marked `XML_CLOSED`; every
later call (file state
`FINISHED`) leaves the global state alone and marks its transaction
`XML_CLOSED` with the no-op completion and no cleanup. Over every extract
run, with the calls of the handler interleaved in any way with invocations of
the driver, releases, the open reply and the dying flag: no call has happened
while the file state is not `FINISHED`; once it is, the file-closing
completion is installed on exactly one of the transactions handled, the
first, and running the completion of each once closes the local file exactly
once. The completion `ctfile_extract_complete_eof` closes the local file
once and the cleanup `ctfile_extract_cleanup_eof` releases the fnode twice. -/
theorem extract_eof_closes_once (env : extract_env) (free : Nat) (rname : Option Name)
    (evs : List extract_event) :
    (∀ (state : ct_global_state) (t : ct_trans),
      state.ct_file_state ≠ ct_file_state_t.CT_S_FINISHED →
        (ctfile_extract_handle_eof env.ct_create_xml_close state t).1.ct_file_state =
          ct_file_state_t.CT_S_FINISHED ∧
        eof_carrier env.ct_create_xml_close
          (ctfile_extract_handle_eof env.ct_create_xml_close state t).2 ∧
        (∀ ret, env.ct_create_xml_close = Except.error ret →
          (ctfile_extract_handle_eof env.ct_create_xml_close state t).1 =
            ct_fatal (ct_set_file_state state ct_file_state_t.CT_S_FINISHED) ret ∧
          (ctfile_extract_handle_eof env.ct_create_xml_close state t).1.ct_dying = true ∧
          (ctfile_extract_handle_eof env.ct_create_xml_close state t).1.ct_fatal_log =
            state.ct_fatal_log ++ [ret] ∧
          (ctfile_extract_handle_eof env.ct_create_xml_close state t).2.tr_state =
            tr_state_t.TR_S_XML_CLOSED) ∧
        (∀ c_size, env.ct_create_xml_close = Except.ok c_size →
          (ctfile_extract_handle_eof env.ct_create_xml_close state t).1 =
            ct_set_file_state state ct_file_state_t.CT_S_FINISHED ∧
          (ctfile_extract_handle_eof env.ct_create_xml_close state t).2.tr_state =
            tr_state_t.TR_S_XML_CLOSING)) ∧
    (∀ (state : ct_global_state) (t : ct_trans),
      state.ct_file_state = ct_file_state_t.CT_S_FINISHED →
        (ctfile_extract_handle_eof env.ct_create_xml_close state t).1 = state ∧
        eof_straggler (ctfile_extract_handle_eof env.ct_create_xml_close state t).2) ∧
    ((extract_run env free rname evs).state.ct_file_state ≠ ct_file_state_t.CT_S_FINISHED →
      (extract_run env free rname evs).eof_handled = []) ∧
    ((extract_run env free rname evs).state.ct_file_state = ct_file_state_t.CT_S_FINISHED →
      ∃ t0 rest, (extract_run env free rname evs).eof_handled = t0 :: rest ∧
        eof_carrier env.ct_create_xml_close t0 ∧
        (∀ t ∈ rest, eof_straggler t) ∧
        ((extract_run env free rname evs).eof_handled.filter
          (fun t => decide (t.tr_complete =
            some ct_complete_fn.ctfile_extract_complete_eof))).length = 1 ∧
        ((extract_run env free rname evs).eof_handled.foldl extract_eof_complete
          (extract_run env free rname evs).op).ct_file_extract_closes = 1) ∧
    (∀ (state : ct_global_state) (op : extract_op),
      (ctfile_extract_complete_eof op).2.ct_file_extract_closes =
        op.ct_file_extract_closes + 1 ∧
      (ctfile_extract_cleanup_eof state op).1.fnode_frees = state.fnode_frees + 2) := by
  obtain ⟨h1, h2, h3⟩ := extract_eof_inv env free rname evs
  refine ⟨?_, fun state t h => ctfile_extract_handle_eof_later _ state t h, h1, ?_,
    fun state op => ⟨rfl, rfl⟩⟩
  · intro state t h
    have hf := ctfile_extract_handle_eof_first env.ct_create_xml_close state t h
    have hs := ctfile_extract_handle_eof_fatal env.ct_create_xml_close state t h
    exact ⟨hf.1, hf.2, hs.1, hs.2⟩
  intro hfin
  obtain ⟨t0, rest, e1, e2, e3⟩ := h2 hfin
  have hs := extract_eof_complete_stragglers rest
  refine ⟨t0, rest, e1, e2, e3, ?_, ?_⟩
  · rw [e1, List.filter_cons, e2.1]
    simp [(hs (extract_run env free rname evs).op e3).2]
  · rw [e1, List.foldl_cons]
    have hstep : extract_eof_complete (extract_run env free rname evs).op t0 =
        (ctfile_extract_complete_eof (extract_run env free rname evs).op).2 := by
      unfold extract_eof_complete
      rw [e2.1]
    rw [hstep, (hs _ e3).1]
    show (extract_run env free rname evs).op.ct_file_extract_closes + 1 = 1
    rw [h3]

/-- Counterexample to C12 as stated: the first call of the EOF handler when the
xml-close packet cannot be built. The file state becomes `FINISHED` and the
callbacks are installed, but the transaction is left in state `XML_CLOSED`,
not `XML_CLOSING`, and a fatal error is raised. -/
theorem extract_eof_close_packet_fails :
    (ct_state_init 1).ct_file_state ≠ ct_file_state_t.CT_S_FINISHED ∧
    (ctfile_extract_handle_eof (Except.error (cte_t.CTE_OTHER 1)) (ct_state_init 1)
      (read_request env_extract ['f'] 3)).2.tr_state = tr_state_t.TR_S_XML_CLOSED ∧
    (ctfile_extract_handle_eof (Except.error (cte_t.CTE_OTHER 1)) (ct_state_init 1)
      (read_request env_extract ['f'] 3)).2.tr_state ≠ tr_state_t.TR_S_XML_CLOSING ∧
    (ctfile_extract_handle_eof (Except.error (cte_t.CTE_OTHER 1)) (ct_state_init 1)
      (read_request env_extract ['f'] 3)).1.ct_fatal_log = [cte_t.CTE_OTHER 1] ∧
    (ctfile_extract_handle_eof (Except.error (cte_t.CTE_OTHER 1)) (ct_state_init 1)
      (read_request env_extract ['f'] 3)).1.ct_file_state = ct_file_state_t.CT_S_FINISHED := by
  decide

/-- Scenario S3 evaluated: the request for chunk 3 becomes the xml-close
carrier, the straggler is marked `XML_CLOSED` with the no-op completion, and
the completions close the local file once. -/
theorem extract_scenario_S3 :
    (extract_run env_extract 8 none evs_S3).state.ct_file_state =
      ct_file_state_t.CT_S_FINISHED ∧
    (extract_run env_extract 8 none evs_S3).eof_handled.map
        (fun t => (t.tr_ctfile_chunkno, t.tr_state, t.tr_complete, t.tr_cleanup)) =
      [(3, tr_state_t.TR_S_XML_CLOSING, some ct_complete_fn.ctfile_extract_complete_eof,
          some ct_cleanup_fn.ctfile_extract_cleanup_eof),
       (4, tr_state_t.TR_S_XML_CLOSED, some ct_complete_fn.ctfile_complete_noop, none)] ∧
    ((extract_run env_extract 8 none evs_S3).eof_handled.foldl extract_eof_complete
      (extract_run env_extract 8 none evs_S3).op).ct_file_extract_closes = 1 := by
  decide

/-! ## The transaction pool on the fatal exits -/

/-- The sibling paths: when the XML codec fails, `ctfile_list_start`,
`ctfile_delete` and `ct_xml_file_open` hand the transaction they allocated
back to the pool. -/
theorem pool_restored_on_fatal :
    (ctfile_list_start (Except.error (cte_t.CTE_OTHER 9))
      (ct_state_init 1)).ct_trans_free_slots = 1 ∧
    (ctfile_delete (fun n => some n) (fun _ => Except.error (cte_t.CTE_OTHER 9)) ['f']
      (ct_state_init 1)).ct_trans_free_slots = 1 ∧
    (ctfile_delete (fun _ => none) (fun _ => Except.ok 10) ['f']
      (ct_state_init 1)).ct_trans_free_slots = 1 ∧
    (ct_xml_file_open (fun _ _ _ => Except.error (cte_t.CTE_OTHER 9)) (ct_state_init 0)
      ct_trans_zero ['f'] md_mode_t.MD_O_READ 0
      ct_complete_fn.ctfile_xml_open_complete).ct_trans_free_slots = 1 := by
  decide

/-- C13, the code at the failing inputs: with one transaction in the pool and
a failing packet encoder, `ct_cull_setup`, `ct_cull_send_shas` and
`ct_cull_send_complete` take the transaction out of the pool, raise the fatal
error and return with the pool empty and nothing queued; `ctfile_extract`
does the same when `ct_create_iv_ctfile` fails for a read request (here for
chunk 1, after the open and the request for chunk 0 were queued). The
transaction is neither queued nor released. -/
theorem pool_leaks_on_fatal :
    ((ct_cull_setup (fun _ => Except.error (cte_t.CTE_OTHER 9)) 42 (ct_state_init 1)
        (cull_globals_of [] 1000)).1.ct_trans_free_slots = 0 ∧
      (ct_cull_setup (fun _ => Except.error (cte_t.CTE_OTHER 9)) 42 (ct_state_init 1)
        (cull_globals_of [] 1000)).1.ct_queued = [] ∧
      (ct_cull_setup (fun _ => Except.error (cte_t.CTE_OTHER 9)) 42 (ct_state_init 1)
        (cull_globals_of [] 1000)).1.ct_fatal_log = [cte_t.CTE_OTHER 9]) ∧
    ((ct_cull_send_shas (fun _ _ _ => Except.error (cte_t.CTE_OTHER 9)) (ct_state_init 1)
        (cull_globals_of [[1]] 1000)).1.ct_trans_free_slots = 0 ∧
      (ct_cull_send_shas (fun _ _ _ => Except.error (cte_t.CTE_OTHER 9)) (ct_state_init 1)
        (cull_globals_of [[1]] 1000)).1.ct_queued = [] ∧
      (ct_cull_send_shas (fun _ _ _ => Except.error (cte_t.CTE_OTHER 9)) (ct_state_init 1)
        (cull_globals_of [[1]] 1000)).1.ct_fatal_log = [cte_t.CTE_OTHER 9]) ∧
    ((ct_cull_send_complete (fun _ => Except.error (cte_t.CTE_OTHER 9)) (ct_state_init 1)
        (cull_globals_of [] 1000)).1.ct_trans_free_slots = 0 ∧
      (ct_cull_send_complete (fun _ => Except.error (cte_t.CTE_OTHER 9)) (ct_state_init 1)
        (cull_globals_of [] 1000)).1.ct_queued = [] ∧
      (ct_cull_send_complete (fun _ => Except.error (cte_t.CTE_OTHER 9)) (ct_state_init 1)
        (cull_globals_of [] 1000)).1.ct_fatal_log = [cte_t.CTE_OTHER 9]) ∧
    ((extract_run env_extract_iv_fails 3 none
        [extract_event.wakeup, extract_event.open_reply, extract_event.wakeup,
          extract_event.wakeup]).state.ct_trans_free_slots = 0 ∧
      (extract_run env_extract_iv_fails 3 none
        [extract_event.wakeup, extract_event.open_reply, extract_event.wakeup,
          extract_event.wakeup]).state.ct_queued.length = 2 ∧
      (extract_run env_extract_iv_fails 3 none
        [extract_event.wakeup, extract_event.open_reply, extract_event.wakeup,
          extract_event.wakeup]).state.ct_fatal_log = [cte_t.CTE_OTHER 5]) := by
  decide

/-! ## Fnode references over a whole operation -/

/-- Where the references balance: the archive of a 3-byte file takes two
references (the allocation and one for the write-chunk) and releases two; an
extract on which the server reports the end of the stream with no other read
in flight takes five and releases five. -/
theorem fnode_refs_balanced :
    ((archive_run env_three 4 none (evs_straight 2)).1.ct_file_state =
        ct_file_state_t.CT_S_FINISHED ∧
      (archive_run env_three 4 none (evs_straight 2)).1.fnode_refs = 2 ∧
      ((archive_run env_three 4 none (evs_straight 2)).1.ct_queued.foldl ct_trans_cleanup
        ((archive_run env_three 4 none (evs_straight 2)).1,
          (extract_init 0 none).op)).1.fnode_frees = 2) ∧
    ((extract_run env_extract 8 none evs_S3_no_straggler).state.fnode_refs = 5 ∧
      ((extract_finalized (extract_run env_extract 8 none evs_S3_no_straggler)).foldl
        ct_trans_cleanup
        ((extract_run env_extract 8 none evs_S3_no_straggler).state,
          (extract_run env_extract 8 none evs_S3_no_straggler).op)).1.fnode_frees = 5) := by
  decide

/-- C14, the code at the failing inputs. The archive of an empty file runs to
`FINISHED` with one reference taken (`ct_alloc_fnode`) and none released, by
the driver or by a cleanup. The extract of scenario S3, with one read in
flight behind the one on which the server reports the end of the stream,
takes six references (the allocation and five read requests) while the
driver and the cleanups of all transactions release five: the straggler
loses its cleanup in `ctfile_extract_handle_eof`. -/
theorem fnode_refs_unbalanced :
    ((archive_run env_empty 2 none
        [archive_event.wakeup, archive_event.open_reply, archive_event.wakeup]).1.ct_file_state =
        ct_file_state_t.CT_S_FINISHED ∧
      (archive_run env_empty 2 none
        [archive_event.wakeup, archive_event.open_reply, archive_event.wakeup]).2.op_priv =
        none ∧
      (archive_run env_empty 2 none
        [archive_event.wakeup, archive_event.open_reply, archive_event.wakeup]).1.fnode_refs =
        1 ∧
      ((archive_run env_empty 2 none
          [archive_event.wakeup, archive_event.open_reply,
            archive_event.wakeup]).1.ct_queued.foldl ct_trans_cleanup
        ((archive_run env_empty 2 none
          [archive_event.wakeup, archive_event.open_reply, archive_event.wakeup]).1,
          (extract_init 0 none).op)).1.fnode_frees = 0) ∧
    ((extract_run env_extract 8 none evs_S3).state.ct_file_state =
        ct_file_state_t.CT_S_FINISHED ∧
      (extract_run env_extract 8 none evs_S3).state.fnode_refs = 6 ∧
      ((extract_finalized (extract_run env_extract 8 none evs_S3)).foldl ct_trans_cleanup
        ((extract_run env_extract 8 none evs_S3).state,
          (extract_run env_extract 8 none evs_S3).op)).1.fnode_frees = 5) := by
  decide

/-! ## XML reply demultiplexer -/

/-- C15: XML reply demultiplexer. For every transaction whose state is one of
`XML_OPEN`, `XML_CLOSING`, `XML_LIST`, `XML_DELETE`, `XML_CULL_SEND`,
`XML_CULL_SHA_SEND`, `XML_CULL_COMPLETE_SEND`, `ct_handle_xml_reply` returns
(no abort) and hands the transaction on exactly once; when the selected
parser accepted the reply the transaction is in a terminal state
(`XML_OPENED`, `DONE` or `XML_CULL_REPLIED`) and no fatal error is raised;
when it did not (the parser failed, or an open reply carried no file name) a
fatal error is raised and the transaction is unchanged. An open reply
without a file name fails with `CANT_OPEN_REMOTE`. -/
theorem xml_reply_demux (reply : xml_reply) (state : ct_global_state) (t : ct_trans)
    (hs : t.tr_state ∈ xml_reply_states) :
    ∃ r, ct_handle_xml_reply reply state t = some r ∧
      r.ct_queue_transfer = [r.trans] ∧
      (xml_reply_accepted reply state.ctfile_list_files t.tr_state →
        r.trans.tr_state ∈ xml_terminal_states ∧
        r.state.ct_fatal_log = state.ct_fatal_log ∧
        r.state.ct_dying = state.ct_dying) ∧
      (¬ xml_reply_accepted reply state.ctfile_list_files t.tr_state →
        ∃ code, r.state = ct_fatal state code ∧ r.trans = t) ∧
      (t.tr_state = tr_state_t.TR_S_XML_OPEN →
        reply.ct_parse_xml_open_reply = Except.ok none →
        r.state = ct_fatal state cte_t.CTE_CANT_OPEN_REMOTE ∧ r.trans = t) := by
  simp only [xml_reply_states, List.mem_cons, List.mem_singleton, List.not_mem_nil,
    or_false] at hs
  rcases hs with h | h | h | h | h | h | h
  · cases ho : reply.ct_parse_xml_open_reply with
    | error ret =>
      refine ⟨xml_just_queue (ct_fatal state ret) t [], ?_, rfl, ?_, ?_, ?_⟩
      · simp only [ct_handle_xml_reply, h, ho]
      · rw [h]; rintro ⟨f, hf⟩; rw [ho] at hf; cases hf
      · intro _; exact ⟨ret, rfl, rfl⟩
      · intro _ h2; cases h2
    | ok name =>
      cases name with
      | none =>
        refine ⟨xml_just_queue (ct_fatal state cte_t.CTE_CANT_OPEN_REMOTE) t [], ?_, rfl,
          ?_, ?_, ?_⟩
        · simp only [ct_handle_xml_reply, h, ho]
        · rw [h]; rintro ⟨f, hf⟩; rw [ho] at hf; cases hf
        · intro _; exact ⟨_, rfl, rfl⟩
        · intro _ _; exact ⟨rfl, rfl⟩
      | some f =>
        refine ⟨xml_just_queue state { t with tr_state := tr_state_t.TR_S_XML_OPENED } [],
          ?_, rfl, ?_, ?_, ?_⟩
        · simp only [ct_handle_xml_reply, h, ho]
        · intro _; exact ⟨by show tr_state_t.TR_S_XML_OPENED ∈ xml_terminal_states; decide, rfl, rfl⟩
        · rw [h]; intro hn; exact absurd ⟨f, ho⟩ hn
        · intro _ h2; cases h2
  · have hne : t.tr_state ≠ tr_state_t.TR_S_XML_OPEN := by rw [h]; decide
    cases ho : reply.ct_parse_xml_close_reply with
    | some ret =>
      refine ⟨xml_just_queue (ct_fatal state ret) t [], ?_, rfl, ?_, ?_, ?_⟩
      · simp only [ct_handle_xml_reply, h, ho]
      · rw [h]; intro hf; change reply.ct_parse_xml_close_reply = none at hf
        rw [ho] at hf; cases hf
      · intro _; exact ⟨ret, rfl, rfl⟩
      · intro h1; exact absurd h1 hne
    | none =>
      refine ⟨xml_just_queue state { t with tr_state := tr_state_t.TR_S_DONE } [],
        ?_, rfl, ?_, ?_, ?_⟩
      · simp only [ct_handle_xml_reply, h, ho]
      · intro _; exact ⟨by show tr_state_t.TR_S_DONE ∈ xml_terminal_states; decide, rfl, rfl⟩
      · rw [h]; intro hn; exact absurd ho hn
      · intro h1; exact absurd h1 hne
  · have hne : t.tr_state ≠ tr_state_t.TR_S_XML_OPEN := by rw [h]; decide
    cases ho : reply.ct_parse_xml_list_reply state.ctfile_list_files with
    | error ret =>
      refine ⟨xml_just_queue (ct_fatal state ret) t [], ?_, rfl, ?_, ?_, ?_⟩
      · simp only [ct_handle_xml_reply, h, ho]
      · rw [h]; rintro ⟨f, hf⟩; rw [ho] at hf; cases hf
      · intro _; exact ⟨ret, rfl, rfl⟩
      · intro h1; exact absurd h1 hne
    | ok files =>
      refine ⟨xml_just_queue { state with ctfile_list_files := files }
        { t with tr_state := tr_state_t.TR_S_DONE } [], ?_, rfl, ?_, ?_, ?_⟩
      · simp only [ct_handle_xml_reply, h, ho]
      · intro _; exact ⟨by show tr_state_t.TR_S_DONE ∈ xml_terminal_states; decide, rfl, rfl⟩
      · rw [h]; intro hn; exact absurd ⟨files, ho⟩ hn
      · intro h1; exact absurd h1 hne
  · have hne : t.tr_state ≠ tr_state_t.TR_S_XML_OPEN := by rw [h]; decide
    cases ho : reply.ct_parse_xml_delete_reply with
    | error ret =>
      refine ⟨xml_just_queue (ct_fatal state ret) t [], ?_, rfl, ?_, ?_, ?_⟩
      · simp only [ct_handle_xml_reply, h, ho]
      · rw [h]; rintro ⟨f, hf⟩; rw [ho] at hf; cases hf
      · intro _; exact ⟨ret, rfl, rfl⟩
      · intro h1; exact absurd h1 hne
    | ok filename =>
      refine ⟨xml_just_queue state
        { t with tr_ctfile_name := filename, tr_state := tr_state_t.TR_S_DONE } [],
        ?_, rfl, ?_, ?_, ?_⟩
      · simp only [ct_handle_xml_reply, h, ho]
      · intro _; exact ⟨by show tr_state_t.TR_S_DONE ∈ xml_terminal_states; decide, rfl, rfl⟩
      · rw [h]; intro hn; exact absurd ⟨filename, ho⟩ hn
      · intro h1; exact absurd h1 hne
  · have hne : t.tr_state ≠ tr_state_t.TR_S_XML_OPEN := by rw [h]; decide
    cases ho : reply.ct_parse_xml_cull_setup_reply with
    | some ret =>
      refine ⟨xml_just_queue (ct_fatal state ret) t [], ?_, rfl, ?_, ?_, ?_⟩
      · simp only [ct_handle_xml_reply, h, ho]
      · rw [h]; intro hf; change reply.ct_parse_xml_cull_setup_reply = none at hf
        rw [ho] at hf; cases hf
      · intro _; exact ⟨ret, rfl, rfl⟩
      · intro h1; exact absurd h1 hne
    | none =>
      refine ⟨xml_just_queue state { t with tr_state := tr_state_t.TR_S_DONE } [],
        ?_, rfl, ?_, ?_, ?_⟩
      · simp only [ct_handle_xml_reply, h, ho]
      · intro _; exact ⟨by show tr_state_t.TR_S_DONE ∈ xml_terminal_states; decide, rfl, rfl⟩
      · rw [h]; intro hn; exact absurd ho hn
      · intro h1; exact absurd h1 hne
  · have hne : t.tr_state ≠ tr_state_t.TR_S_XML_OPEN := by rw [h]; decide
    cases ho : reply.ct_parse_xml_cull_shas_reply with
    | some ret =>
      refine ⟨xml_just_queue (ct_fatal state ret) t [], ?_, rfl, ?_, ?_, ?_⟩
      · simp only [ct_handle_xml_reply, h, ho]
      · rw [h]; intro hf; change reply.ct_parse_xml_cull_shas_reply = none at hf
        rw [ho] at hf; cases hf
      · intro _; exact ⟨ret, rfl, rfl⟩
      · intro h1; exact absurd h1 hne
    | none =>
      by_cases he : t.tr_eof = 1
      · refine ⟨xml_just_queue state { t with tr_state := tr_state_t.TR_S_DONE } [],
          ?_, rfl, ?_, ?_, ?_⟩
        · simp only [ct_handle_xml_reply, h, ho, if_pos he]
        · intro _; exact ⟨by show tr_state_t.TR_S_DONE ∈ xml_terminal_states; decide, rfl, rfl⟩
        · rw [h]; intro hn; exact absurd ho hn
        · intro h1; exact absurd h1 hne
      · refine ⟨xml_just_queue state
          { t with tr_state := tr_state_t.TR_S_XML_CULL_REPLIED } [], ?_, rfl, ?_, ?_, ?_⟩
        · simp only [ct_handle_xml_reply, h, ho, if_neg he]
        · intro _; exact ⟨by show tr_state_t.TR_S_XML_CULL_REPLIED ∈ xml_terminal_states; decide, rfl, rfl⟩
        · rw [h]; intro hn; exact absurd ho hn
        · intro h1; exact absurd h1 hne
  · have hne : t.tr_state ≠ tr_state_t.TR_S_XML_OPEN := by rw [h]; decide
    cases ho : reply.ct_parse_xml_cull_complete_reply with
    | error ret =>
      refine ⟨xml_just_queue (ct_fatal state ret) t [], ?_, rfl, ?_, ?_, ?_⟩
      · simp only [ct_handle_xml_reply, h, ho]
      · rw [h]; rintro ⟨f, hf⟩; rw [ho] at hf; cases hf
      · intro _; exact ⟨ret, rfl, rfl⟩
      · intro h1; exact absurd h1 hne
    | ok newgenid =>
      refine ⟨xml_just_queue state { t with tr_state := tr_state_t.TR_S_DONE } [newgenid],
        ?_, rfl, ?_, ?_, ?_⟩
      · simp only [ct_handle_xml_reply, h, ho]
      · intro _; exact ⟨by show tr_state_t.TR_S_DONE ∈ xml_terminal_states; decide, rfl, rfl⟩
      · rw [h]; intro hn; exact absurd ⟨newgenid, ho⟩ hn
      · intro h1; exact absurd h1 hne

/-- Witness of C15: an open reply that parses but carries no file name, for
the xml-open transaction of an archive. -/
theorem xml_reply_demux_witness :
    ∃ r, ct_handle_xml_reply reply_no_name (ct_state_init 1)
        (spec_archive_open ['f'] 100) = some r ∧
      r.ct_queue_transfer = [r.trans] ∧
      (xml_reply_accepted reply_no_name (ct_state_init 1).ctfile_list_files
          (spec_archive_open ['f'] 100).tr_state →
        r.trans.tr_state ∈ xml_terminal_states ∧
        r.state.ct_fatal_log = (ct_state_init 1).ct_fatal_log ∧
        r.state.ct_dying = (ct_state_init 1).ct_dying) ∧
      (¬ xml_reply_accepted reply_no_name (ct_state_init 1).ctfile_list_files
          (spec_archive_open ['f'] 100).tr_state →
        ∃ code, r.state = ct_fatal (ct_state_init 1) code ∧
          r.trans = spec_archive_open ['f'] 100) ∧
      ((spec_archive_open ['f'] 100).tr_state = tr_state_t.TR_S_XML_OPEN →
        reply_no_name.ct_parse_xml_open_reply = Except.ok none →
        r.state = ct_fatal (ct_state_init 1) cte_t.CTE_CANT_OPEN_REMOTE ∧
          r.trans = spec_archive_open ['f'] 100) :=
  xml_reply_demux reply_no_name (ct_state_init 1) (spec_archive_open ['f'] 100) (by decide)

/-- The demultiplexer evaluated: an accepted list reply moves the transaction
to `DONE` and stores the listing; an open reply without file name raises
`CANT_OPEN_REMOTE` and leaves the transaction in `XML_OPEN`; a transaction in
a state that expects no XML reply aborts. -/
theorem xml_reply_examples :
    (ct_handle_xml_reply reply_ok (ct_state_init 1)
      { ct_trans_zero with tr_state := tr_state_t.TR_S_XML_LIST }).map
        (fun r => (r.trans.tr_state, r.state.ctfile_list_files, r.state.ct_fatal_log,
          r.ct_queue_transfer.length)) =
      some (tr_state_t.TR_S_DONE, [['a']], [], 1) ∧
    (ct_handle_xml_reply reply_no_name (ct_state_init 1)
      (spec_archive_open ['f'] 100)).map
        (fun r => (r.trans.tr_state, r.state.ct_fatal_log, r.ct_queue_transfer.length)) =
      some (tr_state_t.TR_S_XML_OPEN, [cte_t.CTE_CANT_OPEN_REMOTE], 1) ∧
    ct_handle_xml_reply reply_ok (ct_state_init 1) ct_trans_zero = none := by
  decide

/-! ## Cull: intermediate and final replies -/

/-- One invocation of `ct_cull_send_shas` queues nothing, or one cull-shas
transaction whose EOF flag is 0 or 1. -/
theorem cull_send_shas_queued
    (enc : Nat → List Sha → Nat → Except cte_t cull_shas_packet)
    (state : ct_global_state) (g : cull_globals) :
    (ct_cull_send_shas enc state g).1.ct_queued = state.ct_queued ∨
    ∃ t, (ct_cull_send_shas enc state g).1.ct_queued = state.ct_queued ++ [t] ∧
      t.tr_state = tr_state_t.TR_S_XML_CULL_SHA_SEND ∧ (t.tr_eof = 0 ∨ t.tr_eof = 1) := by
  unfold ct_cull_send_shas ct_trans_alloc
  by_cases hf : state.ct_file_state = ct_file_state_t.CT_S_FINISHED
  · rw [if_pos hf]; exact Or.inl rfl
  · rw [if_neg hf]
    by_cases hd : state.ct_dying = true
    · rw [if_pos hd]; exact Or.inl rfl
    · rw [if_neg hd]
      simp only [ct_set_file_state]
      cases state.ct_trans_free_slots with
      | zero => exact Or.inl rfl
      | succ n =>
        simp only
        cases enc g.cull_uuid g.ct_sha_rb_head g.sha_per_packet with
        | error ret => exact Or.inl rfl
        | ok pkt =>
          simp only
          split_ifs
          · exact Or.inr ⟨_, rfl, rfl, Or.inr rfl⟩
          · exact Or.inr ⟨_, rfl, rfl, Or.inl rfl⟩

/-- Every transaction a cull-send run queues is a cull-shas transaction whose
EOF flag is 0 or 1. -/
theorem cull_send_run_queued
    (enc : Nat → List Sha → Nat → Except cte_t cull_shas_packet)
    (free : Nat) (g : cull_globals) (evs : List cull_event) :
    ∀ t ∈ (cull_send_run enc free g evs).1.ct_queued,
      t.tr_state = tr_state_t.TR_S_XML_CULL_SHA_SEND ∧ (t.tr_eof = 0 ∨ t.tr_eof = 1) := by
  unfold cull_send_run
  refine foldl_invariant (cull_send_step enc)
    (fun s => ∀ t ∈ s.1.ct_queued,
      t.tr_state = tr_state_t.TR_S_XML_CULL_SHA_SEND ∧ (t.tr_eof = 0 ∨ t.tr_eof = 1))
    ?_ evs _ ?_
  · intro s ev hs
    cases ev with
    | wakeup =>
      show ∀ t ∈ (ct_cull_send_shas enc s.1 s.2).1.ct_queued, _
      rcases cull_send_shas_queued enc s.1 s.2 with h | ⟨t0, h, h1, h2⟩
      · rw [h]; exact hs
      · rw [h]
        intro t ht
        rcases List.mem_append.1 ht with h3 | h3
        · exact hs t h3
        · rw [List.mem_singleton.1 h3]; exact ⟨h1, h2⟩
    | release => exact hs
    | die => exact hs
  · intro t ht
    cases ht

/-- C16: for a successfully parsed cull-shas reply, `ct_handle_xml_reply`
sets the state of the transaction to `DONE` if and only if `tr_eof = 1` and to
`XML_CULL_REPLIED` otherwise, and leaves the EOF flag alone;
`ct_cull_handle_complete` returns non-zero exactly when the flag is set and
wakes the driver exactly when it is clear. The flag of every transaction
`ct_cull_send_shas` queues is 0 or 1, and for such a transaction the
completion returns non-zero exactly when the state is `DONE` and wakes the
driver exactly when it is `XML_CULL_REPLIED`. -/
theorem cull_shas_reply_eof (reply : xml_reply) (state : ct_global_state) (t : ct_trans)
    (hs : t.tr_state = tr_state_t.TR_S_XML_CULL_SHA_SEND)
    (hp : reply.ct_parse_xml_cull_shas_reply = none) :
    (∃ r, ct_handle_xml_reply reply state t = some r ∧
      r.state = state ∧
      r.trans.tr_eof = t.tr_eof ∧
      (r.trans.tr_state = tr_state_t.TR_S_DONE ↔ t.tr_eof = 1) ∧
      (r.trans.tr_state = tr_state_t.TR_S_XML_CULL_REPLIED ↔ t.tr_eof ≠ 1) ∧
      ((ct_cull_handle_complete r.trans).1 ≠ 0 ↔ t.tr_eof ≠ 0) ∧
      ((ct_cull_handle_complete r.trans).2 = 1 ↔ t.tr_eof = 0) ∧
      ((ct_cull_handle_complete r.trans).2 = 0 ↔ t.tr_eof ≠ 0) ∧
      (t.tr_eof = 0 ∨ t.tr_eof = 1 →
        ((ct_cull_handle_complete r.trans).1 ≠ 0 ↔
          r.trans.tr_state = tr_state_t.TR_S_DONE) ∧
        ((ct_cull_handle_complete r.trans).2 = 1 ↔
          r.trans.tr_state = tr_state_t.TR_S_XML_CULL_REPLIED))) ∧
    (∀ (enc : Nat → List Sha → Nat → Except cte_t cull_shas_packet) (free : Nat)
      (g : cull_globals) (evs : List cull_event),
      ∀ q ∈ (cull_send_run enc free g evs).1.ct_queued,
        q.tr_state = tr_state_t.TR_S_XML_CULL_SHA_SEND ∧ (q.tr_eof = 0 ∨ q.tr_eof = 1)) := by
  refine ⟨?_, fun enc free g evs => cull_send_run_queued enc free g evs⟩
  by_cases he : t.tr_eof = 1
  · refine ⟨xml_just_queue state { t with tr_state := tr_state_t.TR_S_DONE } [], ?_, rfl, rfl,
      ?_, ?_, ?_, ?_, ?_, ?_⟩
    · simp only [ct_handle_xml_reply, hs, hp, if_pos he]
    · exact ⟨fun _ => he, fun _ => rfl⟩
    · constructor
      · intro h; cases h
      · intro h; exact absurd he h
    · simp [ct_cull_handle_complete, xml_just_queue, he]
    · simp [ct_cull_handle_complete, xml_just_queue, he]
    · simp [ct_cull_handle_complete, xml_just_queue, he]
    · intro _
      simp [ct_cull_handle_complete, xml_just_queue, he]
  · refine ⟨xml_just_queue state { t with tr_state := tr_state_t.TR_S_XML_CULL_REPLIED } [],
      ?_, rfl, rfl, ?_, ?_, ?_, ?_, ?_, ?_⟩
    · simp only [ct_handle_xml_reply, hs, hp, if_neg he]
    · constructor
      · intro h; cases h
      · intro h; exact absurd h he
    · exact ⟨fun _ => he, fun _ => rfl⟩
    · simp [ct_cull_handle_complete, xml_just_queue]
    · simp [ct_cull_handle_complete, xml_just_queue]
    · simp [ct_cull_handle_complete, xml_just_queue]
    · intro h01
      have h0 : t.tr_eof = 0 := by
        rcases h01 with h | h
        · exact h
        · exact absurd h he
      simp [ct_cull_handle_complete, xml_just_queue, h0]

/-- Witness of C16: the accepted reply to the final cull-shas transaction. -/
theorem cull_shas_reply_eof_witness :
    (∃ r, ct_handle_xml_reply reply_ok (ct_state_init 1) cull_shas_final = some r ∧
      r.state = ct_state_init 1 ∧
      r.trans.tr_eof = cull_shas_final.tr_eof ∧
      (r.trans.tr_state = tr_state_t.TR_S_DONE ↔ cull_shas_final.tr_eof = 1) ∧
      (r.trans.tr_state = tr_state_t.TR_S_XML_CULL_REPLIED ↔ cull_shas_final.tr_eof ≠ 1) ∧
      ((ct_cull_handle_complete r.trans).1 ≠ 0 ↔ cull_shas_final.tr_eof ≠ 0) ∧
      ((ct_cull_handle_complete r.trans).2 = 1 ↔ cull_shas_final.tr_eof = 0) ∧
      ((ct_cull_handle_complete r.trans).2 = 0 ↔ cull_shas_final.tr_eof ≠ 0) ∧
      (cull_shas_final.tr_eof = 0 ∨ cull_shas_final.tr_eof = 1 →
        ((ct_cull_handle_complete r.trans).1 ≠ 0 ↔
          r.trans.tr_state = tr_state_t.TR_S_DONE) ∧
        ((ct_cull_handle_complete r.trans).2 = 1 ↔
          r.trans.tr_state = tr_state_t.TR_S_XML_CULL_REPLIED))) ∧
    (∀ (enc : Nat → List Sha → Nat → Except cte_t cull_shas_packet) (free : Nat)
      (g : cull_globals) (evs : List cull_event),
      ∀ q ∈ (cull_send_run enc free g evs).1.ct_queued,
        q.tr_state = tr_state_t.TR_S_XML_CULL_SHA_SEND ∧ (q.tr_eof = 0 ∨ q.tr_eof = 1)) :=
  cull_shas_reply_eof reply_ok (ct_state_init 1) cull_shas_final rfl rfl

/-- The replies to a stream of two packets evaluated: the first transaction
(EOF clear) goes to `XML_CULL_REPLIED` and its completion returns 0 and wakes
the driver; the second (EOF set) goes to `DONE` and its completion returns 1
without a wakeup. -/
theorem cull_shas_reply_stream :
    ((cull_send_run (spec_create_xml_cull_shas (fun l => l.length)) 0
        (cull_globals_of [[1], [2], [3]] 2) (cull_evs_straight 2)).1.ct_queued.map
      (fun t => (ct_handle_xml_reply reply_ok (ct_state_init 0) t).map
        (fun r => (r.trans.tr_state, ct_cull_handle_complete r.trans)))) =
      [some (tr_state_t.TR_S_XML_CULL_REPLIED, (0, 1)), some (tr_state_t.TR_S_DONE, (1, 0))] := by
  decide

/-! ## List filtering -/

/-- The members of the result tree of the filter loop with an exclude set. -/
theorem ctfile_list_filter_mem_ex (m e : Name → Nat) (n : Name) :
    ∀ (files results : List Name),
      n ∈ ctfile_list_filter m (some e) files results ↔
        n ∈ results ∨ (n ∈ files ∧ m n = 0 ∧ e n = 1) := by
  intro files
  induction files with
  | nil => intro results; simp [ctfile_list_filter]
  | cons f rest ih =>
    intro results
    simp only [ctfile_list_filter, decide_eq_true_eq]
    split_ifs with h
    · rw [ih, ctfile_list_tree_insert_mem, List.mem_cons]
      constructor
      · rintro ((h1 | h1) | h1)
        · exact Or.inl h1
        · exact Or.inr ⟨Or.inl h1, h1 ▸ h.1, h1 ▸ h.2⟩
        · exact Or.inr ⟨Or.inr h1.1, h1.2⟩
      · rintro (h1 | ⟨h1 | h1, h2⟩)
        · exact Or.inl (Or.inl h1)
        · exact Or.inl (Or.inr h1)
        · exact Or.inr ⟨h1, h2⟩
    · rw [ih, List.mem_cons]
      constructor
      · rintro (h1 | h1)
        · exact Or.inl h1
        · exact Or.inr ⟨Or.inr h1.1, h1.2⟩
      · rintro (h1 | ⟨h1 | h1, h2⟩)
        · exact Or.inl h1
        · exact absurd (h1 ▸ h2) h
        · exact Or.inr ⟨h1, h2⟩

theorem ctfile_list_tree_link_sublist (file : Name) :
    ∀ tree : List Name, List.Sublist tree (ctfile_list_tree_link tree file) := by
  intro tree
  induction tree with
  | nil => simp [ctfile_list_tree_link]
  | cons x rest ih =>
    simp only [ctfile_list_tree_link]
    split_ifs
    · exact List.sublist_cons_self _ _
    · exact List.Sublist.cons₂ x ih

theorem ctfile_list_tree_insert_sublist (file : Name) (tree : List Name) :
    List.Sublist tree (ctfile_list_tree_insert tree file) := by
  unfold ctfile_list_tree_insert
  split_ifs
  · exact List.Sublist.refl _
  · exact ctfile_list_tree_link_sublist file tree

/-- The filter loop leaves the entries of the result tree in place and keeps
the names of the tree distinct. -/
theorem ctfile_list_filter_keeps (m : Name → Nat) (ex_match : Option (Name → Nat)) :
    ∀ (files results : List Name),
      List.Sublist results (ctfile_list_filter m ex_match files results) ∧
      (results.Nodup → (ctfile_list_filter m ex_match files results).Nodup) := by
  intro files
  induction files with
  | nil => intro results; exact ⟨List.Sublist.refl _, fun h => h⟩
  | cons f rest ih =>
    intro results
    simp only [ctfile_list_filter]
    split_ifs with h
    · refine ⟨(ctfile_list_tree_insert_sublist f results).trans (ih _).1, ?_⟩
      intro hn
      exact (ih _).2 (ctfile_list_tree_insert_nodup f results hn)
    · exact ih results

/-- C17: list filtering. For every non-empty list of names, an include
pattern set that compiles to the matcher `m` and, when an exclude set is
given, an exclude set that compiles to a matcher with the results 0 (match)
and 1 (no match), `ctfile_list_complete` returns 0, empties the input list,
and the result set afterwards holds exactly its former entries and the
listed names that match the include set and do not match the exclude set;
the former entries stay in place and distinct names stay distinct. For an
empty input list it returns 0 and leaves list and result set as they were,
whatever the pattern compiler would do. -/
theorem ctfile_list_complete_filters (compile : ct_match_compiler) (files : List Name)
    (mode : ct_match_mode) (flist : List Name) (excludelist : Option (List Name))
    (results : List Name) (m : Name → Nat)
    (hne : files ≠ [])
    (hm : compile mode flist = Except.ok m)
    (hex : ∀ ex, excludelist = some ex →
      ∃ ex_m, compile mode ex = Except.ok ex_m ∧ ∀ n, ex_m n = 0 ∨ ex_m n = 1) :
    (∃ res, ctfile_list_complete compile files mode flist excludelist results =
        (none, [], res) ∧
      (∀ n, n ∈ res ↔
        n ∈ results ∨
          (n ∈ files ∧ m n = 0 ∧
            ∀ ex ex_m, excludelist = some ex → compile mode ex = Except.ok ex_m →
              ex_m n ≠ 0)) ∧
      List.Sublist results res ∧
      (results.Nodup → res.Nodup)) ∧
    (∀ (compile1 : ct_match_compiler),
      ctfile_list_complete compile1 [] mode flist excludelist results =
        (none, [], results)) := by
  refine ⟨?_, fun compile1 => by simp [ctfile_list_complete]⟩
  cases hx : excludelist with
  | none =>
    refine ⟨ctfile_list_filter m none files results, ?_, ?_,
      (ctfile_list_filter_keeps m none files results).1,
      (ctfile_list_filter_keeps m none files results).2⟩
    · unfold ctfile_list_complete
      simp only [if_neg hne, hm]
    · intro n
      rw [ctfile_list_filter_mem]
      constructor
      · rintro (h | h)
        · exact Or.inl h
        · exact Or.inr ⟨h.1, h.2, fun ex ex_m he => by cases he⟩
      · rintro (h | h)
        · exact Or.inl h
        · exact Or.inr ⟨h.1, h.2.1⟩
  | some ex =>
    obtain ⟨ex_m, he, h01⟩ := hex ex hx
    refine ⟨ctfile_list_filter m (some ex_m) files results, ?_, ?_,
      (ctfile_list_filter_keeps m (some ex_m) files results).1,
      (ctfile_list_filter_keeps m (some ex_m) files results).2⟩
    · unfold ctfile_list_complete
      simp only [if_neg hne, hm, he]
    · intro n
      rw [ctfile_list_filter_mem_ex]
      constructor
      · rintro (h | h)
        · exact Or.inl h
        · refine Or.inr ⟨h.1, h.2.1, ?_⟩
          intro ex1 ex_m1 h1 h2
          cases h1
          rw [he] at h2
          cases h2
          rw [h.2.2]
          decide
      · rintro (h | h)
        · exact Or.inl h
        · refine Or.inr ⟨h.1, h.2.1, ?_⟩
          rcases h01 n with h0 | h1
          · exact absurd h0 (h.2.2 ex ex_m rfl he)
          · exact h1

/-- Witness of C17: a listing of three names filtered through the include set
of the names that start with `a` and the exclude set of those that start
with `x`. -/
theorem ctfile_list_complete_filters_witness :
    (∃ res, ctfile_list_complete compile_example [['a', 'b'], ['x'], ['a', 'x']]
          ct_match_mode.CT_MATCH_GLOB [['a']] (some [['x']]) [] = (none, [], res) ∧
      (∀ n, n ∈ res ↔
        n ∈ ([] : List Name) ∨
          (n ∈ ([['a', 'b'], ['x'], ['a', 'x']] : List Name) ∧
            (fun n : Name => if n.head? = some 'a' then 0 else 1) n = 0 ∧
            ∀ ex ex_m, some [['x']] = some ex →
              compile_example ct_match_mode.CT_MATCH_GLOB ex = Except.ok ex_m →
              ex_m n ≠ 0)) ∧
      List.Sublist [] res ∧
      (([] : List Name).Nodup → res.Nodup)) ∧
    (∀ (compile1 : ct_match_compiler),
      ctfile_list_complete compile1 [] ct_match_mode.CT_MATCH_GLOB [['a']] (some [['x']]) [] =
        (none, [], [])) :=
  ctfile_list_complete_filters compile_example [['a', 'b'], ['x'], ['a', 'x']]
    ct_match_mode.CT_MATCH_GLOB [['a']] (some [['x']]) []
    (fun n => if n.head? = some 'a' then 0 else 1)
    (by decide) rfl
    (by
      intro ex h
      cases h
      refine ⟨fun n => if n.head? = some 'x' then 0 else 1, rfl, ?_⟩
      intro n
      by_cases hx : n.head? = some 'x'
      · exact Or.inl (if_pos hx)
      · exact Or.inr (if_neg hx))

/-- The filter evaluated: with the exclude set the names `ab` and `ax` are
added to a result set that holds `aa`; an empty listing leaves the result
set alone even when the include set does not compile. -/
theorem ctfile_list_complete_examples :
    ctfile_list_complete compile_example [['a', 'b'], ['x'], ['a', 'x']]
        ct_match_mode.CT_MATCH_GLOB [['a']] (some [['x']]) [['a', 'a']] =
      (none, [], [['a', 'a'], ['a', 'b'], ['a', 'x']]) ∧
    ctfile_list_complete compile_example [['a', 'b'], ['x'], ['a', 'x']]
        ct_match_mode.CT_MATCH_GLOB [['a']] (some [['a', 'x']]) [] =
      (none, [], []) ∧
    ctfile_list_complete compile_example [] ct_match_mode.CT_MATCH_GLOB [] none [['a', 'a']] =
      (none, [], [['a', 'a']]) := by
  decide

/-! ## Cancellation -/

theorem step_idle_refl (state : ct_global_state) : step_idle state state :=
  ⟨rfl, rfl, rfl, rfl⟩

/-- C18: cancellation. Whenever the dying flag is set on entry, each of the
nine start functions of this file returns, in every file state and whatever
its other inputs are, without taking a transaction from the pool, without
queueing a transaction, without adding an operation and without changing
the file state. -/
theorem dying_cancels (state : ct_global_state) (hd : state.ct_dying = true) :
    (∀ (env : archive_env) (op : archive_op),
      step_idle state (ctfile_archive env state op).1) ∧
    (∀ (env : extract_env) (op : extract_op),
      step_idle state (ctfile_extract env state op).1) ∧
    (∀ (create : Except cte_t Nat), step_idle state (ctfile_list_start create state)) ∧
    (∀ (cook : Name → Option Name) (create : Name → Except cte_t Nat) (cda_name : Name),
      step_idle state (ctfile_delete cook create cda_name state)) ∧
    (∀ (cache : ctfile_cache) (size : Nat) (callback : Bool) (trees : ct_delete_trees),
      step_idle state (ctfile_delete_check_required cache size callback state trees).1) ∧
    (∀ (create : Nat → Except cte_t Nat) (arc4random : Nat) (g : cull_globals),
      step_idle state (ct_cull_setup create arc4random state g).1) ∧
    (∀ (enc : Nat → List Sha → Nat → Except cte_t cull_shas_packet) (g : cull_globals),
      step_idle state (ct_cull_send_shas enc state g).1) ∧
    (∀ (create : Nat → Except cte_t Nat) (g : cull_globals),
      step_idle state (ct_cull_send_complete create state g).1) ∧
    (∀ (cache : ctfile_cache) (size fuel keep_days : Nat) (buf : Name) (g : cull_globals)
      (tree : List ctfile_list_file),
      ∃ r, ct_cull_collect_ctfiles cache size fuel keep_days buf state g tree = some r ∧
        step_idle state r.1) := by
  refine ⟨?_, ?_, ?_, ?_, ?_, ?_, ?_, ?_, ?_⟩
  · intro env op
    unfold ctfile_archive
    rw [if_pos hd]
    unfold ctfile_archive_dying
    cases op.op_priv with
    | none => exact step_idle_refl state
    | some cas =>
      simp only
      split_ifs <;> exact ⟨rfl, rfl, rfl, rfl⟩
  · intro env op
    unfold ctfile_extract
    rw [if_pos hd, (ctfile_extract_dying_state state op).1]
    exact step_idle_refl state
  · intro create
    unfold ctfile_list_start
    rw [if_pos (Or.inr hd)]
    exact step_idle_refl state
  · intro cook create cda_name
    unfold ctfile_delete
    rw [if_pos (Or.inr hd)]
    exact step_idle_refl state
  · intro cache size callback trees
    unfold ctfile_delete_check_required
    split_ifs
    · exact step_idle_refl state
    · exact step_idle_refl state
  · intro create arc4random g
    unfold ct_cull_setup
    split_ifs
    · exact step_idle_refl state
    · exact step_idle_refl state
  · intro enc g
    unfold ct_cull_send_shas
    split_ifs
    · exact step_idle_refl state
    · exact step_idle_refl state
  · intro create g
    unfold ct_cull_send_complete
    split_ifs
    · exact step_idle_refl state
    · exact step_idle_refl state
  · intro cache size fuel keep_days buf g tree
    unfold ct_cull_collect_ctfiles
    split_ifs
    · exact ⟨_, rfl, step_idle_refl state⟩
    · exact ⟨_, rfl, step_idle_refl state⟩

/-- Witness of C18: a state in the middle of an operation on which the dying
flag was raised. -/
theorem dying_cancels_witness :
    (∀ (env : archive_env) (op : archive_op),
      step_idle state_dying (ctfile_archive env state_dying op).1) ∧
    (∀ (env : extract_env) (op : extract_op),
      step_idle state_dying (ctfile_extract env state_dying op).1) ∧
    (∀ (create : Except cte_t Nat),
      step_idle state_dying (ctfile_list_start create state_dying)) ∧
    (∀ (cook : Name → Option Name) (create : Name → Except cte_t Nat) (cda_name : Name),
      step_idle state_dying (ctfile_delete cook create cda_name state_dying)) ∧
    (∀ (cache : ctfile_cache) (size : Nat) (callback : Bool) (trees : ct_delete_trees),
      step_idle state_dying (ctfile_delete_check_required cache size callback state_dying trees).1) ∧
    (∀ (create : Nat → Except cte_t Nat) (arc4random : Nat) (g : cull_globals),
      step_idle state_dying (ct_cull_setup create arc4random state_dying g).1) ∧
    (∀ (enc : Nat → List Sha → Nat → Except cte_t cull_shas_packet) (g : cull_globals),
      step_idle state_dying (ct_cull_send_shas enc state_dying g).1) ∧
    (∀ (create : Nat → Except cte_t Nat) (g : cull_globals),
      step_idle state_dying (ct_cull_send_complete create state_dying g).1) ∧
    (∀ (cache : ctfile_cache) (size fuel keep_days : Nat) (buf : Name) (g : cull_globals)
      (tree : List ctfile_list_file),
      ∃ r, ct_cull_collect_ctfiles cache size fuel keep_days buf state_dying g tree = some r ∧
        step_idle state_dying r.1) :=
  dying_cancels state_dying rfl

/-! ## Extract driver: read requests -/

theorem ctfile_extract_dying_op (state : ct_global_state) (op : extract_op) :
    (ctfile_extract_dying state op).2.op_priv = none := by
  unfold ctfile_extract_dying
  cases h : op.op_priv with
  | none => exact h
  | some ces =>
    simp only
    split_ifs <;> rfl

theorem extract_queue_shape_nil (env : extract_env) (rname : Name) :
    extract_queue_shape env rname 0 [] :=
  ⟨[], by simp, (fun o ho => absurd ho (List.not_mem_nil o)), rfl⟩

/-- The invariant looks at the queue, the reference count and whether the file
state is `STARTING`; it passes to a state that agrees on these when the
private state is kept. -/
theorem extract_inv_congr (env : extract_env) (state state1 : ct_global_state)
    (op : extract_op) (h : extract_inv env state op)
    (hq : state1.ct_queued = state.ct_queued) (hr : state1.fnode_refs = state.fnode_refs)
    (hs : state1.ct_file_state = ct_file_state_t.CT_S_STARTING →
      state.ct_file_state = ct_file_state_t.CT_S_STARTING) :
    extract_inv env state1 op := by
  unfold extract_inv at h ⊢
  rw [hq, hr]
  exact ⟨fun h1 => h.1 (hs h1), h.2.1, h.2.2⟩

/-- The invariant passes to a state that agrees on queue and reference count
when the private state is dropped. -/
theorem extract_inv_dead (env : extract_env) (state state1 : ct_global_state)
    (op1 : extract_op)
    (hshape : ∃ rname k, extract_queue_shape env rname k state.ct_queued)
    (hstart : state1.ct_file_state = ct_file_state_t.CT_S_STARTING →
      state.ct_queued = [] ∧ state.fnode_refs = 0)
    (hq : state1.ct_queued = state.ct_queued) (hr : state1.fnode_refs = state.fnode_refs)
    (hop : op1.op_priv = none) :
    extract_inv env state1 op1 := by
  unfold extract_inv
  rw [hq, hr]
  refine ⟨fun h1 => ⟨(hstart h1).1, hop, (hstart h1).2⟩, ?_, hshape⟩
  intro ces hces
  rw [hop] at hces
  cases hces

theorem ct_xml_file_open_queued (create : Name → md_mode_t → Nat → Except cte_t Nat)
    (state : ct_global_state) (t : ct_trans) (file : Name) (mode : md_mode_t) (chunkno : Nat)
    (callback : ct_complete_fn) :
    ((ct_xml_file_open create state t file mode chunkno callback).ct_queued = state.ct_queued ∨
      ∃ o, (ct_xml_file_open create state t file mode chunkno callback).ct_queued =
          state.ct_queued ++ [o] ∧
        o.tr_state = tr_state_t.TR_S_XML_OPEN ∧ o.tr_type = t.tr_type) ∧
    (ct_xml_file_open create state t file mode chunkno callback).fnode_refs =
      state.fnode_refs := by
  unfold ct_xml_file_open
  cases create file mode chunkno with
  | error ret => exact ⟨Or.inl rfl, rfl⟩
  | ok c_size => exact ⟨Or.inr ⟨_, rfl, rfl, rfl⟩, rfl⟩

/-- The request part of `ctfile_extract` keeps the invariant. -/
theorem extract_request_inv (env : extract_env) (state : ct_global_state) (op : extract_op)
    (ces : ctfile_extract_state) (rname : Name)
    (hop : op.op_priv = some ces) (hrn : op.cca_remotename = some rname)
    (h0 : ces.ces_open_sent = 0 →
      state.ct_queued = [] ∧ ces.ces_block_no = 0 ∧ state.fnode_refs = 0)
    (h1 : ces.ces_open_sent ≠ 0 →
      extract_queue_shape env rname ces.ces_block_no state.ct_queued ∧
      state.fnode_refs = 1 + ces.ces_block_no) :
    extract_inv env (ctfile_extract_request env state op ces rname).1
      (ctfile_extract_request env state op ces rname).2 := by
  have hshape : ∃ rname k, extract_queue_shape env rname k state.ct_queued := by
    by_cases ho : ces.ces_open_sent = 0
    · rw [(h0 ho).1]
      exact ⟨rname, 0, extract_queue_shape_nil env rname⟩
    · exact ⟨rname, _, (h1 ho).1⟩
  cases hn : state.ct_trans_free_slots with
  | zero =>
    rw [extract_request_busy env state op ces rname hn]
    refine ⟨(fun h => by cases h), ?_, hshape⟩
    intro ces1 hces1
    rw [hop] at hces1
    cases hces1
    exact ⟨rname, hrn, h0, h1⟩
  | succ n =>
    by_cases ho : ces.ces_open_sent = 0
    · rw [extract_request_open env state op ces rname n hn ho]
      obtain ⟨hq, hb, hr⟩ := h0 ho
      have hsh : extract_queue_shape env rname ces.ces_block_no
          (ct_set_file_state
            (ct_xml_file_open env.ct_create_xml_open
              { ct_set_file_state state ct_file_state_t.CT_S_RUNNING with
                ct_trans_free_slots := n
                fnode_refs := state.fnode_refs + 1 }
              { ct_trans_zero with
                tr_statemachine := ct_statemachine_t.ct_state_ctfile_extract
                tr_fl_node := true }
              rname md_mode_t.MD_O_READ 0 ct_complete_fn.ctfile_extract_complete_open)
            ct_file_state_t.CT_S_WAITING_SERVER).ct_queued ∧
          (ct_set_file_state
            (ct_xml_file_open env.ct_create_xml_open
              { ct_set_file_state state ct_file_state_t.CT_S_RUNNING with
                ct_trans_free_slots := n
                fnode_refs := state.fnode_refs + 1 }
              { ct_trans_zero with
                tr_statemachine := ct_statemachine_t.ct_state_ctfile_extract
                tr_fl_node := true }
              rname md_mode_t.MD_O_READ 0 ct_complete_fn.ctfile_extract_complete_open)
            ct_file_state_t.CT_S_WAITING_SERVER).fnode_refs = 1 + ces.ces_block_no := by
        rw [hb]
        obtain ⟨hxq, hxr⟩ := ct_xml_file_open_queued env.ct_create_xml_open
          { ct_set_file_state state ct_file_state_t.CT_S_RUNNING with
            ct_trans_free_slots := n
            fnode_refs := state.fnode_refs + 1 }
          { ct_trans_zero with
            tr_statemachine := ct_statemachine_t.ct_state_ctfile_extract
            tr_fl_node := true }
          rname md_mode_t.MD_O_READ 0 ct_complete_fn.ctfile_extract_complete_open
        refine ⟨?_, ?_⟩
        · rcases hxq with hx | ⟨o, hx, ho1, ho2⟩
          · refine ⟨[], by simp, (fun o ho => absurd ho (List.not_mem_nil o)), ?_⟩
            show (ct_xml_file_open _ _ _ _ _ _ _).ct_queued = _
            rw [hx]
            exact hq
          · refine ⟨[o], by simp, ?_, ?_⟩
            · intro o1 ho1m
              rw [List.mem_singleton.1 ho1m]
              exact ⟨ho1, ho2⟩
            · show (ct_xml_file_open _ _ _ _ _ _ _).ct_queued = _
              rw [hx]
              show state.ct_queued ++ [o] = _
              rw [hq]
              rfl
        · show (ct_xml_file_open _ _ _ _ _ _ _).fnode_refs = _
          rw [hxr]
          show state.fnode_refs + 1 = 1 + 0
          omega
      refine ⟨(fun h => by cases h), ?_, ⟨rname, _, hsh.1⟩⟩
      intro ces1 hces1
      simp only [Option.some.injEq] at hces1
      subst hces1
      refine ⟨rname, hrn, (fun h => by cases h), fun _ => hsh⟩
    · obtain ⟨⟨opens, hl, hopens, hq⟩, hr⟩ := h1 ho
      cases hiv : env.ct_create_iv_ctfile ces.ces_block_no with
      | none =>
        rw [extract_request_read env state op ces rname n hn ho hiv]
        have hsh : extract_queue_shape env rname (ces.ces_block_no + 1)
            (state.ct_queued ++ [read_request env rname ces.ces_block_no]) := by
          refine ⟨opens, hl, hopens, ?_⟩
          rw [hq, List.range_succ, List.map_append, List.append_assoc]
          rfl
        refine ⟨(fun h => by cases h), ?_, ⟨rname, _, hsh⟩⟩
        intro ces1 hces1
        simp only [Option.some.injEq] at hces1
        subst hces1
        refine ⟨rname, hrn, (fun h => absurd h ho), fun _ => ⟨hsh, ?_⟩⟩
        show state.fnode_refs + 1 = 1 + (ces.ces_block_no + 1)
        omega
      | some ret =>
        rw [extract_request_iv_fail env state op ces rname n ret hn ho hiv,
          ← Prod.mk.eta (p := ctfile_extract_dying _ _), (ctfile_extract_dying_state _ _).1]
        refine ⟨(fun h => by cases h), ?_, hshape⟩
        intro ces1 hces1
        rw [ctfile_extract_dying_op] at hces1
        cases hces1

/-- One invocation of `ctfile_extract` keeps the invariant. -/
theorem ctfile_extract_inv (env : extract_env) (state : ct_global_state) (op : extract_op)
    (h : extract_inv env state op) :
    extract_inv env (ctfile_extract env state op).1 (ctfile_extract env state op).2 := by
  obtain ⟨hA, hB, hC⟩ := h
  have hdead : ∀ (code : cte_t) (op1 : extract_op),
      state.ct_file_state = ct_file_state_t.CT_S_STARTING →
      extract_inv env (ctfile_extract_dying (ct_fatal state code) op1).1
        (ctfile_extract_dying (ct_fatal state code) op1).2 := by
    intro code op1 hfs
    refine extract_inv_dead env state _ _ hC (fun _ => ⟨(hA hfs).1, (hA hfs).2.2⟩) ?_ ?_
      (ctfile_extract_dying_op _ _)
    · rw [(ctfile_extract_dying_state _ _).1]; rfl
    · rw [(ctfile_extract_dying_state _ _).1]; rfl
  unfold ctfile_extract
  by_cases hd : state.ct_dying = true
  · rw [if_pos hd]
    refine extract_inv_dead env state _ _ hC (fun h1 => ?_) ?_ ?_ (ctfile_extract_dying_op _ _)
    · rw [(ctfile_extract_dying_state _ _).1] at h1
      exact ⟨(hA h1).1, (hA h1).2.2⟩
    · rw [(ctfile_extract_dying_state _ _).1]
    · rw [(ctfile_extract_dying_state _ _).1]
  · rw [if_neg hd]
    cases hfs : state.ct_file_state with
    | CT_S_STARTING =>
      simp only
      cases hc : (match op.cca_remotename with
          | some rname => some rname
          | none => env.ctfile_cook_name env.cca_localname) with
      | none =>
        simp only
        exact hdead _ _ hfs
      | some rname =>
        simp only
        cases env.ct_file_extract_init with
        | some ret =>
          simp only
          exact hdead _ _ hfs
        | none =>
          simp only
          exact extract_request_inv env state _ _ rname rfl rfl
            (fun _ => ⟨(hA hfs).1, rfl, (hA hfs).2.2⟩) (fun h => absurd rfl h)
    | CT_S_WAITING_SERVER => exact ⟨hA, hB, hC⟩
    | CT_S_FINISHED => exact ⟨hA, hB, hC⟩
    | CT_S_RUNNING =>
      simp only
      cases hp : op.op_priv with
      | none => exact ⟨hA, hB, hC⟩
      | some ces =>
        cases hr : op.cca_remotename with
        | none => exact ⟨hA, hB, hC⟩
        | some rname =>
          simp only
          obtain ⟨rname1, hr1, h0, h1⟩ := hB ces hp
          rw [hr] at hr1
          cases hr1
          exact extract_request_inv env state op ces rname hp hr h0 h1
    | CT_S_WAITING_TRANS =>
      simp only
      cases hp : op.op_priv with
      | none => exact ⟨hA, hB, hC⟩
      | some ces =>
        cases hr : op.cca_remotename with
        | none => exact ⟨hA, hB, hC⟩
        | some rname =>
          simp only
          obtain ⟨rname1, hr1, h0, h1⟩ := hB ces hp
          rw [hr] at hr1
          cases hr1
          exact extract_request_inv env state op ces rname hp hr h0 h1

theorem ctfile_extract_handle_eof_queued (close : Except cte_t Nat) (state : ct_global_state)
    (t : ct_trans) :
    (ctfile_extract_handle_eof close state t).1.ct_queued = state.ct_queued ∧
    (ctfile_extract_handle_eof close state t).1.fnode_refs = state.fnode_refs ∧
    ((ctfile_extract_handle_eof close state t).1.ct_file_state =
        ct_file_state_t.CT_S_STARTING →
      state.ct_file_state = ct_file_state_t.CT_S_STARTING) := by
  unfold ctfile_extract_handle_eof
  split_ifs with h
  · cases close with
    | error ret => exact ⟨rfl, rfl, fun h1 => by cases h1⟩
    | ok c_size => exact ⟨rfl, rfl, fun h1 => by cases h1⟩
  · exact ⟨rfl, rfl, fun h1 => h1⟩

/-- The invariant holds all along every extract run. -/
theorem extract_run_inv (env : extract_env) (free : Nat) (rname : Option Name)
    (evs : List extract_event) :
    extract_inv env (extract_run env free rname evs).state
      (extract_run env free rname evs).op := by
  unfold extract_run
  refine foldl_invariant (extract_step env) (fun s => extract_inv env s.state s.op)
    ?_ evs _ ?_
  · intro s ev hs
    cases ev with
    | wakeup => exact ctfile_extract_inv env s.state s.op hs
    | release => exact extract_inv_congr env s.state _ s.op hs rfl rfl (fun h => h)
    | open_reply =>
      simp only [extract_step]
      split_ifs with hc
      · refine extract_inv_congr env s.state _ s.op hs ?_ ?_ ?_
        · unfold ctfile_extract_complete_open ctfile_xml_open_complete
          cases env.ct_file_extract_open <;> rfl
        · unfold ctfile_extract_complete_open ctfile_xml_open_complete
          cases env.ct_file_extract_open <;> rfl
        · unfold ctfile_extract_complete_open ctfile_xml_open_complete
          cases env.ct_file_extract_open <;> simp [ct_fatal, ct_set_file_state]
      · exact hs
    | eof t =>
      have h := ctfile_extract_handle_eof_queued env.ct_create_xml_close s.state t
      exact extract_inv_congr env s.state _ s.op hs h.1 h.2.1 h.2.2
    | die => exact extract_inv_congr env s.state _ s.op hs rfl rfl (fun h => h)
  · refine ⟨fun _ => ⟨rfl, rfl, rfl⟩, ?_, ⟨[], 0, extract_queue_shape_nil env []⟩⟩
    intro ces hces
    cases hces

/-- The read-chunk transactions of a queue with the shape of an extract queue
are the read requests for the chunks `0` to `k - 1`. -/
theorem read_chunks_shape (env : extract_env) (rname : Name) (k : Nat) (q : List ct_trans)
    (h : extract_queue_shape env rname k q) :
    read_chunks q = (List.range k).map (read_request env rname) := by
  obtain ⟨opens, _, hopens, hq⟩ := h
  rw [hq]
  unfold read_chunks
  rw [List.filter_append]
  have h1 : opens.filter (fun t => decide (t.tr_type = tr_type_t.TR_T_READ_CHUNK)) = [] := by
    rw [List.filter_eq_nil_iff]
    intro o ho
    rw [(hopens o ho).2]
    decide
  have h2 : ((List.range k).map (read_request env rname)).filter
      (fun t => decide (t.tr_type = tr_type_t.TR_T_READ_CHUNK)) =
      (List.range k).map (read_request env rname) := by
    rw [List.filter_eq_self]
    intro t ht
    obtain ⟨i, _, rfl⟩ := List.mem_map.1 ht
    rfl
  rw [h1, h2]
  rfl

/-- One invocation of the request part queues nothing or one transaction; a
read request comes with one more reference on the fnode. -/
theorem extract_request_queued (env : extract_env) (state : ct_global_state) (op : extract_op)
    (ces : ctfile_extract_state) (rname : Name) :
    (ctfile_extract_request env state op ces rname).1.ct_queued = state.ct_queued ∨
    ∃ t, (ctfile_extract_request env state op ces rname).1.ct_queued =
        state.ct_queued ++ [t] ∧
      (t.tr_type = tr_type_t.TR_T_READ_CHUNK →
        (ctfile_extract_request env state op ces rname).1.fnode_refs = state.fnode_refs + 1 ∧
        t.tr_fl_node = true) := by
  cases hn : state.ct_trans_free_slots with
  | zero =>
    rw [extract_request_busy env state op ces rname hn]
    exact Or.inl rfl
  | succ n =>
    by_cases ho : ces.ces_open_sent = 0
    · rw [extract_request_open env state op ces rname n hn ho]
      rcases (ct_xml_file_open_queued env.ct_create_xml_open
          { ct_set_file_state state ct_file_state_t.CT_S_RUNNING with
            ct_trans_free_slots := n
            fnode_refs := state.fnode_refs + 1 }
          { ct_trans_zero with
            tr_statemachine := ct_statemachine_t.ct_state_ctfile_extract
            tr_fl_node := true }
          rname md_mode_t.MD_O_READ 0 ct_complete_fn.ctfile_extract_complete_open).1
        with hx | ⟨o, hx, _, ho2⟩
      · exact Or.inl hx
      · refine Or.inr ⟨o, hx, ?_⟩
        intro h
        rw [ho2] at h
        cases h
    · cases hiv : env.ct_create_iv_ctfile ces.ces_block_no with
      | none =>
        rw [extract_request_read env state op ces rname n hn ho hiv]
        exact Or.inr ⟨_, rfl, fun _ => ⟨rfl, rfl⟩⟩
      | some ret =>
        rw [extract_request_iv_fail env state op ces rname n ret hn ho hiv,
          (ctfile_extract_dying_state _ _).1]
        exact Or.inl rfl

/-- One invocation of `ctfile_extract` queues nothing or one transaction; a
read request comes with one more reference on the fnode. -/
theorem ctfile_extract_queued (env : extract_env) (state : ct_global_state)
    (op : extract_op) :
    (ctfile_extract env state op).1.ct_queued = state.ct_queued ∨
    ∃ t, (ctfile_extract env state op).1.ct_queued = state.ct_queued ++ [t] ∧
      (t.tr_type = tr_type_t.TR_T_READ_CHUNK →
        (ctfile_extract env state op).1.fnode_refs = state.fnode_refs + 1 ∧
        t.tr_fl_node = true) := by
  unfold ctfile_extract
  by_cases hd : state.ct_dying = true
  · rw [if_pos hd, (ctfile_extract_dying_state _ _).1]
    exact Or.inl rfl
  · rw [if_neg hd]
    cases hfs : state.ct_file_state with
    | CT_S_STARTING =>
      simp only
      cases hc : (match op.cca_remotename with
          | some rname => some rname
          | none => env.ctfile_cook_name env.cca_localname) with
      | none =>
        simp only
        rw [(ctfile_extract_dying_state _ _).1]
        exact Or.inl rfl
      | some rname =>
        simp only
        cases env.ct_file_extract_init with
        | some ret =>
          simp only
          rw [(ctfile_extract_dying_state _ _).1]
          exact Or.inl rfl
        | none =>
          simp only
          exact extract_request_queued env state _ _ rname
    | CT_S_WAITING_SERVER => exact Or.inl rfl
    | CT_S_FINISHED => exact Or.inl rfl
    | CT_S_RUNNING =>
      simp only
      cases hp : op.op_priv with
      | none => exact Or.inl rfl
      | some ces =>
        cases hr : op.cca_remotename with
        | none => exact Or.inl rfl
        | some rname =>
          simp only
          exact extract_request_queued env state op ces rname
    | CT_S_WAITING_TRANS =>
      simp only
      cases hp : op.op_priv with
      | none => exact Or.inl rfl
      | some ces =>
        cases hr : op.cca_remotename with
        | none => exact Or.inl rfl
        | some rname =>
          simp only
          exact extract_request_queued env state op ces rname

/-- In the file states `FINISHED` and `WAITING_SERVER` an invocation of
`ctfile_extract` leaves the global state as it is. -/
theorem ctfile_extract_waits (env : extract_env) (state : ct_global_state) (op : extract_op)
    (h : state.ct_file_state = ct_file_state_t.CT_S_FINISHED ∨
      state.ct_file_state = ct_file_state_t.CT_S_WAITING_SERVER) :
    (ctfile_extract env state op).1 = state := by
  unfold ctfile_extract
  by_cases hd : state.ct_dying = true
  · rw [if_pos hd, (ctfile_extract_dying_state _ _).1]
  · rw [if_neg hd]
    rcases h with h | h <;> simp [h]

/-- C19: extract read requests. For every extract run (any environment, pool
size, remote name and order of invocations, releases, replies, ends of stream
and the dying flag): the queue holds at most one xml-open followed by the
read requests, the `k`-th of which (counted from 0) carries chunk number
`k`, so the chunk numbers of the queued read requests are `0, 1, 2, ...`
without gaps or repeats; every read request has the `METADATA` flag set,
`ex_status` 2 and the fnode attached; while the private state lives and the
open has been sent, the references taken on the fnode are one for the
allocation and one per read request queued. Every single invocation of
`ctfile_extract` queues nothing or exactly one transaction, and a read
request only together with one more reference; in the file states
`FINISHED` and `WAITING_SERVER` it leaves the global state as it is. -/
theorem extract_read_requests (env : extract_env) (free : Nat) (rname : Option Name)
    (evs : List extract_event) :
    (∃ r k, extract_queue_shape env r k (extract_run env free rname evs).state.ct_queued ∧
      read_chunks (extract_run env free rname evs).state.ct_queued =
        (List.range k).map (read_request env r)) ∧
    (read_chunks (extract_run env free rname evs).state.ct_queued).map
        (fun t => t.tr_ctfile_chunkno) =
      List.range (read_chunks (extract_run env free rname evs).state.ct_queued).length ∧
    (∀ t ∈ read_chunks (extract_run env free rname evs).state.ct_queued,
      t.c_flags &&& env.C_HDR_F_METADATA = env.C_HDR_F_METADATA ∧
      t.c_ex_status = 2 ∧ t.tr_fl_node = true) ∧
    (∀ ces, (extract_run env free rname evs).op.op_priv = some ces →
      ces.ces_open_sent ≠ 0 →
      (extract_run env free rname evs).state.fnode_refs =
        1 + (read_chunks (extract_run env free rname evs).state.ct_queued).length) ∧
    (∀ (state : ct_global_state) (op : extract_op),
      (ctfile_extract env state op).1.ct_queued = state.ct_queued ∨
      ∃ t, (ctfile_extract env state op).1.ct_queued = state.ct_queued ++ [t] ∧
        (t.tr_type = tr_type_t.TR_T_READ_CHUNK →
          (ctfile_extract env state op).1.fnode_refs = state.fnode_refs + 1 ∧
          t.tr_fl_node = true)) ∧
    (∀ (state : ct_global_state) (op : extract_op),
      state.ct_file_state = ct_file_state_t.CT_S_FINISHED ∨
        state.ct_file_state = ct_file_state_t.CT_S_WAITING_SERVER →
      (ctfile_extract env state op).1 = state) := by
  obtain ⟨_, hB, r, k, hC⟩ := extract_run_inv env free rname evs
  have hreads := read_chunks_shape env r k _ hC
  refine ⟨⟨r, k, hC, hreads⟩, ?_, ?_, ?_, ctfile_extract_queued env, ctfile_extract_waits env⟩
  · rw [hreads, List.map_map, List.length_map, List.length_range]
    exact List.map_id _
  · intro t ht
    rw [hreads] at ht
    obtain ⟨i, _, rfl⟩ := List.mem_map.1 ht
    refine ⟨?_, rfl, rfl⟩
    show (0 ||| env.C_HDR_F_METADATA) &&& env.C_HDR_F_METADATA = env.C_HDR_F_METADATA
    rw [Nat.zero_or, Nat.and_self]
  · intro ces hces ho
    obtain ⟨r1, _, _, h1⟩ := hB ces hces
    obtain ⟨hsh, hrefs⟩ := h1 ho
    rw [hrefs, read_chunks_shape env r1 ces.ces_block_no _ hsh, List.length_map,
      List.length_range]

/-- An extract run with a suspension evaluated: the queued read requests carry
the chunk numbers 0 and 1, three references were taken (the allocation and
two read requests), and after the end of the stream the invocations queue
nothing more. -/
theorem extract_scenario_suspended :
    (read_chunks (extract_run env_extract 2 none evs_extract_suspended).state.ct_queued).map
        (fun t => (t.tr_ctfile_chunkno, t.c_flags, t.c_ex_status)) =
      [(0, 4, 2), (1, 4, 2)] ∧
    (extract_run env_extract 2 none evs_extract_suspended).state.ct_queued.length = 3 ∧
    (extract_run env_extract 2 none evs_extract_suspended).state.fnode_refs = 3 ∧
    (extract_run env_extract 2 none evs_extract_suspended).state.ct_file_state =
      ct_file_state_t.CT_S_FINISHED := by
  decide

/-! ## Polled open -/

/-- C20: polled open I/O failures. For every outcome of the codec and of the
four timed I/O steps of `ct_xml_file_open_polled`: a failure to build the
open packet is returned as its error code with no I/O step performed; when
the packet is built, a header write that transfers fewer bytes than
requested returns `SHORT_WRITE` after that one step; a body write that does
so returns `SHORT_WRITE` with no read performed; a header read that
transfers fewer bytes than requested returns `SHORT_READ` without the body
read; and a body read that does so returns `SHORT_READ`. -/
theorem polled_open_short_io (env : polled_env) (file : Name) (mode : md_mode_t)
    (chunkno : Nat) :
    (∀ rv, env.ct_create_xml_open file mode chunkno = Except.error rv →
      ct_xml_file_open_polled env file mode chunkno = (some rv, [])) ∧
    (∀ sz, env.ct_create_xml_open file mode chunkno = Except.ok sz →
      (env.write_header < (env.sizeof_hdr : Int) →
        ct_xml_file_open_polled env file mode chunkno =
          (some cte_t.CTE_SHORT_WRITE, [io_step.write_header])) ∧
      (env.write_header = (env.sizeof_hdr : Int) → env.write_body < (sz : Int) →
        ct_xml_file_open_polled env file mode chunkno =
          (some cte_t.CTE_SHORT_WRITE, [io_step.write_header, io_step.write_body])) ∧
      (env.write_header = (env.sizeof_hdr : Int) → env.write_body = (sz : Int) →
        env.read_header < (env.sizeof_hdr : Int) →
        ct_xml_file_open_polled env file mode chunkno =
          (some cte_t.CTE_SHORT_READ,
            [io_step.write_header, io_step.write_body, io_step.read_header])) ∧
      (env.write_header = (env.sizeof_hdr : Int) → env.write_body = (sz : Int) →
        env.read_header = (env.sizeof_hdr : Int) →
        env.read_body < (env.reply_c_size : Int) →
        ct_xml_file_open_polled env file mode chunkno =
          (some cte_t.CTE_SHORT_READ,
            [io_step.write_header, io_step.write_body, io_step.read_header,
              io_step.read_body]))) := by
  refine ⟨?_, ?_⟩
  · intro rv h
    unfold ct_xml_file_open_polled
    rw [h]
  · intro sz h
    unfold ct_xml_file_open_polled
    rw [h]
    refine ⟨?_, ?_, ?_, ?_⟩
    · intro h1
      simp only [if_pos (ne_of_lt h1)]
    · intro h1 h2
      simp only [h1, ne_eq, not_true_eq_false, if_false, if_pos (ne_of_lt h2)]
    · intro h1 h2 h3
      simp only [h1, h2, ne_eq, not_true_eq_false, if_false, if_pos (ne_of_lt h3)]
    · intro h1 h2 h3 h4
      simp only [h1, h2, h3, ne_eq, not_true_eq_false, if_false, if_pos (ne_of_lt h4)]

/-- The polled open evaluated on each failure in turn and on success: the
packet that cannot be built, the short header write, the short body write,
the short header read, the short body read, and the complete exchange. -/
theorem polled_open_examples :
    ct_xml_file_open_polled
        { env_polled with ct_create_xml_open := fun _ _ _ => Except.error (cte_t.CTE_OTHER 3) }
        ['f'] md_mode_t.MD_O_READ 0 = (some (cte_t.CTE_OTHER 3), []) ∧
    ct_xml_file_open_polled { env_polled with write_header := 10 }
        ['f'] md_mode_t.MD_O_READ 0 = (some cte_t.CTE_SHORT_WRITE, [io_step.write_header]) ∧
    ct_xml_file_open_polled { env_polled with write_body := -1 }
        ['f'] md_mode_t.MD_O_READ 0 =
      (some cte_t.CTE_SHORT_WRITE, [io_step.write_header, io_step.write_body]) ∧
    ct_xml_file_open_polled { env_polled with read_header := 0 }
        ['f'] md_mode_t.MD_O_READ 0 =
      (some cte_t.CTE_SHORT_READ,
        [io_step.write_header, io_step.write_body, io_step.read_header]) ∧
    ct_xml_file_open_polled { env_polled with read_body := 59 }
        ['f'] md_mode_t.MD_O_READ 0 =
      (some cte_t.CTE_SHORT_READ,
        [io_step.write_header, io_step.write_body, io_step.read_header,
          io_step.read_body]) ∧
    ct_xml_file_open_polled env_polled ['f'] md_mode_t.MD_O_READ 0 =
      (none, [io_step.write_header, io_step.write_body, io_step.read_header,
        io_step.read_body]) := by
  decide

/-! ## Cull: the predecessor walk on a cycle -/

/-- One round of the walk on the file that names itself: the keep counter
goes up by one and the walk follows the same name again. -/
theorem cull_walk_step_self (k : Nat) :
    cull_walk_step cache_self 256 [⟨name_new, k⟩] name_new =
      ([⟨name_new, k + 1⟩], some (some name_new)) := by
  have h1 : strncpy name_new 256 = name_new := by decide
  have h2 : ctfile_get_previous cache_self name_new = Except.ok (some name_new) := by
    simp [ctfile_get_previous, cache_self]
  unfold cull_walk_step
  rw [h1]
  simp [cull_tree_find, cull_tree_keep_incr, h2]

/-- The rounds of the walk on the two files that name each other. -/
theorem cull_walk_step_cycle (a b : Nat) :
    cull_walk_step cache_cycle 256 [⟨name_old, a⟩, ⟨name_new, b⟩] name_old =
      ([⟨name_old, a + 1⟩, ⟨name_new, b⟩], some (some name_new)) ∧
    cull_walk_step cache_cycle 256 [⟨name_old, a⟩, ⟨name_new, b⟩] name_new =
      ([⟨name_old, a⟩, ⟨name_new, b + 1⟩], some (some name_old)) := by
  have h1 : strncpy name_old 256 = name_old := by decide
  have h2 : strncpy name_new 256 = name_new := by decide
  have hne : name_old ≠ name_new := by decide
  have h3 : ctfile_get_previous cache_cycle name_old = Except.ok (some name_new) := by
    simp [ctfile_get_previous, cache_cycle, hne]
  have h4 : ctfile_get_previous cache_cycle name_new = Except.ok (some name_old) := by
    simp [ctfile_get_previous, cache_cycle]
  constructor
  · unfold cull_walk_step
    rw [h1]
    simp [cull_tree_find, cull_tree_keep_incr, h3, hne, hne.symm]
  · unfold cull_walk_step
    rw [h2]
    simp [cull_tree_find, cull_tree_keep_incr, h4, hne, hne.symm]

theorem cull_walk_rounds_self :
    ∀ n k, cull_walk_rounds cache_self 256 n [⟨name_new, k⟩] (some name_new) =
      ([⟨name_new, k + n⟩], some (some name_new)) := by
  intro n
  induction n with
  | zero => intro k; rfl
  | succ n ih =>
    intro k
    rw [cull_walk_rounds, cull_walk_step_self]
    simp only
    rw [ih (k + 1)]
    have : k + 1 + n = k + (n + 1) := by omega
    rw [this]

theorem cull_walk_self :
    ∀ fuel k, cull_walk cache_self 256 fuel [⟨name_new, k⟩] (some name_new) = none := by
  intro fuel
  induction fuel with
  | zero => intro k; rfl
  | succ fuel ih =>
    intro k
    rw [cull_walk, cull_walk_step_self]
    exact ih (k + 1)

theorem cull_walk_rounds_cycle :
    ∀ n a b,
      (∃ p, (cull_walk_rounds cache_cycle 256 n [⟨name_old, a⟩, ⟨name_new, b⟩]
        (some name_old)).2 = some (some p)) ∧
      (∃ p, (cull_walk_rounds cache_cycle 256 n [⟨name_old, a⟩, ⟨name_new, b⟩]
        (some name_new)).2 = some (some p)) := by
  intro n
  induction n with
  | zero => intro a b; exact ⟨⟨_, rfl⟩, ⟨_, rfl⟩⟩
  | succ n ih =>
    intro a b
    constructor
    · rw [cull_walk_rounds, (cull_walk_step_cycle a b).1]
      exact (ih (a + 1) b).2
    · rw [cull_walk_rounds, (cull_walk_step_cycle a b).2]
      exact (ih a (b + 1)).1

theorem cull_walk_cycle :
    ∀ fuel a b,
      cull_walk cache_cycle 256 fuel [⟨name_old, a⟩, ⟨name_new, b⟩] (some name_old) = none ∧
      cull_walk cache_cycle 256 fuel [⟨name_old, a⟩, ⟨name_new, b⟩] (some name_new) = none := by
  intro fuel
  induction fuel with
  | zero => intro a b; exact ⟨rfl, rfl⟩
  | succ fuel ih =>
    intro a b
    constructor
    · rw [cull_walk, (cull_walk_step_cycle a b).1]
      exact (ih (a + 1) b).2
    · rw [cull_walk, (cull_walk_step_cycle a b).2]
      exact (ih a (b + 1)).1

/-- With the file that names itself in the set, `ct_cull_collect_ctfiles` does
not return, whatever the fuel. -/
theorem cull_collect_self (fuel : Nat) :
    ct_cull_collect_ctfiles cache_self 256 fuel 7 buf_example (ct_state_init 0)
      (cull_globals_of [] 1000) [⟨name_new, 0⟩] = none := by
  have hp1 : cull_collect_pass1 buf_example [⟨name_new, 0⟩] = ([⟨name_new, 1⟩], 1, 1) := by
    decide
  have hprev : ctfile_get_previous cache_self name_new = Except.ok (some name_new) := by
    simp [ctfile_get_previous, cache_self]
  have hp2 : cull_collect_pass2 cache_self 256 fuel [name_new] [⟨name_new, 1⟩] = none := by
    simp [cull_collect_pass2, cull_tree_find, hprev, cull_walk_self]
  unfold ct_cull_collect_ctfiles
  rw [hp1]
  simp [ct_state_init, hp2]

/-- With the two files that name each other in the set, the newer one kept by
its date, `ct_cull_collect_ctfiles` does not return, whatever the fuel. -/
theorem cull_collect_cycle (fuel : Nat) :
    ct_cull_collect_ctfiles cache_cycle 256 fuel 7 buf_example (ct_state_init 0)
      (cull_globals_of [] 1000) [⟨name_old, 0⟩, ⟨name_new, 0⟩] = none := by
  have hp1 : cull_collect_pass1 buf_example [⟨name_old, 0⟩, ⟨name_new, 0⟩] =
      ([⟨name_old, 0⟩, ⟨name_new, 1⟩], 1, 2) := by
    decide
  have hne : name_old ≠ name_new := by decide
  have hprev : ctfile_get_previous cache_cycle name_new = Except.ok (some name_old) := by
    simp [ctfile_get_previous, cache_cycle]
  have hp2 : cull_collect_pass2 cache_cycle 256 fuel [name_old, name_new]
      [⟨name_old, 0⟩, ⟨name_new, 1⟩] = none := by
    simp [cull_collect_pass2, cull_tree_find, hprev, hne, hne.symm,
      (cull_walk_cycle fuel 0 1).1]
  unfold ct_cull_collect_ctfiles
  rw [hp1]
  simp [ct_state_init, hp2]

/-- C21: the predecessor walk of `ct_cull_collect_ctfiles` is not guarded
against cycles. In the set of one listed file, kept by its date, whose manifest
names itself as predecessor, and in the set of two listed files that name
each other, the newer one kept by its date: after every number of rounds of
`prev_ct_file:` the walk is still about to follow a predecessor (in
particular after as many rounds as there are files), the walk does not end
with any fuel, and `ct_cull_collect_ctfiles` does not return with any fuel. -/
theorem cull_walk_cycle_never_ends :
    (cull_link cache_self [name_new] name_new name_new ∧
      ¬ cull_old buf_example name_new ∧
      (∀ n, (cull_walk_rounds cache_self 256 n [⟨name_new, 1⟩] (some name_new)).2 =
        some (some name_new)) ∧
      (∀ fuel, cull_walk cache_self 256 fuel [⟨name_new, 1⟩] (some name_new) = none) ∧
      (∀ fuel, ct_cull_collect_ctfiles cache_self 256 fuel 7 buf_example (ct_state_init 0)
        (cull_globals_of [] 1000) [⟨name_new, 0⟩] = none)) ∧
    (cull_link cache_cycle [name_old, name_new] name_new name_old ∧
      cull_link cache_cycle [name_old, name_new] name_old name_new ∧
      ¬ cull_old buf_example name_new ∧
      (∀ n, ∃ p, (cull_walk_rounds cache_cycle 256 n [⟨name_old, 0⟩, ⟨name_new, 1⟩]
        (some name_old)).2 = some (some p)) ∧
      (∀ fuel, cull_walk cache_cycle 256 fuel [⟨name_old, 0⟩, ⟨name_new, 1⟩]
        (some name_old) = none) ∧
      (∀ fuel, ct_cull_collect_ctfiles cache_cycle 256 fuel 7 buf_example (ct_state_init 0)
        (cull_globals_of [] 1000) [⟨name_old, 0⟩, ⟨name_new, 0⟩] = none)) := by
  have hne : name_old ≠ name_new := by decide
  have hnew : ¬ cull_old buf_example name_new := by unfold cull_old; decide
  refine ⟨⟨⟨?_, by simp⟩, hnew, ?_, fun fuel => cull_walk_self fuel 1, cull_collect_self⟩,
    ⟨⟨?_, by simp⟩, ⟨?_, by simp⟩, hnew, fun n => (cull_walk_rounds_cycle n 0 1).1,
      fun fuel => (cull_walk_cycle fuel 0 1).1, cull_collect_cycle⟩⟩
  · simp [ctfile_get_previous, cache_self]
  · intro n
    rw [cull_walk_rounds_self]
  · simp [ctfile_get_previous, cache_cycle]
  · simp [ctfile_get_previous, cache_cycle, hne]

/-- The walk on the self-naming file evaluated for the first rounds: after 0,
1, 2 and 5 rounds it is about to follow the same name, and the keep counter
has grown by the number of rounds. -/
theorem cull_walk_self_rounds :
    [0, 1, 2, 5].map (fun n =>
        cull_walk_rounds cache_self 256 n [⟨name_new, 1⟩] (some name_new)) =
      [([⟨name_new, 1⟩], some (some name_new)), ([⟨name_new, 2⟩], some (some name_new)),
       ([⟨name_new, 3⟩], some (some name_new)), ([⟨name_new, 6⟩], some (some name_new))] := by
  decide

/-! ## Polled open: the reply header -/

/-- When the packet is built and all four I/O steps transfer what was
requested, `ct_xml_file_open_polled` returns 0 whatever status and opcode the
reply header carries. -/
theorem polled_open_full_exchange (env : polled_env) (file : Name) (mode : md_mode_t)
    (chunkno sz : Nat)
    (hc : env.ct_create_xml_open file mode chunkno = Except.ok sz)
    (h1 : env.write_header = (env.sizeof_hdr : Int)) (h2 : env.write_body = (sz : Int))
    (h3 : env.read_header = (env.sizeof_hdr : Int))
    (h4 : env.read_body = (env.reply_c_size : Int)) :
    (ct_xml_file_open_polled env file mode chunkno).1 = none := by
  unfold ct_xml_file_open_polled
  rw [hc]
  simp only [h1, h2, h3, h4, ne_eq, not_true_eq_false, if_false]
  split_ifs <;> rfl

/-- C22, the code at the failing input: the packet is built, both writes and
both reads transfer what was requested, and the reply header carries an error
status (or, in the second case, an opcode other than XML_REPLY).
`ct_xml_file_open_polled` returns 0: `rv` still holds the 0 that
`ct_create_xml_open` returned. -/
theorem polled_open_error_reply :
    ({ env_polled with reply_c_status := 1 } : polled_env).reply_c_status ≠
      env_polled.C_HDR_S_OK ∧
    ct_xml_file_open_polled { env_polled with reply_c_status := 1 }
        ['f'] md_mode_t.MD_O_READ 0 =
      (none, [io_step.write_header, io_step.write_body, io_step.read_header,
        io_step.read_body]) ∧
    ({ env_polled with reply_c_opcode := 9 } : polled_env).reply_c_opcode ≠
      env_polled.C_HDR_O_XML_REPLY ∧
    ct_xml_file_open_polled { env_polled with reply_c_opcode := 9 }
        ['f'] md_mode_t.MD_O_READ 0 =
      (none, [io_step.write_header, io_step.write_body, io_step.read_header,
        io_step.read_body]) := by
  decide

/-! ## Cull: a manifest whose parse fails -/

/-- When the parse of a manifest ends with `XS_RET_FAIL`, `ct_cull_add_shafile`
returns 0 without a fatal error and without going on to the previous-level
file. -/
theorem ct_cull_add_shafile_parse_fails (cache : ctfile_cache) (fuel : Nat)
    (state : ct_global_state) (g : cull_globals) (file : Name) (m : ctfile_manifest)
    (e : cte_t) (hm : cache file = Except.ok m) (he : m.ending = some e) :
    ct_cull_add_shafile cache (fuel + 1) state g file =
      some (0, state, ct_cull_add_records m.cmg_crypto m.records g) := by
  simp only [ct_cull_add_shafile, hm, he]

/-- C23, the code at the failing input: the newer file of scenario S6 is
listed and kept, and the parse of its manifest fails after the first SHA
record. `ct_cull_add_shafile` returns 0 and raises no fatal error;
`ct_cull_collect_ctfiles` calls `ct_op_complete` with a live-SHA set that
holds the one digest parsed and not the digest of the previous-level
manifest, which the same set would hold had the parse reached the end of the
file. -/
theorem cull_commits_after_parse_failure :
    (ct_cull_add_shafile cache_parse_fails 5 (ct_state_init 0) (cull_globals_of [] 1000)
        name_new).map (fun r => (r.1, r.2.1.ct_fatal_log, r.2.2.ct_sha_rb_head)) =
      some (0, [], [[2]]) ∧
    (ct_cull_collect_ctfiles cache_parse_fails 256 5 7 buf_example (ct_state_init 0)
        (cull_globals_of [] 1000) [⟨name_new, 0⟩]).map
        (fun r => (r.1.ct_op_completed, r.1.ct_fatal_log, r.1.ct_dying,
          r.2.1.ct_sha_rb_head)) =
      some (1, [], false, [[2]]) ∧
    (ct_cull_collect_ctfiles cache_S6 256 5 7 buf_example (ct_state_init 0)
        (cull_globals_of [] 1000) [⟨name_new, 0⟩]).map
        (fun r => (r.1.ct_op_completed, r.1.ct_fatal_log, r.1.ct_dying,
          r.2.1.ct_sha_rb_head)) =
      some (1, [], false, [[1], [2]]) := by
  decide

/-! ## Cull: predecessors that are not listed -/

/-- The walk ends at a predecessor that is not listed. The newer file of
scenario S6 names an unlisted cached file which names the older file: the
older file is not force-kept and a `ctfile_delete` is enqueued for it, while
the manifests of the whole chain are parsed into the live-SHA set. -/
theorem cull_collect_unlisted_link :
    cull_old buf_example name_old ∧
    ¬ cull_old buf_example name_new ∧
    ctfile_get_previous cache_ghost name_new = Except.ok (some name_ghost) ∧
    ctfile_get_previous cache_ghost name_ghost = Except.ok (some name_old) ∧
    name_ghost ∉ [name_old, name_new] ∧
    (ct_cull_collect_ctfiles cache_ghost 256 5 7 buf_example (ct_state_init 0)
      (cull_globals_of [] 1000) [⟨name_old, 0⟩, ⟨name_new, 0⟩]).map
        (fun r => (r.1.ct_operations, r.1.ct_fatal_log, r.1.ct_op_completed,
          r.2.1.ct_sha_rb_head)) =
      some ([spec_cull_delete_op name_old], [], 1, [[1], [2], [3]]) := by
  refine ⟨by unfold cull_old; decide, by unfold cull_old; decide, rfl, rfl,
    by decide, by decide⟩

/-- A previous-level file that cannot be read stops the cull. The newer file
is listed, kept and readable, and names a previous-level file that is not
listed and not readable: `ct_cull_add_shafile` raises the fatal error of the
parser and the operation is not completed. -/
theorem cull_collect_unreadable_chain :
    ¬ cull_old buf_example name_new ∧
    (∃ m, cache_broken_chain name_new = Except.ok m) ∧
    (ct_cull_collect_ctfiles cache_broken_chain 256 5 7 buf_example (ct_state_init 0)
      (cull_globals_of [] 1000) [⟨name_new, 0⟩]).map
        (fun r => (r.1.ct_operations, r.1.ct_fatal_log, r.1.ct_dying,
          r.1.ct_op_completed)) =
      some ([], [cte_t.CTE_ERRNO], true, 0) := by
  refine ⟨by unfold cull_old; decide, ⟨_, rfl⟩, by decide⟩

end Cyphertite
